import Mathlib

/-!
Verification of the spreadsheet-to-record reconciliation engine of the
product-database repository (src/app/productdb/excel_import.py together with
the data model of src/app/productdb/models.py).

The embedding models one spreadsheet cell as an optional `CellValue`
(`none` plays the role of a null/NaN cell, i.e. `pd.isnull` is true), a row as
an association list from normalized column names to cells, and the datastore
as plain lists of records.  The persistent storage engine and the tabular
reader are external collaborators: `save` stores exactly the record it is
given and lookups return what was stored.  Machine floats of the source are
modelled as exact rationals.
-/

/-- The value held in one spreadsheet cell, by Python runtime type: a float, an
int, a string, a date/timestamp (`pd.tslib.Timestamp` or `datetime.datetime`,
represented by the day ordinal that its `.date()` method returns), or a value
of any other type. -/
inductive CellValue where
  | float (q : ℚ)
  | int (n : ℤ)
  | str (s : String)
  | date (d : ℕ)
  | other
deriving DecidableEq, Repr

/-- A cell: `none` models a null/NaN value (`pd.isnull` holds). -/
abbrev Cell := Option CellValue

/-- A row of the parsed data frame: normalized column name to cell.  A key that
is absent models a column that is absent from the sheet (`row_key in row` is
false, `row[row_key]` raises `KeyError`). -/
abbrev Row := List (String × Cell)

/-- Looks a column up in a row: `none` when the column is absent. -/
def getCell (row : Row) (k : String) : Option Cell :=
  (row.find? (fun e => e.1 == k)).map (fun e => e.2)

/-- Rendering of a cell value inside a result message, modelling the string
interpolation `"%s" % value` of the source.  The exact rendering of non-string
values is immaterial to the claims. -/
def cellRepr : CellValue → String
  | .str s => s
  | .int n => toString n
  | .float q => toString q
  | .date d => toString d
  | .other => "object"

/-- Splitting a character list at every occurrence of a separator, keeping
empty pieces, like the Python `split` with an explicit one-character
separator. -/
def splitOnChar (sep : Char) : List Char → List (List Char)
  | [] => [[]]
  | c :: cs =>
      let r := splitOnChar sep cs
      if c == sep then [] :: r
      else
        match r with
        | [] => [[c]]
        | h :: t => (c :: h) :: t

/-- The pieces of `split(" ")` applied to a string (line 224). -/
def splitCells (s : String) : List (List Char) := splitOnChar (Char.ofNat 32) s.data

def isPyWhitespace (c : Char) : Bool :=
  c.toNat == 32 || c.toNat == 9 || c.toNat == 10 || c.toNat == 13 ||
    c.toNat == 11 || c.toNat == 12

/-- ASCII upper-casing of one character, the effect of the Python `.upper()`
on the inputs in scope. -/
def upperChar (c : Char) : Char :=
  if 97 ≤ c.toNat && c.toNat ≤ 122 then Char.ofNat (c.toNat - 32) else c

/-- The Python `.upper()` on a string. -/
def upperStr (s : String) : String := ⟨s.data.map upperChar⟩

/-- ASCII lower-casing, the effect of `.lower()` on the inputs in scope. -/
def lowerChar (c : Char) : Char :=
  if 65 ≤ c.toNat && c.toNat ≤ 90 then Char.ofNat (c.toNat + 32) else c

def lowerStr (s : String) : String := ⟨s.data.map lowerChar⟩

/-- The Python `.strip()`: drop surrounding whitespace. -/
def stripChars (l : List Char) : List Char :=
  ((l.dropWhile isPyWhitespace).reverse.dropWhile isPyWhitespace).reverse

def stripStr (s : String) : String := ⟨stripChars s.data⟩

/-- Numeric value of a digit list. -/
def digitsVal (l : List Char) : ℕ :=
  l.foldl (fun a c => a * 10 + (c.toNat - 48)) 0

def isDigitChar (c : Char) : Bool := 48 ≤ c.toNat && c.toNat ≤ 57

/-- Model of the Python builtin `float(str)` on decimal numerals: optional
surrounding whitespace, an optional sign, then digits with at most one decimal
point (at least one digit overall).  `none` models a raised `ValueError`.
Exotic accepted forms of the builtin (exponents, infinities, underscores) are
outside the inputs the importer is specified on and are not modelled. -/
def pyFloatL? (l : List Char) : Option ℚ :=
  let t := stripChars l
  let sgn : ℤ := if t.headD (Char.ofNat 32) == Char.ofNat 45 then -1 else 1
  let u := if t.headD (Char.ofNat 32) == Char.ofNat 45 ||
              t.headD (Char.ofNat 32) == Char.ofNat 43 then t.tail else t
  match splitOnChar (Char.ofNat 46) u with
  | [a] =>
      if a.length > 0 && a.all isDigitChar then some (mkRat (sgn * (digitsVal a : ℤ)) 1)
      else none
  | [a, b] =>
      if (a.length + b.length > 0) && a.all isDigitChar && b.all isDigitChar then
        some (mkRat (sgn * ((digitsVal a : ℤ) * (10 : ℤ) ^ b.length + (digitsVal b : ℤ)))
          ((10 : ℕ) ^ b.length))
      else none
  | _ => none

def pyFloat? (s : String) : Option ℚ := pyFloatL? s.data

/-- Decidable equality of `Except` results, used to evaluate the embedding on
concrete inputs. -/
instance {α β : Type} [DecidableEq α] [DecidableEq β] : DecidableEq (Except α β) := fun x y =>
  match x, y with
  | .error a, .error b =>
      if h : a = b then .isTrue (by rw [h]) else .isFalse (fun hh => by cases hh; exact h rfl)
  | .ok a, .ok b =>
      if h : a = b then .isTrue (by rw [h]) else .isFalse (fun hh => by cases hh; exact h rfl)
  | .error a, .ok b => .isFalse (fun hh => by cases hh)
  | .ok a, .error b => .isFalse (fun hh => by cases hh)

/-- Keys of `CURRENCY_CHOICES` (models.py lines 8-11). -/
def currencyKeys : List String := ["EUR", "USD"]

def curUSD : String := "USD"

def colProductId : String := "product id"
def colDescription : String := "description"
def colListPrice : String := "list price"
def colCurrency : String := "currency"
def colVendor : String := "vendor"
def colProductGroup : String := "product group"
def colEolUrl : String := "eol note url"
def colEolFriendly : String := "eol note url (friendly name)"
def colInternalId : String := "internal product id"

/-- A product record (models.py lines 39-218), with the field defaults of the
model: description "not set", no list price, currency "USD", the sentinel
vendor id 0, no group, no EoL references, and nine null lifecycle dates held
as a list indexed in the order of the `data_map` dict of the importer.
Fields assigned raw cell values store the cell value itself, as the source
assigns `row[row_key]` unconverted.  The field `internal_product_id` is
Modelled from the spec: the import logic reads and assigns it as an optional
record attribute, but the models.py snapshot under src does not declare it. -/
structure Product where
  product_id : CellValue
  description : CellValue
  list_price : Option ℚ
  currency : String
  vendor : ℕ
  product_group : Option (CellValue × ℕ)
  eol_reference_url : Option CellValue
  eol_reference_number : Option CellValue
  internal_product_id : Option CellValue
  dates : List (Option ℕ)
deriving DecidableEq, Repr

/-- A freshly created product with the model defaults. -/
def defaultProduct (pid : CellValue) : Product :=
  ⟨pid, .str "not set", none, curUSD, 0, none, none, none, none, List.replicate 9 none⟩

/-- The datastore reachable from the Product importer: products, vendors
(id and name; models.py lines 14-36), and product groups.  Product groups are
Modelled from the spec: a `ProductGroupRecord` is identified by its
(name, vendor) pair and created on demand; the class is referenced by the
importer but missing from the models.py snapshot under src. -/
structure DB where
  products : List Product
  vendors : List (ℕ × String)
  groups : List (CellValue × ℕ)
deriving DecidableEq, Repr

/-- `Product.objects.get(product_id=...)`: lookup by natural key. -/
def productById (db : DB) (pid : CellValue) : Option Product :=
  db.products.find? (fun p => p.product_id == pid)

/-- `Product.objects.get_or_create(product_id=...)` (line 198): returns the
stored record, or creates and stores a fresh default record, with the
created flag. -/
def getOrCreateProduct (db : DB) (pid : CellValue) : Product × Bool × DB :=
  match productById db pid with
  | some p => (p, false, db)
  | none =>
      let p := defaultProduct pid
      (p, true, { db with products := db.products ++ [p] })

/-- `p.save()`: the transactional save replaces the stored record having the
same natural key.  The external datastore stores exactly what it is given. -/
def saveProduct (db : DB) (p : Product) : DB :=
  { db with products := db.products.map (fun q => if q.product_id == p.product_id then p else q) }

/-- Resolution of a vendor id to its name (`p.vendor.name`); `none` models a
raised `DoesNotExist` on the foreign-key access. -/
def vendorNameOf (vendors : List (ℕ × String)) (vid : ℕ) : Option String :=
  (vendors.find? (fun v => v.1 == vid)).map (fun v => v.2)

/-- `Vendor.objects.get(name=row["vendor"])` (line 287): lookup by name against
the raw cell value; only a string cell equal to a stored name matches. -/
def vendorByName (vendors : List (ℕ × String)) (c : CellValue) : Option ℕ :=
  (vendors.find? (fun v => CellValue.str v.2 == c)).map (fun v => v.1)

/-- `ProductGroup.objects.get_or_create(name=..., vendor=...)` (line 307):
creates the (name, vendor) group when absent. -/
def groupGetOrCreate (groups : List (CellValue × ℕ)) (name : CellValue) (vid : ℕ) :
    List (CellValue × ℕ) :=
  if groups.any (fun g => g.1 == name && g.2 == vid) then groups
  else groups ++ [(name, vid)]

/-- The state threaded through the field blocks of one row of
`ProductsExcelImporter.import_to_database` (the `try` body, lines 202-336):
the groups table (the only part of the datastore the blocks write), the
in-memory record `p`, the `changed` flag, and `err`, which models a raised
exception as the pair of the `row_key` in scope at the raise site and the
exception text; once `err` is set the remaining blocks are skipped, exactly
as the `except` at line 334 skips the rest of the `try` body. -/
structure FSt where
  groups : List (CellValue × ℕ)
  p : Product
  changed : Bool
  err : Option (String × String)
deriving DecidableEq, Repr

def keyErrorText (k : String) : String := "KeyError " ++ k

/-- Lines 204-210: set the description value when the cell is non-null and
differs.  An absent column makes `row[row_key]` raise `KeyError`. -/
def descriptionBlock (row : Row) (st : FSt) : FSt :=
  if st.err.isSome then st else
  match getCell row colDescription with
  | none => { st with err := some (colDescription, keyErrorText colDescription) }
  | some none => st
  | some (some v) =>
      if st.p.description ≠ v then
        { st with p := { st.p with description := v }, changed := true }
      else st

/-- Lines 212-255: determine the list price and currency from the cell.
Returns the pair (new_price, new_currency) or the text of the raised
exception.  A null cell yields no price (and the default currency "USD"); a
float or int cell is a bare number; a string cell is split on single spaces
into one numeric token, or a numeric token and a currency code that must
case-insensitively be a key of `CURRENCY_CHOICES`; anything else raises. -/
def parseListPrice (cell : Cell) : Except String (Option ℚ × String) :=
  match cell with
  | none => .ok (none, curUSD)
  | some (.float q) => .ok (some q, curUSD)
  | some (.int n) => .ok (some (n : ℚ), curUSD)
  | some (.str s) =>
      match splitCells s with
      | [_] =>
          match pyFloat? s with
          | some q => .ok (some q, curUSD)
          | none => .error ("could not convert string to float: " ++ s)
      | [t1, t2] =>
          match pyFloatL? t1 with
          | none => .error "cannot convert price information to float"
          | some q =>
              if upperStr ⟨t2⟩ ∈ currencyKeys then .ok (some q, upperStr ⟨t2⟩)
              else .error ("cannot set currency unknown value " ++ upperStr ⟨t2⟩)
      | _ => .error "invalid format for list price, detected multiple spaces"
  | some _ => .error "invalid data-type for list price"

/-- Lines 257-266: the optional "currency" column overrides the currency when
present and non-null; the code calls `.upper()` on the raw cell, so a
non-string cell raises, and an unknown code raises. -/
def resolveCurrencyColumn (row : Row) (nc : String) : Except String String :=
  match getCell row colCurrency with
  | none => .ok nc
  | some none => .ok nc
  | some (some (.str s)) =>
      if upperStr s ∈ currencyKeys then .ok (upperStr s)
      else .error ("cannot set currency unknown value " ++ upperStr s)
  | some (some _) => .error "upper is not defined on this value"

/-- Lines 212-275: parse the list price, resolve the currency column, and
apply the new price and currency when the price is present and they differ
from the stored values. -/
def priceCurrencyBlock (row : Row) (st : FSt) : FSt :=
  if st.err.isSome then st else
  match getCell row colListPrice with
  | none => { st with err := some (colListPrice, keyErrorText colListPrice) }
  | some cell =>
      match parseListPrice cell with
      | .error e => { st with err := some (colListPrice, e) }
      | .ok (new_price, nc0) =>
          match resolveCurrencyColumn row nc0 with
          | .error e => { st with err := some (colCurrency, e) }
          | .ok new_currency =>
              match new_price with
              | none => st
              | some q =>
                  let st1 :=
                    if st.p.list_price ≠ some q then
                      { st with p := { st.p with list_price := some q }, changed := true }
                    else st
                  if st1.p.currency ≠ new_currency then
                    { st1 with p := { st1.p with currency := new_currency }, changed := true }
                  else st1

/-- Lines 277-293: a null vendor cell on a newly created record assigns the
sentinel vendor with id 0 (`Vendor.objects.get(id=0)` raises when absent); a
non-null cell differing from the name of the current vendor is looked up by
name, a missing vendor raising the exception that rejects the row. -/
def vendorBlock (vendors : List (ℕ × String)) (row : Row) (created : Bool) (st : FSt) : FSt :=
  if st.err.isSome then st else
  match getCell row colVendor with
  | none => { st with err := some (colVendor, keyErrorText colVendor) }
  | some none =>
      if created then
        match vendorNameOf vendors 0 with
        | some _ => { st with changed := true, p := { st.p with vendor := 0 } }
        | none => { st with err := some (colVendor, "Vendor matching query does not exist") }
      else st
  | some (some v) =>
      match vendorNameOf vendors st.p.vendor with
      | none => { st with err := some (colVendor, "Vendor matching query does not exist") }
      | some nm =>
          if CellValue.str nm ≠ v then
            match vendorByName vendors v with
            | some vid => { st with changed := true, p := { st.p with vendor := vid } }
            | none =>
                { st with err := some (colVendor,
                    "Vendor <strong>" ++ cellRepr v ++ "</strong> does not exist") }
          else st

/-- Lines 295-310: the optional product group column; when the record has no
group or its group name differs, resolve-or-create the group scoped to the
record's current vendor and assign it. -/
def productGroupBlock (row : Row) (st : FSt) : FSt :=
  if st.err.isSome then st else
  match getCell row colProductGroup with
  | none => st
  | some none => st
  | some (some v) =>
      let set_value :=
        match st.p.product_group with
        | none => true
        | some pg => pg.1 ≠ v
      if set_value then
        { st with groups := groupGetOrCreate st.groups v st.p.vendor,
                  changed := true,
                  p := { st.p with product_group := some (v, st.p.vendor) } }
      else st

/-- Lines 312-318: the optional EoL note URL, assigned when present, non-null
and different. -/
def eolUrlBlock (row : Row) (st : FSt) : FSt :=
  if st.err.isSome then st else
  match getCell row colEolUrl with
  | none => st
  | some none => st
  | some (some v) =>
      if st.p.eol_reference_url ≠ some v then
        { st with p := { st.p with eol_reference_url := some v }, changed := true }
      else st

/-- Lines 320-324: the optional EoL note URL friendly name; the source assigns
it when different but does not set `changed` (the asymmetry the spec notes as
suspect is reproduced literally). -/
def eolFriendlyBlock (row : Row) (st : FSt) : FSt :=
  if st.err.isSome then st else
  match getCell row colEolFriendly with
  | none => st
  | some none => st
  | some (some v) =>
      if st.p.eol_reference_number ≠ some v then
        { st with p := { st.p with eol_reference_number := some v } }
      else st

/-- Lines 326-332: the optional internal product id, assigned when present,
non-null and different. -/
def internalIdBlock (row : Row) (st : FSt) : FSt :=
  if st.err.isSome then st else
  match getCell row colInternalId with
  | none => st
  | some none => st
  | some (some v) =>
      if st.p.internal_product_id ≠ some v then
        { st with p := { st.p with internal_product_id := some v }, changed := true }
      else st

/-- The whole `try` body, lines 202-336: the field blocks in source order. -/
def mainFieldBlocks (vendors : List (ℕ × String)) (row : Row) (created : Bool) (st : FSt) : FSt :=
  internalIdBlock row (eolFriendlyBlock row (eolUrlBlock row (productGroupBlock row
    (vendorBlock vendors row created (priceCurrencyBlock row (descriptionBlock row st))))))

/-- The `data_map` dict of lines 339-350, in source (insertion) order: the
index of the record attribute in `Product.dates` paired with the data frame
column name. -/
def dateMap : List (ℕ × String) :=
  [(0, "eox update timestamp"),
   (1, "eol announcement date"),
   (2, "end of sale date"),
   (3, "end of new service attachment date"),
   (4, "end of sw maintenance date"),
   (5, "end of routing failure analysis date"),
   (6, "end of service contract renewal date"),
   (7, "last date of support"),
   (8, "end of security/vulnerability support date")]

/-- Lines 100-126, `_import_datetime_column_from_file`: returns
(changed, faulty_entry, msg, product).  A non-null cell of date type differing
from the current value is assigned; a non-null cell of any other type gives
`newval = None`, so only when the current value is non-null does the
comparison differ and the `.date()` call on the non-date value raise, which
marks the row faulty with a message citing the column and the product id. -/
def importDatetimeColumnFromFile (row_key : String) (row : Row) (idx : ℕ)
    (p : Product) (pid : CellValue) : Bool × Bool × String × Product :=
  match getCell row row_key with
  | none => (false, false, "", p)
  | some none => (false, false, "", p)
  | some (some v) =>
      let currval := p.dates.getD idx none
      let newval : Option ℕ := match v with | .date d => some d | _ => none
      if currval ≠ newval then
        match v with
        | .date d => (true, false, "", { p with dates := p.dates.set idx (some d) })
        | _ => (false, true,
            "cannot set " ++ row_key ++ " for <code>" ++ cellRepr pid ++
              "</code> (value has no date attribute)", p)
      else (false, false, "", p)

/-- Lines 352-361: the loop over the nine date columns, accumulating `changed`
and breaking at the first faulty column with its message. -/
def dateColumnsLoop (row : Row) (pid : CellValue) :
    List (ℕ × String) → Product → Bool → Product × Bool × Bool × String
  | [], p, changed => (p, changed, false, "")
  | (idx, col) :: rest, p, changed =>
      let r := importDatetimeColumnFromFile col row idx p pid
      let changed1 := changed || r.1
      if r.2.1 then (r.2.2.2, changed1, true, r.2.2.1)
      else dateColumnsLoop row pid rest r.2.2.2 changed1

/-- One per-row outcome event, mirroring the message appends of the save and
error blocks (lines 363-403): a "created"/"updated" message after a save, a
"no changes required" message, a rejection message for a faulty row, and the
terminal error-budget message. -/
inductive Outcome where
  | created
  | updated
  | unchanged
  | rejected
  | terminal
deriving DecidableEq, Repr

/-- Whether an outcome is a save outcome (a created or updated row). -/
def Outcome.isSave : Outcome → Bool
  | .created => true
  | .updated => true
  | _ => false

/-- The per-run state of one import: the two counters, the ordered message
list, the number of revision-history entries appended (one per successful
save, lines 367-376), and the ordered outcome events. -/
structure Session where
  valid : ℕ
  invalid : ℕ
  messages : List String
  revisions : ℕ
  outcomes : List Outcome
deriving DecidableEq, Repr

/-- The fresh session of lines 167-169. -/
def emptySession : Session := ⟨0, 0, [], 0, []⟩

def tooManyMsg : String :=
  "There are too many errors in your file, please correct them and upload it again"

def unchangedMsgFor (pid : CellValue) : String :=
  "<i>no changes for product <code>" ++ cellRepr pid ++ "</code> required</i>"

def createdMsgFor (pid : CellValue) : String :=
  "product <code>" ++ cellRepr pid ++ "</code> created"

def updatedMsgFor (pid : CellValue) : String :=
  "product <code>" ++ cellRepr pid ++ "</code> updated"

def faultyMsgFor (pid : CellValue) : String × String → String
  | (k, e) => "cannot set " ++ k ++ " for <code>" ++ cellRepr pid ++ "</code> (" ++ e ++ ")"

/-- The commit-and-report tail of one row (lines 363-403): save the record and
append a revision entry when `changed` holds, append the per-row result
message, and on a faulty row append its message, bump the invalid counter and
terminate the run once the counter exceeds 30.  The save always succeeds in
this datastore model, so the `except` of line 390 never fires. -/
def finishRow (db1 : DB) (p2 : Product) (pid : CellValue) (created changed faulty : Bool)
    (msg : String) (s : Session) : DB × Session × Bool :=
  let dbs : DB × Session :=
    if changed then
      (saveProduct db1 p2,
       { s with valid := s.valid + 1,
                revisions := s.revisions + 1,
                messages := s.messages ++
                  [if created then createdMsgFor pid else updatedMsgFor pid],
                outcomes := s.outcomes ++
                  [if created then Outcome.created else Outcome.updated] })
    else
      (db1, { s with messages := s.messages ++ [unchangedMsgFor pid],
                     outcomes := s.outcomes ++ [Outcome.unchanged] })
  if faulty then
    let s3 : Session :=
      { dbs.2 with messages := dbs.2.messages ++ [msg],
                   invalid := dbs.2.invalid + 1,
                   outcomes := dbs.2.outcomes ++ [Outcome.rejected] }
    if s3.invalid > 30 then
      (dbs.1, { s3 with messages := s3.messages ++ [tooManyMsg],
                        outcomes := s3.outcomes ++ [Outcome.terminal] }, true)
    else (dbs.1, s3, false)
  else (dbs.1, dbs.2, false)

/-- One iteration of the row loop of `ProductsExcelImporter.import_to_database`
(lines 174-405).  Returns the datastore, the session, and whether the
error-budget cutoff terminated the run (the `break` at line 403).  In
`update_only` mode a missing record skips the row silently.  A row whose
product id column is absent or null cannot reach the loop body (the data
frame dropna has removed it; with the column absent the dropna itself raises
before any row is processed) and is returned unprocessed.
`processFound` is the body once the record is resolved: the field blocks, the
date-column loop, and the commit-and-report tail. -/
def processFound (db0 : DB) (s : Session) (row : Row) (pid : CellValue) (p0 : Product)
    (created : Bool) : DB × Session × Bool :=
  let stM := mainFieldBlocks db0.vendors row created ⟨db0.groups, p0, created, none⟩
  let dres := dateColumnsLoop row pid dateMap stM.p stM.changed
  let faulty := stM.err.isSome || dres.2.2.1
  let msg :=
    if dres.2.2.1 then dres.2.2.2
    else match stM.err with
         | some ke => faultyMsgFor pid ke
         | none => "import successful"
  finishRow { db0 with groups := stM.groups } dres.1 pid created dres.2.1 faulty msg s

def processRow (update_only : Bool) (db : DB) (s : Session) (row : Row) :
    DB × Session × Bool :=
  match getCell row colProductId with
  | some (some pid) =>
      if update_only then
        match productById db pid with
        | some p => processFound db s row pid p false
        | none => (db, s, false)
      else
        let goc := getOrCreateProduct db pid
        processFound goc.2.2 s row pid goc.1 goc.2.1
  | _ => (db, s, false)

/-- The row loop, with the number of rows consumed; the error-budget `break`
stops the recursion. -/
def importRowsGo (update_only : Bool) : List Row → DB → Session → DB × Session × ℕ
  | [], db, s => (db, s, 0)
  | row :: rest, db, s =>
      let r := processRow update_only db s row
      if r.2.2 then (r.1, r.2.1, 1)
      else
        let r2 := importRowsGo update_only rest r.1 r.2.1
        (r2.1, r2.2.1, r2.2.2 + 1)

/-- A whole Product import run over already-parsed rows: counters and messages
reset (lines 167-169), then the row loop. -/
def productImport (db : DB) (rows : List Row) (update_only : Bool) : DB × Session × ℕ :=
  importRowsGo update_only rows db emptySession

/-- One sheet of a parsed workbook: its name, its header columns, and its cell
grid (one list of cells per row, positionally matching the columns). -/
structure Sheet where
  name : String
  columns : List String
  cells : List (List Cell)
deriving DecidableEq, Repr

/-- A workbook-like source already loaded by the tabular reader. -/
structure Workbook where
  sheets : List Sheet
deriving DecidableEq, Repr

/-- An importer instance: its loaded workbook and the `valid_file` flag
(class attribute, initially false; lines 32-34 and 75-98). -/
structure Importer where
  workbook : Workbook
  valid_file : Bool
deriving DecidableEq, Repr

def findSheet (wb : Workbook) (n : String) : Option Sheet :=
  wb.sheets.find? (fun sh => sh.name == n)

def sheetProducts : String := "products"

/-- The required keys of the Product importer (line 140). -/
def requiredProductKeys : List String :=
  [colProductId, colDescription, colListPrice, colVendor]

/-- Lines 75-98, `verify_file`: clears `valid_file`, raises when the required
sheet is absent or the lower-cased header keys do not contain every required
key, and otherwise marks the source valid.  A raise leaves `valid_file`
false. -/
def verifyFile (imp : Importer) (sheetname : String) (required : List String) :
    Except String Importer :=
  let imp0 : Importer := { imp with valid_file := false }
  match findSheet imp.workbook sheetname with
  | none => .error ("sheet " ++ sheetname ++ " not found")
  | some sh =>
      let keys := sh.columns.map lowerStr
      if required.all (fun k => keys.contains k) then
        .ok { imp0 with valid_file := true }
      else .error "not all required keys are found in the Excel file"

/-- Lines 62-73, `_create_data_frame` restricted to one sheet: normalize the
column names (lower-case, then strip) and pair them with each row's cells. -/
def sheetRows (sh : Sheet) : List Row :=
  let cols := (sh.columns.map lowerStr).map stripStr
  sh.cells.map (fun cs => cols.zip cs)

/-- Lines 156-405, `ProductsExcelImporter.import_to_database` from a loaded
workbook: parse the "products" sheet (a missing sheet raises while building
the data frame), drop the rows whose "product id" is null (a missing
"product id" column makes the dropna raise), then run the row loop.  The
`valid_file` flag of the importer is never consulted. -/
def importToDatabase (imp : Importer) (db : DB) (update_only : Bool) :
    Except String (DB × Session × ℕ) :=
  match findSheet imp.workbook sheetProducts with
  | none => .error ("sheet " ++ sheetProducts ++ " not found")
  | some sh =>
      let cols := (sh.columns.map lowerStr).map stripStr
      if cols.contains colProductId then
        let kept := (sheetRows sh).filter (fun r =>
          match getCell r colProductId with
          | some (some _) => true
          | _ => false)
        .ok (productImport db kept update_only)
      else .error (keyErrorText colProductId)

/-- Modelled from the spec: a `MigrationSourceRecord` is identified by its
name and carries a numeric preference; the class is referenced by the
importer but missing from the models.py snapshot under src.  Auto-created
sources end with the fixed preference 10 (lines 459-461 set it right after
creation). -/
structure ProductMigrationSource where
  name : CellValue
  preference : ℤ
deriving DecidableEq, Repr

/-- Modelled from the spec: a `MigrationOptionRecord` is identified by its
(product, migration source) pair and carries an optional replacement product
id, comment and info URL; the class is referenced by the importer but missing
from the models.py snapshot under src. -/
structure ProductMigrationOption where
  product : CellValue
  migration_source : CellValue
  replacement_product_id : Option CellValue
  comment : Option CellValue
  migration_product_info_url : Option CellValue
deriving DecidableEq, Repr

/-- The datastore reachable from the Migration importer. -/
structure MigDB where
  db : DB
  sources : List ProductMigrationSource
  options : List ProductMigrationOption
deriving DecidableEq, Repr

/-- `ProductMigrationSource.objects.get_or_create(name=...)` (lines 455-457);
a created source immediately receives preference 10 (lines 459-461). -/
def sourceGetOrCreate (mdb : MigDB) (name : CellValue) : Bool × MigDB :=
  if mdb.sources.any (fun src => src.name == name) then (false, mdb)
  else (true, { mdb with sources := mdb.sources ++ [⟨name, 10⟩] })

/-- `ProductMigrationOption.objects.get_or_create(product=..., migration_source=...)`
(lines 465-466). -/
def optionGetOrCreate (mdb : MigDB) (pid msrc : CellValue) :
    ProductMigrationOption × Bool × MigDB :=
  match mdb.options.find? (fun o => o.product == pid && o.migration_source == msrc) with
  | some o => (o, false, mdb)
  | none =>
      let o : ProductMigrationOption := ⟨pid, msrc, none, none, none⟩
      (o, true, { mdb with options := mdb.options ++ [o] })

/-- `pmo.save()` (line 485): replaces the stored option with the same
(product, migration source) key. -/
def saveOption (mdb : MigDB) (o : ProductMigrationOption) : MigDB :=
  { mdb with options := mdb.options.map (fun q =>
      if q.product == o.product && q.migration_source == o.migration_source then o else q) }

def migSkipMsgFor (pid : CellValue) : String :=
  "Product " ++ cellRepr pid ++ " not found in database, skip entry"

def colMigrationSource : String := "migration source"
def colReplacementId : String := "replacement product id"
def colComment : String := "comment"
def colMigUrl : String := "migration product info url"

/-- Assignment of one optional option field (lines 467-483): assign the cell
when the column is present, the cell non-null and the value different. -/
def setOptField (row : Row) (k : String) (cur : Option CellValue) : Option CellValue :=
  match getCell row k with
  | some (some v) => if cur ≠ some v then some v else cur
  | _ => cur

/-- One iteration of the row loop of
`ProductMigrationsExcelImporter.import_to_database` (lines 441-504): an empty
product id is skipped; a product id absent from the datastore appends the
skip message and leaves the datastore untouched (the lookup raises before any
record is created and the per-row transaction rolls back); otherwise the
migration source and option are resolved-or-created, the optional fields set,
and the option saved unconditionally.  Rows whose product id or migration
source column is absent or null cannot reach the loop body (dropna removed
them) and are returned unprocessed. -/
def migrationProcessRow (mdb : MigDB) (msgs : List String) (row : Row) :
    MigDB × List String :=
  match getCell row colProductId with
  | some (some pid) =>
      if pid == CellValue.str "" then (mdb, msgs)
      else
        match productById mdb.db pid with
        | none => (mdb, msgs ++ [migSkipMsgFor pid])
        | some _ =>
            match getCell row colMigrationSource with
            | some (some msrc) =>
                let cr := sourceGetOrCreate mdb msrc
                let msgs1 :=
                  if cr.1 then
                    msgs ++ ["Product Migration Source " ++ cellRepr msrc ++
                      " was created with a preference of 10"]
                  else msgs
                let ocr := optionGetOrCreate cr.2 pid msrc
                let pmo0 := ocr.1
                let created := ocr.2.1
                let pmo1 := { pmo0 with comment := setOptField row colComment pmo0.comment }
                let pmo2 := { pmo1 with
                  replacement_product_id := setOptField row colReplacementId pmo1.replacement_product_id }
                let pmo3 := { pmo2 with
                  migration_product_info_url := setOptField row colMigUrl pmo2.migration_product_info_url }
                let mdb3 := saveOption ocr.2.2 pmo3
                let msgs2 := msgs1 ++
                  [(if created then "create" else "update") ++
                    " Product Migration path " ++ cellRepr msrc ++
                    " for Product " ++ cellRepr pid]
                (mdb3, msgs2)
            | _ => (mdb, msgs)
  | _ => (mdb, msgs)

/-- The Migration row loop: every row is processed, with no cutoff of any
kind (lines 438-504). -/
def migrationRowsGo : List Row → MigDB → List String → MigDB × List String
  | [], mdb, msgs => (mdb, msgs)
  | row :: rest, mdb, msgs =>
      let r := migrationProcessRow mdb msgs row
      migrationRowsGo rest r.1 r.2

/-- A whole Migration import run: messages reset (line 438), then the loop. -/
def migrationImport (mdb : MigDB) (rows : List Row) : MigDB × List String :=
  migrationRowsGo rows mdb []

def savedMsgFor (pid : CellValue) (created : Bool) : String :=
  if created then createdMsgFor pid else updatedMsgFor pid

def savedOutcome (created : Bool) : Outcome :=
  if created then Outcome.created else Outcome.updated

theorem finishRow_db (db1 : DB) (p2 : Product) (pid : CellValue)
    (created changed faulty : Bool) (msg : String) (s : Session) :
    (finishRow db1 p2 pid created changed faulty msg s).1 =
      if changed then saveProduct db1 p2 else db1 := by
  unfold finishRow
  cases changed <;> cases faulty <;> simp <;> split <;> rfl

theorem finishRow_valid (db1 : DB) (p2 : Product) (pid : CellValue)
    (created changed faulty : Bool) (msg : String) (s : Session) :
    (finishRow db1 p2 pid created changed faulty msg s).2.1.valid =
      if changed then s.valid + 1 else s.valid := by
  unfold finishRow
  cases changed <;> cases faulty <;> simp <;> split <;> rfl

theorem finishRow_revisions (db1 : DB) (p2 : Product) (pid : CellValue)
    (created changed faulty : Bool) (msg : String) (s : Session) :
    (finishRow db1 p2 pid created changed faulty msg s).2.1.revisions =
      if changed then s.revisions + 1 else s.revisions := by
  unfold finishRow
  cases changed <;> cases faulty <;> simp <;> split <;> rfl

theorem finishRow_invalid (db1 : DB) (p2 : Product) (pid : CellValue)
    (created changed faulty : Bool) (msg : String) (s : Session) :
    (finishRow db1 p2 pid created changed faulty msg s).2.1.invalid =
      if faulty then s.invalid + 1 else s.invalid := by
  unfold finishRow
  cases changed <;> cases faulty <;> simp <;> split <;> rfl

theorem finishRow_stop (db1 : DB) (p2 : Product) (pid : CellValue)
    (created changed faulty : Bool) (msg : String) (s : Session) :
    (finishRow db1 p2 pid created changed faulty msg s).2.2 =
      (faulty && decide (s.invalid + 1 > 30)) := by
  unfold finishRow
  cases changed <;> cases faulty <;> simp <;> split <;> simp_all

theorem finishRow_outcomes (db1 : DB) (p2 : Product) (pid : CellValue)
    (created changed faulty : Bool) (msg : String) (s : Session) :
    (finishRow db1 p2 pid created changed faulty msg s).2.1.outcomes =
      s.outcomes ++ (if changed then [savedOutcome created] else [Outcome.unchanged]) ++
        (if faulty then
          Outcome.rejected :: (if s.invalid + 1 > 30 then [Outcome.terminal] else [])
        else []) := by
  unfold finishRow savedOutcome
  cases changed <;> cases faulty <;> simp <;> split <;> simp

theorem finishRow_messages (db1 : DB) (p2 : Product) (pid : CellValue)
    (created changed faulty : Bool) (msg : String) (s : Session) :
    (finishRow db1 p2 pid created changed faulty msg s).2.1.messages =
      s.messages ++ (if changed then [savedMsgFor pid created] else [unchangedMsgFor pid]) ++
        (if faulty then msg :: (if s.invalid + 1 > 30 then [tooManyMsg] else []) else []) := by
  unfold finishRow savedMsgFor
  cases changed <;> cases faulty <;> simp <;> split <;> simp

theorem processRow_shape (uo : Bool) (db : DB) (s : Session) (row : Row) :
    processRow uo db s row = (db, s, false) ∨
    ∃ db1 p2 pid created changed faulty msg,
      processRow uo db s row = finishRow db1 p2 pid created changed faulty msg s := by
  cases h : getCell row colProductId with
  | none => left; simp [processRow, h]
  | some c =>
    cases c with
    | none => left; simp [processRow, h]
    | some pid =>
      cases uo with
      | false =>
        right
        unfold processRow
        rw [h]
        unfold processFound
        exact ⟨_, _, _, _, _, _, _, rfl⟩
      | true =>
        cases hp : productById db pid with
        | none => left; simp [processRow, h, hp]
        | some p =>
          right
          have heq : processRow true db s row = processFound db s row pid p false := by
            simp [processRow, h, hp]
          rw [heq]
          unfold processFound
          exact ⟨_, _, _, _, _, _, _, rfl⟩

def termCount (s : Session) : ℕ := s.outcomes.countP (fun o => o == Outcome.terminal)

theorem processRow_events (uo : Bool) (db : DB) (s : Session) (row : Row) :
    ∃ t : List Outcome,
      (processRow uo db s row).2.1.outcomes = s.outcomes ++ t ∧
      (processRow uo db s row).2.1.valid = s.valid + t.countP Outcome.isSave ∧
      (processRow uo db s row).2.1.invalid =
        s.invalid + t.countP (fun o => o == Outcome.rejected) ∧
      (processRow uo db s row).2.1.revisions = s.revisions + t.countP Outcome.isSave ∧
      t.countP (fun o => o == Outcome.rejected) ≤ 1 ∧
      t.countP Outcome.isSave ≤ 1 ∧
      t.countP (fun o => o == Outcome.terminal) =
        (if (processRow uo db s row).2.2 then 1 else 0) ∧
      ((processRow uo db s row).2.2 = true →
        ∃ ms, (processRow uo db s row).2.1.messages = s.messages ++ ms ++ [tooManyMsg]) := by
  rcases processRow_shape uo db s row with h | ⟨db1, p2, pid, c, ch, f, m, h⟩
  · refine ⟨[], ?_⟩
    rw [h]
    simp
  · rw [h, finishRow_outcomes, finishRow_valid, finishRow_invalid, finishRow_revisions,
      finishRow_stop, finishRow_messages]
    by_cases h30 : s.invalid + 1 > 30
    · cases ch <;> cases f <;> cases c <;>
        simp [h30, savedOutcome, Outcome.isSave, List.countP_append, List.countP_cons] <;>
        exact ⟨[_, m], rfl⟩
    · cases ch <;> cases f <;> cases c <;>
        simp [h30, savedOutcome, Outcome.isSave, List.countP_append, List.countP_cons]

theorem processRow_stop_iff (uo : Bool) (db : DB) (s : Session) (row : Row) :
    (processRow uo db s row).2.2 = true ↔
      ((processRow uo db s row).2.1.invalid = s.invalid + 1 ∧ 30 ≤ s.invalid) := by
  rcases processRow_shape uo db s row with h | ⟨db1, p2, pid, c, ch, f, m, h⟩
  · rw [h]
    simp only [Bool.false_eq_true, false_iff, not_and]
    omega
  · rw [h, finishRow_stop, finishRow_invalid]
    cases f
    · simp
    · simp [Nat.lt_succ_iff]

theorem importRowsGo_take (uo : Bool) :
    ∀ (rows : List Row) (db : DB) (s : Session),
      (importRowsGo uo rows db s).2.2 ≤ rows.length ∧
      importRowsGo uo (rows.take (importRowsGo uo rows db s).2.2) db s =
        importRowsGo uo rows db s := by
  intro rows
  induction rows with
  | nil => intro db s; exact ⟨Nat.le_refl 0, rfl⟩
  | cons row rest ih =>
    intro db s
    by_cases hs : (processRow uo db s row).2.2 = true
    · constructor
      · simp [importRowsGo, hs]
      · simp [importRowsGo, hs]
    · have h1 : importRowsGo uo (row :: rest) db s =
          ((importRowsGo uo rest (processRow uo db s row).1 (processRow uo db s row).2.1).1,
           (importRowsGo uo rest (processRow uo db s row).1 (processRow uo db s row).2.1).2.1,
           (importRowsGo uo rest (processRow uo db s row).1 (processRow uo db s row).2.1).2.2 + 1) := by
        simp [importRowsGo, hs]
      rcases ih (processRow uo db s row).1 (processRow uo db s row).2.1 with ⟨hle, heq⟩
      constructor
      · rw [h1]; simpa using Nat.succ_le_succ hle
      · rw [h1]
        have htake : (row :: rest).take
            ((importRowsGo uo rest (processRow uo db s row).1 (processRow uo db s row).2.1).2.2 + 1) =
            row :: rest.take (importRowsGo uo rest (processRow uo db s row).1 (processRow uo db s row).2.1).2.2 := by
          simp [List.take_succ_cons]
        rw [htake]
        simp only [importRowsGo, hs]
        simp [heq, hs]

theorem importRowsGo_budget (uo : Bool) :
    ∀ (rows : List Row) (db : DB) (s : Session),
      s.invalid ≤ 30 → termCount s = 0 →
      ((importRowsGo uo rows db s).2.1.invalid ≤ 31) ∧
      ((importRowsGo uo rows db s).2.1.invalid ≤ 30 →
         termCount (importRowsGo uo rows db s).2.1 = 0 ∧
         (importRowsGo uo rows db s).2.2 = rows.length) ∧
      ((importRowsGo uo rows db s).2.1.invalid = 31 →
         termCount (importRowsGo uo rows db s).2.1 = 1 ∧
         ∃ ms, (importRowsGo uo rows db s).2.1.messages = ms ++ [tooManyMsg]) := by
  intro rows
  induction rows with
  | nil =>
    intro db s h30 ht
    refine ⟨by simpa [importRowsGo] using Nat.le_trans h30 (by omega), ?_, ?_⟩
    · intro _; exact ⟨ht, rfl⟩
    · intro h31
      exact absurd h31 (by simp [importRowsGo]; omega)
  | cons row rest ih =>
    intro db s h30 ht
    rcases processRow_events uo db s row with ⟨t, houts, _, hinv, _, hrej, _, hterm, hmsgs⟩
    by_cases hs : (processRow uo db s row).2.2 = true
    · have hstop := (processRow_stop_iff uo db s row).1 hs
      have h31 : (processRow uo db s row).2.1.invalid = 31 := by omega
      have hgo : importRowsGo uo (row :: rest) db s =
          ((processRow uo db s row).1, (processRow uo db s row).2.1, 1) := by
        simp [importRowsGo, hs]
      rw [hgo]
      refine ⟨by simpa using Nat.le_of_eq h31, ?_, ?_⟩
      · intro hle
        have hle2 : (processRow uo db s row).2.1.invalid ≤ 30 := hle
        omega
      · intro _
        constructor
        · unfold termCount at ht ⊢
          rw [houts, List.countP_append, ht]
          simp only [hs] at hterm
          simpa using hterm
        · rcases hmsgs hs with ⟨ms, hm⟩
          exact ⟨s.messages ++ ms, hm⟩
    · have hsf : (processRow uo db s row).2.2 = false := by
        simpa using hs
      have hnostop := (processRow_stop_iff uo db s row).not.1 (by simp [hsf])
      have hinv30 : (processRow uo db s row).2.1.invalid ≤ 30 := by
        rcases Nat.lt_or_ge s.invalid 30 with hlt | hge
        · omega
        · have : s.invalid = 30 := by omega
          by_cases hx : (processRow uo db s row).2.1.invalid = s.invalid + 1
          · exact absurd ⟨hx, by omega⟩ hnostop
          · omega
      have hterm0 : termCount (processRow uo db s row).2.1 = 0 := by
        unfold termCount at ht ⊢
        rw [houts, List.countP_append, ht]
        simp only [hsf] at hterm
        simpa using hterm
      have hgo : importRowsGo uo (row :: rest) db s =
          ((importRowsGo uo rest (processRow uo db s row).1 (processRow uo db s row).2.1).1,
           (importRowsGo uo rest (processRow uo db s row).1 (processRow uo db s row).2.1).2.1,
           (importRowsGo uo rest (processRow uo db s row).1 (processRow uo db s row).2.1).2.2 + 1) := by
        simp [importRowsGo, hsf]
      rcases ih (processRow uo db s row).1 (processRow uo db s row).2.1 hinv30 hterm0 with
        ⟨iha, ihb, ihc⟩
      rw [hgo]
      refine ⟨iha, ?_, ?_⟩
      · intro hle
        rcases ihb hle with ⟨ihb1, ihb2⟩
        refine ⟨ihb1, ?_⟩
        show (importRowsGo uo rest (processRow uo db s row).1 (processRow uo db s row).2.1).2.2 + 1 =
          rest.length + 1
        rw [ihb2]
      · intro h31
        exact ihc h31

theorem importRowsGo_counts (uo : Bool) :
    ∀ (rows : List Row) (db : DB) (s : Session),
      ∃ t : List Outcome,
        (importRowsGo uo rows db s).2.1.outcomes = s.outcomes ++ t ∧
        (importRowsGo uo rows db s).2.1.valid = s.valid + t.countP Outcome.isSave ∧
        (importRowsGo uo rows db s).2.1.invalid =
          s.invalid + t.countP (fun o => o == Outcome.rejected) ∧
        (importRowsGo uo rows db s).2.1.revisions = s.revisions + t.countP Outcome.isSave := by
  intro rows
  induction rows with
  | nil => intro db s; exact ⟨[], by simp [importRowsGo]⟩
  | cons row rest ih =>
    intro db s
    rcases processRow_events uo db s row with ⟨t1, h1, h2, h3, h4, _⟩
    by_cases hs : (processRow uo db s row).2.2 = true
    · refine ⟨t1, ?_⟩
      simp only [importRowsGo, hs, if_true]
      exact ⟨h1, h2, h3, h4⟩
    · have hsf : (processRow uo db s row).2.2 = false := by simpa using hs
      rcases ih (processRow uo db s row).1 (processRow uo db s row).2.1 with
        ⟨t2, g1, g2, g3, g4⟩
      refine ⟨t1 ++ t2, ?_, ?_, ?_, ?_⟩ <;>
        simp only [importRowsGo, hsf, Bool.false_eq_true, if_false, List.countP_append]
      · rw [g1, h1, List.append_assoc]
      · rw [g2, h2]; omega
      · rw [g3, h3]; omega
      · rw [g4, h4]; omega

set_option maxRecDepth 8000

/-- An empty catalog holding only the sentinel vendor. -/
def dbW4 : DB := ⟨[], [(0, "unassigned")], []⟩

/-- A row whose description column is absent: accessing it raises `KeyError`,
so the row is faulty on every run. -/
def rowW4 : Row := [(colProductId, some (.str "X"))]

def rowsW4 : List Row := List.replicate 32 rowW4

/-- C4: in every Product import run each processed row raises the invalid
counter by zero or one; the counter never exceeds 31; while it is at most 30
no terminal message has been emitted and every row has been processed; once
it reaches 31 exactly one terminal "too many errors" message has been
appended, as the last message of the session; the run always equals the run
on the prefix of rows it consumed (rows after the cutoff are not processed);
and the cutoff fires exactly when a faulty row moves the counter from 30 to
31. -/
theorem c4_error_budget (db : DB) (rows : List Row) :
    ((productImport db rows false).2.1.invalid ≤ 31) ∧
    ((productImport db rows false).2.1.invalid ≤ 30 →
      termCount (productImport db rows false).2.1 = 0 ∧
      (productImport db rows false).2.2 = rows.length) ∧
    ((productImport db rows false).2.1.invalid = 31 →
      termCount (productImport db rows false).2.1 = 1 ∧
      (∃ ms, (productImport db rows false).2.1.messages = ms ++ [tooManyMsg])) ∧
    ((productImport db rows false).2.2 ≤ rows.length ∧
      productImport db (rows.take (productImport db rows false).2.2) false =
        productImport db rows false) ∧
    (∀ (db2 : DB) (s : Session) (row : Row),
      ((processRow false db2 s row).2.1.invalid = s.invalid ∨
        (processRow false db2 s row).2.1.invalid = s.invalid + 1) ∧
      ((processRow false db2 s row).2.2 = true ↔
        ((processRow false db2 s row).2.1.invalid = s.invalid + 1 ∧ 30 ≤ s.invalid))) := by
  unfold productImport
  have hb := importRowsGo_budget false rows db emptySession (by decide) (by decide)
  have ht := importRowsGo_take false rows db emptySession
  refine ⟨hb.1, hb.2.1, hb.2.2, ht, ?_⟩
  intro db2 s row
  constructor
  · rcases processRow_events false db2 s row with ⟨t, _, _, h3, _, hle, _⟩
    omega
  · exact processRow_stop_iff false db2 s row

/-- Witness for C4: importing 32 rows that are all faulty (their description
column is missing) stops after the 31st row with `invalid = 31`, one terminal
message at the end, and one unprocessed row. -/
theorem c4_error_budget_witness :
    (productImport dbW4 rowsW4 false).2.1.invalid = 31 ∧
    termCount (productImport dbW4 rowsW4 false).2.1 = 1 ∧
    (∃ ms, (productImport dbW4 rowsW4 false).2.1.messages = ms ++ [tooManyMsg]) ∧
    (productImport dbW4 rowsW4 false).2.2 = 31 ∧ rowsW4.length = 32 := by
  have h := c4_error_budget dbW4 rowsW4
  have h31 : (productImport dbW4 rowsW4 false).2.1.invalid = 31 := by decide
  rcases h.2.2.1 h31 with ⟨ht, hm⟩
  exact ⟨h31, ht, hm, by decide, by decide⟩

/-- A catalog holding one product "P" with description "old" and the sentinel
vendor. -/
def dbC : DB :=
  ⟨[⟨.str "P", .str "old", none, curUSD, 0, none, none, none, none, List.replicate 9 none⟩],
   [(0, "unassigned")], []⟩

/-- A row for product "P" carrying a changed description together with an
unknown currency token in the list price column. -/
def rowC : Row :=
  [(colProductId, some (.str "P")), (colDescription, some (.str "new")),
   (colListPrice, some (.str "10 XXX")), (colVendor, none)]

/-- Counterexample for C2: a single processed row is counted in BOTH counters
(valid = invalid = 1 after one row): its changed description is saved, which
appends an "updated" outcome, while the unknown currency token also marks it
rejected.  This refutes the claim that every processed row contributes to
exactly one of the two counters. -/
theorem c2_counterexample :
    (productImport dbC [rowC] false).2.1.valid = 1 ∧
    (productImport dbC [rowC] false).2.1.invalid = 1 ∧
    (productImport dbC [rowC] false).2.1.outcomes = [Outcome.updated, Outcome.rejected] := by
  decide

/-- C2 (amended): after any Product reconciliation run the valid counter
equals the number of create/update outcomes and the invalid counter equals
the number of rejection outcomes (and each save appended one revision entry);
a row saved despite a faulty field contributes to both counters. -/
theorem c2_counters_match_outcomes (uo : Bool) (db : DB) (rows : List Row) :
    (productImport db rows uo).2.1.valid =
      (productImport db rows uo).2.1.outcomes.countP Outcome.isSave ∧
    (productImport db rows uo).2.1.invalid =
      (productImport db rows uo).2.1.outcomes.countP (fun o => o == Outcome.rejected) ∧
    (productImport db rows uo).2.1.revisions =
      (productImport db rows uo).2.1.outcomes.countP Outcome.isSave := by
  unfold productImport
  rcases importRowsGo_counts uo rows db emptySession with ⟨t, h1, h2, h3, h4⟩
  rw [h1, h2, h3, h4]
  simp [emptySession]

theorem descriptionBlock_skip (row : Row) (st : FSt) (h : st.err.isSome = true) :
    descriptionBlock row st = st := by
  unfold descriptionBlock
  simp [h]

theorem descriptionBlock_frame (row : Row) (st : FSt) :
    (descriptionBlock row st).p.product_id = st.p.product_id ∧
    (descriptionBlock row st).p.list_price = st.p.list_price ∧
    (descriptionBlock row st).p.currency = st.p.currency ∧
    (descriptionBlock row st).p.vendor = st.p.vendor ∧
    (descriptionBlock row st).p.product_group = st.p.product_group ∧
    (descriptionBlock row st).p.eol_reference_url = st.p.eol_reference_url ∧
    (descriptionBlock row st).p.eol_reference_number = st.p.eol_reference_number ∧
    (descriptionBlock row st).p.internal_product_id = st.p.internal_product_id ∧
    (descriptionBlock row st).p.dates = st.p.dates ∧
    (descriptionBlock row st).groups = st.groups ∧
    ((descriptionBlock row st).changed = false → st.changed = false) := by
  unfold descriptionBlock
  split
  · simp
  · split <;> simp_all <;> split <;> simp_all

theorem priceCurrencyBlock_skip (row : Row) (st : FSt) (h : st.err.isSome = true) :
    priceCurrencyBlock row st = st := by
  unfold priceCurrencyBlock
  simp [h]

theorem priceCurrencyBlock_frame (row : Row) (st : FSt) :
    (priceCurrencyBlock row st).p.product_id = st.p.product_id ∧
    (priceCurrencyBlock row st).p.description = st.p.description ∧
    (priceCurrencyBlock row st).p.vendor = st.p.vendor ∧
    (priceCurrencyBlock row st).p.product_group = st.p.product_group ∧
    (priceCurrencyBlock row st).p.eol_reference_url = st.p.eol_reference_url ∧
    (priceCurrencyBlock row st).p.eol_reference_number = st.p.eol_reference_number ∧
    (priceCurrencyBlock row st).p.internal_product_id = st.p.internal_product_id ∧
    (priceCurrencyBlock row st).p.dates = st.p.dates ∧
    (priceCurrencyBlock row st).groups = st.groups ∧
    ((priceCurrencyBlock row st).changed = false → st.changed = false) := by
  unfold priceCurrencyBlock
  split
  · simp
  · split
    · simp
    · split
      · simp
      · split
        · simp
        · split
          · simp
          · split <;> (dsimp only []; split <;> simp_all)

theorem vendorBlock_skip (vendors : List (ℕ × String)) (row : Row) (created : Bool)
    (st : FSt) (h : st.err.isSome = true) :
    vendorBlock vendors row created st = st := by
  unfold vendorBlock
  simp [h]

theorem vendorBlock_frame (vendors : List (ℕ × String)) (row : Row) (created : Bool)
    (st : FSt) :
    (vendorBlock vendors row created st).p.product_id = st.p.product_id ∧
    (vendorBlock vendors row created st).p.description = st.p.description ∧
    (vendorBlock vendors row created st).p.list_price = st.p.list_price ∧
    (vendorBlock vendors row created st).p.currency = st.p.currency ∧
    (vendorBlock vendors row created st).p.product_group = st.p.product_group ∧
    (vendorBlock vendors row created st).p.eol_reference_url = st.p.eol_reference_url ∧
    (vendorBlock vendors row created st).p.eol_reference_number = st.p.eol_reference_number ∧
    (vendorBlock vendors row created st).p.internal_product_id = st.p.internal_product_id ∧
    (vendorBlock vendors row created st).p.dates = st.p.dates ∧
    (vendorBlock vendors row created st).groups = st.groups ∧
    ((vendorBlock vendors row created st).changed = false → st.changed = false) := by
  unfold vendorBlock
  repeat' split
  all_goals simp_all

theorem productGroupBlock_skip (row : Row) (st : FSt) (h : st.err.isSome = true) :
    productGroupBlock row st = st := by
  unfold productGroupBlock
  simp [h]

theorem productGroupBlock_frame (row : Row) (st : FSt) :
    (productGroupBlock row st).p.product_id = st.p.product_id ∧
    (productGroupBlock row st).p.description = st.p.description ∧
    (productGroupBlock row st).p.list_price = st.p.list_price ∧
    (productGroupBlock row st).p.currency = st.p.currency ∧
    (productGroupBlock row st).p.vendor = st.p.vendor ∧
    (productGroupBlock row st).p.eol_reference_url = st.p.eol_reference_url ∧
    (productGroupBlock row st).p.eol_reference_number = st.p.eol_reference_number ∧
    (productGroupBlock row st).p.internal_product_id = st.p.internal_product_id ∧
    (productGroupBlock row st).p.dates = st.p.dates ∧
    (productGroupBlock row st).err = st.err ∧
    ((productGroupBlock row st).changed = false → st.changed = false) ∧
    ((productGroupBlock row st).changed = false →
      (productGroupBlock row st).groups = st.groups) := by
  unfold productGroupBlock
  split
  · simp
  · split
    · simp
    · simp
    · dsimp only []
      split <;> simp_all

theorem eolUrlBlock_skip (row : Row) (st : FSt) (h : st.err.isSome = true) :
    eolUrlBlock row st = st := by
  unfold eolUrlBlock
  simp [h]

theorem eolUrlBlock_frame (row : Row) (st : FSt) :
    (eolUrlBlock row st).p.product_id = st.p.product_id ∧
    (eolUrlBlock row st).p.description = st.p.description ∧
    (eolUrlBlock row st).p.list_price = st.p.list_price ∧
    (eolUrlBlock row st).p.currency = st.p.currency ∧
    (eolUrlBlock row st).p.vendor = st.p.vendor ∧
    (eolUrlBlock row st).p.product_group = st.p.product_group ∧
    (eolUrlBlock row st).p.eol_reference_number = st.p.eol_reference_number ∧
    (eolUrlBlock row st).p.internal_product_id = st.p.internal_product_id ∧
    (eolUrlBlock row st).p.dates = st.p.dates ∧
    (eolUrlBlock row st).groups = st.groups ∧
    (eolUrlBlock row st).err = st.err ∧
    ((eolUrlBlock row st).changed = false → st.changed = false) := by
  unfold eolUrlBlock
  split
  · simp
  · split
    · simp
    · simp
    · split <;> simp_all

theorem eolFriendlyBlock_skip (row : Row) (st : FSt) (h : st.err.isSome = true) :
    eolFriendlyBlock row st = st := by
  unfold eolFriendlyBlock
  simp [h]

theorem eolFriendlyBlock_frame (row : Row) (st : FSt) :
    (eolFriendlyBlock row st).p.product_id = st.p.product_id ∧
    (eolFriendlyBlock row st).p.description = st.p.description ∧
    (eolFriendlyBlock row st).p.list_price = st.p.list_price ∧
    (eolFriendlyBlock row st).p.currency = st.p.currency ∧
    (eolFriendlyBlock row st).p.vendor = st.p.vendor ∧
    (eolFriendlyBlock row st).p.product_group = st.p.product_group ∧
    (eolFriendlyBlock row st).p.eol_reference_url = st.p.eol_reference_url ∧
    (eolFriendlyBlock row st).p.internal_product_id = st.p.internal_product_id ∧
    (eolFriendlyBlock row st).p.dates = st.p.dates ∧
    (eolFriendlyBlock row st).groups = st.groups ∧
    (eolFriendlyBlock row st).err = st.err ∧
    (eolFriendlyBlock row st).changed = st.changed := by
  unfold eolFriendlyBlock
  split
  · simp
  · split
    · simp
    · simp
    · split <;> simp_all

theorem internalIdBlock_skip (row : Row) (st : FSt) (h : st.err.isSome = true) :
    internalIdBlock row st = st := by
  unfold internalIdBlock
  simp [h]

theorem internalIdBlock_frame (row : Row) (st : FSt) :
    (internalIdBlock row st).p.product_id = st.p.product_id ∧
    (internalIdBlock row st).p.description = st.p.description ∧
    (internalIdBlock row st).p.list_price = st.p.list_price ∧
    (internalIdBlock row st).p.currency = st.p.currency ∧
    (internalIdBlock row st).p.vendor = st.p.vendor ∧
    (internalIdBlock row st).p.product_group = st.p.product_group ∧
    (internalIdBlock row st).p.eol_reference_url = st.p.eol_reference_url ∧
    (internalIdBlock row st).p.eol_reference_number = st.p.eol_reference_number ∧
    (internalIdBlock row st).p.dates = st.p.dates ∧
    (internalIdBlock row st).groups = st.groups ∧
    (internalIdBlock row st).err = st.err ∧
    ((internalIdBlock row st).changed = false → st.changed = false) := by
  unfold internalIdBlock
  split
  · simp
  · split
    · simp
    · simp
    · split <;> simp_all

theorem getOrCreate_pid (db : DB) (pid : CellValue) :
    (getOrCreateProduct db pid).1.product_id = pid := by
  unfold getOrCreateProduct
  cases h : productById db pid with
  | none => simp [defaultProduct]
  | some p =>
      unfold productById at h
      have h2 := List.find?_some h
      simpa using h2

theorem getOrCreate_mem (db : DB) (pid : CellValue) :
    productById (getOrCreateProduct db pid).2.2 pid = some (getOrCreateProduct db pid).1 := by
  unfold getOrCreateProduct
  cases h : productById db pid with
  | some p => simpa using h
  | none =>
      unfold productById at h ⊢
      simp only [List.find?_append, h]
      simp [defaultProduct]

theorem getOrCreate_vendors (db : DB) (pid : CellValue) :
    (getOrCreateProduct db pid).2.2.vendors = db.vendors := by
  unfold getOrCreateProduct
  cases h : productById db pid <;> simp

theorem getOrCreate_groups (db : DB) (pid : CellValue) :
    (getOrCreateProduct db pid).2.2.groups = db.groups := by
  unfold getOrCreateProduct
  cases h : productById db pid <;> simp

theorem getOrCreate_created_false (db : DB) (pid : CellValue)
    (h : (getOrCreateProduct db pid).2.1 = false) :
    (getOrCreateProduct db pid).2.2 = db ∧
    productById db pid = some (getOrCreateProduct db pid).1 := by
  unfold getOrCreateProduct at *
  cases hp : productById db pid with
  | some p => simp [hp]
  | none => rw [hp] at h; simp at h

theorem saveProduct_vendors (db : DB) (p : Product) :
    (saveProduct db p).vendors = db.vendors := rfl

theorem saveProduct_groups (db : DB) (p : Product) :
    (saveProduct db p).groups = db.groups := rfl

theorem find?_map_replace (p : Product) (pid : CellValue) (hpid : p.product_id = pid) :
    ∀ (l : List Product), (l.find? (fun q => q.product_id == pid)).isSome = true →
      (l.map (fun q => if q.product_id == p.product_id then p else q)).find?
        (fun q => q.product_id == pid) = some p := by
  intro l
  induction l with
  | nil => intro h; simp at h
  | cons a as ih =>
    intro h
    by_cases ha : (a.product_id == pid) = true
    · have hb : (a.product_id == p.product_id) = true := by rw [hpid]; exact ha
      rw [List.map_cons, if_pos hb]
      exact List.find?_cons_of_pos _ (by simp [hpid])
    · simp only [Bool.not_eq_true] at ha
      have hb : (a.product_id == p.product_id) = false := by rw [hpid]; exact ha
      rw [List.map_cons, if_neg (by simp [hb])]
      rw [List.find?_cons_of_neg _ (by simp [ha])]
      apply ih
      rw [List.find?_cons_of_neg _ (by simp [ha])] at h
      exact h

theorem productById_save_self (db : DB) (p : Product) (pid : CellValue)
    (hpid : p.product_id = pid) (h : (productById db pid).isSome = true) :
    productById (saveProduct db p) pid = some p := by
  unfold productById saveProduct at *
  exact find?_map_replace p pid hpid db.products h

theorem importDatetime_p_shape (col : String) (row : Row) (idx : ℕ) (p : Product)
    (pid : CellValue) :
    ∃ ds, (importDatetimeColumnFromFile col row idx p pid).2.2.2 = { p with dates := ds } := by
  unfold importDatetimeColumnFromFile
  dsimp only []
  repeat' split
  all_goals exact ⟨_, rfl⟩

theorem dateColumnsLoop_p_shape (row : Row) (pid : CellValue) :
    ∀ (maps : List (ℕ × String)) (p : Product) (ch : Bool),
      ∃ ds, (dateColumnsLoop row pid maps p ch).1 = { p with dates := ds } := by
  intro maps
  induction maps with
  | nil => intro p ch; exact ⟨p.dates, rfl⟩
  | cons m rest ih =>
    intro p ch
    rcases m with ⟨idx, col⟩
    rcases importDatetime_p_shape col row idx p pid with ⟨ds, hds⟩
    unfold dateColumnsLoop
    by_cases hf : (importDatetimeColumnFromFile col row idx p pid).2.1 = true
    · simp only [hf, if_true]
      exact ⟨ds, hds⟩
    · simp only [Bool.not_eq_true] at hf
      simp only [hf, Bool.false_eq_true, if_false]
      rcases ih (importDatetimeColumnFromFile col row idx p pid).2.2.2
        (ch || (importDatetimeColumnFromFile col row idx p pid).1) with ⟨ds2, hds2⟩
      rw [hds2, hds]
      exact ⟨ds2, rfl⟩

theorem dateColumnsLoop_changed_mono (row : Row) (pid : CellValue) :
    ∀ (maps : List (ℕ × String)) (p : Product) (ch : Bool),
      (dateColumnsLoop row pid maps p ch).2.1 = false → ch = false := by
  intro maps
  induction maps with
  | nil => intro p ch h; exact h
  | cons m rest ih =>
    intro p ch h
    rcases m with ⟨idx, col⟩
    unfold dateColumnsLoop at h
    by_cases hf : (importDatetimeColumnFromFile col row idx p pid).2.1 = true
    · simp only [hf, if_true] at h
      have h2 : ch = false ∧ (importDatetimeColumnFromFile col row idx p pid).1 = false := by
        simpa using h
      exact h2.1
    · simp only [Bool.not_eq_true] at hf
      simp only [hf, Bool.false_eq_true, if_false] at h
      have h2 : ch = false ∧ (importDatetimeColumnFromFile col row idx p pid).1 = false := by
        simpa using ih _ _ h
      exact h2.1

/-- An unrecognized currency token inside a "list price" string cell: a
number-and-code pair whose code is not a known currency key. -/
def priceUnknownCurrency (cell : Cell) : Prop :=
  ∃ s t1 t2, cell = some (CellValue.str s) ∧ splitCells s = [t1, t2] ∧
    (pyFloatL? t1).isSome = true ∧ upperStr ⟨t2⟩ ∉ currencyKeys

/-- An unrecognized currency token in the optional "currency" column. -/
def currencyColUnknown (row : Row) : Prop :=
  ∃ s, getCell row colCurrency = some (some (CellValue.str s)) ∧ upperStr s ∉ currencyKeys

/-- The premise of C1: an unrecognized currency token in the "list price" or
"currency" column. -/
def rowHasUnknownCurrencyToken (row : Row) : Prop :=
  (∃ cell, getCell row colListPrice = some cell ∧ priceUnknownCurrency cell) ∨
    currencyColUnknown row

theorem parseListPrice_unknown_currency (cell : Cell) (h : priceUnknownCurrency cell) :
    ∃ e, parseListPrice cell = Except.error e := by
  rcases h with ⟨s, t1, t2, rfl, hsplit, hfl, hnk⟩
  rcases Option.isSome_iff_exists.mp hfl with ⟨q, hq⟩
  unfold parseListPrice
  dsimp only []
  rw [hsplit]
  dsimp only []
  rw [hq]
  dsimp only []
  rw [if_neg hnk]
  exact ⟨_, rfl⟩

theorem priceCurrencyBlock_bad (row : Row) (st : FSt) (h0 : st.err = none)
    (hbad : rowHasUnknownCurrencyToken row) :
    ∃ e, priceCurrencyBlock row st = { st with err := some e } := by
  unfold priceCurrencyBlock
  rw [if_neg (by simp [h0])]
  cases hlp : getCell row colListPrice with
  | none => exact ⟨(colListPrice, keyErrorText colListPrice), rfl⟩
  | some cell =>
      dsimp only []
      cases hp : parseListPrice cell with
      | error e => exact ⟨(colListPrice, e), rfl⟩
      | ok pr =>
          dsimp only []
          rcases hbad with ⟨cell2, hcell2, hbadp⟩ | ⟨s, hc, hnk⟩
          · rw [hlp] at hcell2
            cases hcell2
            rcases parseListPrice_unknown_currency cell hbadp with ⟨e, he⟩
            rw [he] at hp
            cases hp
          · have hres : resolveCurrencyColumn row pr.2 =
                Except.error ("cannot set currency unknown value " ++ upperStr s) := by
              unfold resolveCurrencyColumn
              rw [hc]
              dsimp only []
              rw [if_neg hnk]
            rcases pr with ⟨np, nc⟩
            rw [hres]
            exact ⟨(colCurrency, "cannot set currency unknown value " ++ upperStr s), rfl⟩

theorem mainFieldBlocks_badcur (V : List (ℕ × String)) (row : Row) (created : Bool)
    (st0 : FSt) (h0 : st0.err = none) (hbad : rowHasUnknownCurrencyToken row) :
    (mainFieldBlocks V row created st0).err.isSome = true ∧
    (mainFieldBlocks V row created st0).p.list_price = st0.p.list_price ∧
    (mainFieldBlocks V row created st0).p.currency = st0.p.currency ∧
    (mainFieldBlocks V row created st0).p.product_id = st0.p.product_id ∧
    ((mainFieldBlocks V row created st0).changed = false → st0.changed = false) ∧
    ((mainFieldBlocks V row created st0).changed = false →
      (mainFieldBlocks V row created st0).groups = st0.groups) := by
  obtain ⟨hd1, hd2, hd3, _, _, _, _, _, _, hd10, hd11⟩ := descriptionBlock_frame row st0
  by_cases hde : (descriptionBlock row st0).err.isSome = true
  · unfold mainFieldBlocks
    rw [priceCurrencyBlock_skip _ _ hde, vendorBlock_skip _ _ _ _ hde,
      productGroupBlock_skip _ _ hde, eolUrlBlock_skip _ _ hde,
      eolFriendlyBlock_skip _ _ hde, internalIdBlock_skip _ _ hde]
    exact ⟨hde, hd2, hd3, hd1, fun h => hd11 h, fun _ => hd10⟩
  · have hdn : (descriptionBlock row st0).err = none := by
      cases h : (descriptionBlock row st0).err with
      | none => rfl
      | some e => rw [h] at hde; simp at hde
    obtain ⟨e, hpc⟩ := priceCurrencyBlock_bad row _ hdn hbad
    unfold mainFieldBlocks
    rw [hpc]
    rw [vendorBlock_skip _ _ _ _ (by simp), productGroupBlock_skip _ _ (by simp),
      eolUrlBlock_skip _ _ (by simp), eolFriendlyBlock_skip _ _ (by simp),
      internalIdBlock_skip _ _ (by simp)]
    refine ⟨by simp, hd2, hd3, hd1, fun h => hd11 h, fun _ => hd10⟩

theorem c1_unknown_currency (db : DB) (s : Session) (row : Row) (pid : CellValue)
    (hpid : getCell row colProductId = some (some pid))
    (hbad : rowHasUnknownCurrencyToken row) :
    (processRow false db s row).2.1.invalid = s.invalid + 1 ∧
    ((processRow false db s row).2.1.valid = s.valid →
      (processRow false db s row).1 = db ∧
      (processRow false db s row).2.1.revisions = s.revisions) ∧
    (∀ p1, productById (processRow false db s row).1 pid = some p1 →
      p1.list_price = (getOrCreateProduct db pid).1.list_price ∧
      p1.currency = (getOrCreateProduct db pid).1.currency) := by
  set db0 := (getOrCreateProduct db pid).2.2 with hdb0
  set p0 := (getOrCreateProduct db pid).1 with hp0
  set created := (getOrCreateProduct db pid).2.1 with hcre
  obtain ⟨hE, hLP, hCU, hPID, hMONO, hGRP⟩ :=
    mainFieldBlocks_badcur db0.vendors row created ⟨db0.groups, p0, created, none⟩ rfl hbad
  set stM := mainFieldBlocks db0.vendors row created ⟨db0.groups, p0, created, none⟩ with hstM
  set dres := dateColumnsLoop row pid dateMap stM.p stM.changed with hdres
  obtain ⟨ds, hds⟩ := dateColumnsLoop_p_shape row pid dateMap stM.p stM.changed
  have heq : processRow false db s row =
      finishRow { db0 with groups := stM.groups } dres.1 pid created dres.2.1
        (stM.err.isSome || dres.2.2.1)
        (if dres.2.2.1 then dres.2.2.2
         else match stM.err with
              | some ke => faultyMsgFor pid ke
              | none => "import successful") s := by
    simp only [processRow, hpid]
    unfold processFound
    rfl
  have hfaulty : (stM.err.isSome || dres.2.2.1) = true := by rw [hE]; simp
  refine ⟨?_, ?_, ?_⟩
  · rw [heq, finishRow_invalid, hfaulty]
    simp
  · intro hv
    rw [heq, finishRow_valid] at hv
    cases hch : dres.2.1 with
    | true => rw [hch] at hv; simp at hv
    | false =>
        have hch0 : stM.changed = false := dateColumnsLoop_changed_mono row pid dateMap _ _ hch
        have hcre0 : created = false := hMONO hch0
        obtain ⟨hdbeq, hfound⟩ := getOrCreate_created_false db pid (by rw [← hcre]; exact hcre0)
        have hgr : stM.groups = db0.groups := hGRP hch0
        constructor
        · rw [heq, finishRow_db, hch]
          simp only [Bool.false_eq_true, if_false]
          rw [hgr]
          show db0 = db
          rw [hdb0]
          exact hdbeq
        · rw [heq, finishRow_revisions, hch]
          simp
  · intro p1 h1
    rw [heq, finishRow_db] at h1
    have hpid2 : dres.1.product_id = pid := by
      rw [hds]
      show stM.p.product_id = pid
      rw [hPID]
      show p0.product_id = pid
      rw [hp0]
      exact getOrCreate_pid db pid
    have hmem : productById db0 pid = some p0 := by
      rw [hdb0, hp0]
      exact getOrCreate_mem db pid
    cases hch : dres.2.1 with
    | true =>
        rw [hch] at h1
        simp only [if_true] at h1
        have hmem1 : (productById { db0 with groups := stM.groups } pid).isSome = true := by
          have : productById { db0 with groups := stM.groups } pid = productById db0 pid := rfl
          rw [this, hmem]
          rfl
        rw [productById_save_self _ _ _ hpid2 hmem1] at h1
        cases h1
        constructor
        · rw [hds]
          show stM.p.list_price = p0.list_price
          exact hLP
        · rw [hds]
          show stM.p.currency = p0.currency
          exact hCU
    | false =>
        rw [hch] at h1
        simp only [Bool.false_eq_true, if_false] at h1
        have : productById { db0 with groups := stM.groups } pid = productById db0 pid := rfl
        rw [this, hmem] at h1
        cases h1
        exact ⟨rfl, rfl⟩

theorem c1_counterexample :
    (productImport dbC [rowC] false).2.1.invalid = 1 ∧
    (productImport dbC [rowC] false).2.1.revisions = 1 ∧
    productById (productImport dbC [rowC] false).1 (.str "P") =
      some ⟨.str "P", .str "new", none, curUSD, 0, none, none, none, none,
        List.replicate 9 none⟩ := by
  decide

theorem c1_unknown_currency_witness :
    (processRow false dbC emptySession rowC).2.1.invalid = 1 ∧
    (∀ p1, productById (processRow false dbC emptySession rowC).1 (.str "P") = some p1 →
      p1.list_price = none ∧ p1.currency = curUSD) := by
  have h := c1_unknown_currency dbC emptySession rowC (.str "P") (by decide)
    (Or.inl ⟨some (.str "10 XXX"), by decide,
      "10 XXX", "10".data, "XXX".data, rfl, by decide, by decide, by decide⟩)
  refine ⟨h.1, ?_⟩
  intro p1 hp1
  have h2 := h.2.2 p1 hp1
  constructor
  · rw [h2.1]; decide
  · rw [h2.2]; decide

theorem splitOnChar_ne_nil (sep : Char) (l : List Char) : splitOnChar sep l ≠ [] := by
  cases l with
  | nil => simp [splitOnChar]
  | cons x xs =>
      unfold splitOnChar
      by_cases hx : (x == sep) = true
      · simp [hx]
      · simp only [hx, Bool.false_eq_true, if_false]
        cases hr : splitOnChar sep xs <;> simp

theorem splitOnChar_single (sep : Char) :
    ∀ (l t : List Char), splitOnChar sep l = [t] ↔ (t = l ∧ sep ∉ l) := by
  intro l
  induction l with
  | nil =>
      intro t
      constructor
      · intro h
        simp [splitOnChar] at h
        simp [h]
      · rintro ⟨rfl, _⟩
        simp [splitOnChar]
  | cons x xs ih =>
      intro t
      unfold splitOnChar
      by_cases hx : (x == sep) = true
      · have hxe : x = sep := by simpa using hx
        simp only [hx, if_true]
        constructor
        · intro h
          rw [List.cons.injEq] at h
          exact absurd h.2 (splitOnChar_ne_nil sep xs)
        · rintro ⟨rfl, hmem⟩
          exact absurd (show sep ∈ x :: xs by rw [hxe]; exact List.mem_cons_self sep xs) hmem
      · have hxe : ¬ x = sep := by simpa using hx
        simp only [hx, Bool.false_eq_true, if_false]
        cases hr : splitOnChar sep xs with
        | nil => exact absurd hr (splitOnChar_ne_nil sep xs)
        | cons h2 t2 =>
            constructor
            · intro heq
              rw [List.cons.injEq] at heq
              rcases heq with ⟨rfl, ht2⟩
              rw [ht2] at hr
              rcases (ih h2).mp hr with ⟨rfl, hnm⟩
              refine ⟨rfl, ?_⟩
              intro hmem
              rcases List.mem_cons.mp hmem with heq2 | hmem2
              · exact hxe heq2.symm
              · exact hnm hmem2
            · rintro ⟨rfl, hmem⟩
              have hnx : sep ∉ xs := fun h => hmem (List.mem_cons_of_mem x h)
              have h4 := (ih xs).mpr ⟨rfl, hnx⟩
              rw [hr] at h4
              rw [List.cons.injEq] at h4
              rw [h4.1, h4.2]

theorem splitOnChar_pair (sep : Char) :
    ∀ (l a c : List Char), splitOnChar sep l = [a, c] ↔
      (l = a ++ sep :: c ∧ sep ∉ a ∧ sep ∉ c) := by
  intro l
  induction l with
  | nil =>
      intro a c
      constructor
      · intro h; simp [splitOnChar] at h
      · rintro ⟨h, _, _⟩
        exact absurd h (by simp)
  | cons x xs ih =>
      intro a c
      unfold splitOnChar
      by_cases hx : (x == sep) = true
      · have hxe : x = sep := by simpa using hx
        simp only [hx, if_true]
        constructor
        · intro h
          rw [List.cons.injEq] at h
          rcases h with ⟨ha, h2⟩
          rcases (splitOnChar_single sep xs c).mp h2 with ⟨rfl, hnm⟩
          refine ⟨?_, ?_, hnm⟩
          · rw [← ha, hxe]
            rfl
          · rw [← ha]
            simp
        · rintro ⟨heq, hna, hnc⟩
          cases a with
          | cons y ys =>
              rw [hxe] at heq
              have hy : y = sep := by
                have h6 := congrArg (fun u => u.headD sep) heq
                simpa using h6.symm
              rw [hy] at hna
              exact absurd (List.mem_cons_self sep ys) hna
          | nil =>
              have hxs : xs = c := by simpa [hxe] using heq
              rw [(splitOnChar_single sep xs c).mpr ⟨hxs.symm, by rw [hxs]; exact hnc⟩]
      · have hxe : ¬ x = sep := by simpa using hx
        simp only [hx, Bool.false_eq_true, if_false]
        cases hr : splitOnChar sep xs with
        | nil => exact absurd hr (splitOnChar_ne_nil sep xs)
        | cons h2 t2 =>
            constructor
            · intro heq
              rw [List.cons.injEq] at heq
              rcases heq with ⟨rfl, ht2⟩
              rw [ht2] at hr
              rcases (ih h2 c).mp hr with ⟨rfl, hna, hnc⟩
              refine ⟨rfl, ?_, hnc⟩
              intro hmem
              rcases List.mem_cons.mp hmem with heq2 | hmem2
              · exact hxe heq2.symm
              · exact hna hmem2
            · rintro ⟨heq, hna, hnc⟩
              cases a with
              | nil =>
                  have hxsep : x = sep := by
                    have h6 := congrArg (fun u => u.headD x) heq
                    simpa using h6
                  exact absurd hxsep hxe
              | cons y ys =>
                  rw [List.cons_append, List.cons.injEq] at heq
                  rcases heq with ⟨rfl, hxs⟩
                  have hnys : sep ∉ ys := fun h => hna (List.mem_cons_of_mem x h)
                  have h4 := (ih ys c).mpr ⟨hxs, hnys, hnc⟩
                  rw [hr] at h4
                  rw [List.cons.injEq] at h4
                  rw [h4.1, h4.2]

/-- Written from the words of the claim (the spec side of the refinement):
a list price cell is accepted exactly when it is null, a bare number (a float
or int cell, or a string with no embedded space parsing as a number), or a
string of exactly one number and one currency code separated by a single
space whose code case-insensitively matches a known currency enum member. -/
def specListPriceAccepted (cell : Cell) : Prop :=
  cell = none ∨
  (∃ q, cell = some (CellValue.float q)) ∨
  (∃ n, cell = some (CellValue.int n)) ∨
  (∃ s q, cell = some (CellValue.str s) ∧ Char.ofNat 32 ∉ s.data ∧ pyFloat? s = some q) ∨
  (∃ s a c q, cell = some (CellValue.str s) ∧ s.data = a ++ Char.ofNat 32 :: c ∧
    Char.ofNat 32 ∉ a ∧ Char.ofNat 32 ∉ c ∧ pyFloatL? a = some q ∧
    upperStr ⟨c⟩ ∈ currencyKeys)

/-- The C6 example row: list price "10 5 EUR" has two embedded spaces. -/
def rowC6 : Row :=
  [(colProductId, some (.str "P6")), (colDescription, none),
   (colListPrice, some (.str "10 5 EUR")), (colVendor, none)]

theorem c6_list_price_acceptance :
    (∀ cell, (∃ pr, parseListPrice cell = Except.ok pr) ↔ specListPriceAccepted cell) ∧
    (∀ q, parseListPrice (some (CellValue.float q)) = Except.ok (some q, curUSD)) ∧
    (∀ s q, Char.ofNat 32 ∉ s.data → pyFloat? s = some q →
      parseListPrice (some (CellValue.str s)) = Except.ok (some q, curUSD)) ∧
    ((productImport dbW4 [rowC6] false).2.1.invalid = 1 ∧
      ("cannot set list price for <code>P6</code> " ++
        "(invalid format for list price, detected multiple spaces)") ∈
        (productImport dbW4 [rowC6] false).2.1.messages) := by
  refine ⟨?_, ?_, ?_, by decide, by decide⟩
  · intro cell
    cases cell with
    | none => simp [parseListPrice, specListPriceAccepted]
    | some v =>
        cases v with
        | float q => simp [parseListPrice, specListPriceAccepted]
        | int n => simp [parseListPrice, specListPriceAccepted]
        | date d => simp [parseListPrice, specListPriceAccepted]
        | other => simp [parseListPrice, specListPriceAccepted]
        | str s =>
            constructor
            · rintro ⟨pr, hpr⟩
              unfold parseListPrice at hpr
              dsimp only [] at hpr
              cases hsp : splitCells s with
              | nil => exact absurd hsp (splitOnChar_ne_nil _ _)
              | cons t ts =>
                  rw [hsp] at hpr
                  cases ts with
                  | nil =>
                      rcases (splitOnChar_single _ s.data t).mp hsp with ⟨rfl, hnm⟩
                      dsimp only [] at hpr
                      cases hq : pyFloat? s with
                      | none => rw [hq] at hpr; cases hpr
                      | some q =>
                          right; right; right; left
                          exact ⟨s, q, rfl, hnm, hq⟩
                  | cons t2 ts2 =>
                      cases ts2 with
                      | nil =>
                          rcases (splitOnChar_pair _ s.data t t2).mp hsp with ⟨hdec, hna, hnc⟩
                          dsimp only [] at hpr
                          cases hq : pyFloatL? t with
                          | none => rw [hq] at hpr; cases hpr
                          | some q =>
                              rw [hq] at hpr
                              dsimp only [] at hpr
                              by_cases hk : upperStr ⟨t2⟩ ∈ currencyKeys
                              · right; right; right; right
                                exact ⟨s, t, t2, q, rfl, hdec, hna, hnc, hq, hk⟩
                              · rw [if_neg hk] at hpr; cases hpr
                      | cons t3 ts3 => cases hpr
            · intro h
              rcases h with h | ⟨q, h⟩ | ⟨n, h⟩ | ⟨s2, q, hes, hnm, hq⟩ |
                ⟨s2, a, c, q, hes, hdec, hna, hnc, hq, hk⟩
              · cases h
              · cases h
              · cases h
              · rw [Option.some.injEq, CellValue.str.injEq] at hes
                rw [← hes] at hnm hq
                refine ⟨(some q, curUSD), ?_⟩
                unfold parseListPrice
                dsimp only []
                rw [show splitCells s = [s.data] from
                  (splitOnChar_single _ s.data s.data).mpr ⟨rfl, hnm⟩]
                dsimp only []
                rw [hq]
              · rw [Option.some.injEq, CellValue.str.injEq] at hes
                rw [← hes] at hdec
                refine ⟨(some q, upperStr ⟨c⟩), ?_⟩
                unfold parseListPrice
                dsimp only []
                rw [show splitCells s = [a, c] from
                  (splitOnChar_pair _ s.data a c).mpr ⟨hdec, hna, hnc⟩]
                dsimp only []
                rw [hq]
                dsimp only []
                rw [if_pos hk]
  · intro q
    rfl
  · intro s q hnm hq
    unfold parseListPrice
    dsimp only []
    rw [show splitCells s = [s.data] from
      (splitOnChar_single _ s.data s.data).mpr ⟨rfl, hnm⟩]
    dsimp only []
    rw [hq]

theorem c6_list_price_acceptance_witness :
    parseListPrice (some (CellValue.str "10.5")) = Except.ok (some (mkRat 21 2), curUSD) ∧
    specListPriceAccepted (some (CellValue.str "12 eur")) := by
  have h := c6_list_price_acceptance
  constructor
  · exact h.2.2.1 "10.5" (mkRat 21 2) (by decide) (by decide)
  · exact (h.1 (some (.str "12 eur"))).mp ⟨(some 12, "EUR"), by decide⟩

/-- The `newval` computed by the date-column helper (lines 112-116): the
`.date()` of a date/timestamp cell, `None` for a value of any other type. -/
def dateNewval : CellValue → Option ℕ
  | .date d => some d
  | _ => none

/-- A row whose "end of sale date" column holds a string, against a fresh
record: the date helper ignores it silently. -/
def rowC7 : Row :=
  [(colProductId, some (.str "P7")), (colDescription, none), (colListPrice, none),
   (colVendor, none), ("end of sale date", some (.str "garbage"))]

theorem c7_counterexample :
    (importDatetimeColumnFromFile "end of sale date" rowC7 2
        (defaultProduct (.str "P7")) (.str "P7")).2.1 = false ∧
    (productImport dbW4 [rowC7] false).2.1.invalid = 0 ∧
    termCount (productImport dbW4 [rowC7] false).2.1 = 0 := by
  decide

theorem c7_date_columns (row_key : String) (row : Row) (idx : ℕ) (p : Product)
    (pid : CellValue) :
    (∀ v, getCell row row_key = some (some v) →
      ((importDatetimeColumnFromFile row_key row idx p pid).2.1 = true ↔
        (dateNewval v = none ∧ p.dates.getD idx none ≠ none))) ∧
    ((importDatetimeColumnFromFile row_key row idx p pid).2.1 = true →
      (importDatetimeColumnFromFile row_key row idx p pid).2.2.1 =
        "cannot set " ++ row_key ++ " for <code>" ++ cellRepr pid ++
          "</code> (value has no date attribute)") ∧
    (∀ rest p2 ch,
      (importDatetimeColumnFromFile row_key row idx p2 pid).2.1 = true →
      dateColumnsLoop row pid ((idx, row_key) :: rest) p2 ch =
        (p2, ch || (importDatetimeColumnFromFile row_key row idx p2 pid).1, true,
         (importDatetimeColumnFromFile row_key row idx p2 pid).2.2.1)) := by
  refine ⟨?_, ?_, ?_⟩
  · intro v hv
    unfold importDatetimeColumnFromFile
    rw [hv]
    dsimp only []
    cases v with
    | date d =>
        by_cases hc : p.dates.getD idx none ≠ some d
        · rw [if_pos (by simpa [dateNewval] using hc)]
          simp [dateNewval]
        · rw [if_neg (by simpa [dateNewval] using hc)]
          simp [dateNewval]
    | str s =>
        by_cases hc : p.dates.getD idx none ≠ none
        · rw [if_pos (by simpa [dateNewval] using hc)]
          simpa [dateNewval] using hc
        · rw [if_neg (by simpa [dateNewval] using hc)]
          simpa [dateNewval] using hc
    | float q =>
        by_cases hc : p.dates.getD idx none ≠ none
        · rw [if_pos (by simpa [dateNewval] using hc)]
          simpa [dateNewval] using hc
        · rw [if_neg (by simpa [dateNewval] using hc)]
          simpa [dateNewval] using hc
    | int n =>
        by_cases hc : p.dates.getD idx none ≠ none
        · rw [if_pos (by simpa [dateNewval] using hc)]
          simpa [dateNewval] using hc
        · rw [if_neg (by simpa [dateNewval] using hc)]
          simpa [dateNewval] using hc
    | other =>
        by_cases hc : p.dates.getD idx none ≠ none
        · rw [if_pos (by simpa [dateNewval] using hc)]
          simpa [dateNewval] using hc
        · rw [if_neg (by simpa [dateNewval] using hc)]
          simpa [dateNewval] using hc
  · intro hf
    unfold importDatetimeColumnFromFile at hf ⊢
    cases hv : getCell row row_key with
    | none => rw [hv] at hf; simp at hf
    | some c =>
        cases c with
        | none => rw [hv] at hf; simp at hf
        | some v =>
            rw [hv] at hf
            dsimp only [] at hf ⊢
            cases v <;> (first
              | (split at hf <;> simp_all)
              | (split at hf
                 · split at hf <;> simp_all
                 · simp_all))
  · intro rest p2 ch hf
    unfold dateColumnsLoop
    dsimp only []
    rw [hf]
    simp only [if_true]
    have hsh : (importDatetimeColumnFromFile row_key row idx p2 pid).2.2.2 = p2 := by
      unfold importDatetimeColumnFromFile at hf ⊢
      cases hv : getCell row row_key with
      | none => rfl
      | some c =>
          cases c with
          | none => rfl
          | some v =>
              rw [hv] at hf
              dsimp only [] at hf ⊢
              cases v <;> (first
                | (split at hf <;> split <;> simp_all)
                | (split at hf <;> simp_all)
                | simp_all)
    rw [hsh]

/-- A record for "P7" whose end-of-sale date (index 2) is already set. -/
def pC7 : Product :=
  ⟨.str "P7", .str "not set", none, curUSD, 0, none, none, none, none,
    (List.replicate 9 none).set 2 (some 5)⟩

theorem c7_date_columns_witness :
    (importDatetimeColumnFromFile "end of sale date" rowC7 2 pC7 (.str "P7")).2.1 = true ∧
    (importDatetimeColumnFromFile "end of sale date" rowC7 2 pC7 (.str "P7")).2.2.1 =
      "cannot set end of sale date for <code>P7</code> (value has no date attribute)" ∧
    dateColumnsLoop rowC7 (.str "P7")
        [(2, "end of sale date"), (3, "end of new service attachment date")] pC7 false =
      (pC7, false, true,
       "cannot set end of sale date for <code>P7</code> (value has no date attribute)") := by
  have h := c7_date_columns "end of sale date" rowC7 2 pC7 (.str "P7")
  have hf : (importDatetimeColumnFromFile "end of sale date" rowC7 2 pC7 (.str "P7")).2.1 =
      true := (h.1 (.str "garbage") (by decide)).mpr (by decide)
  refine ⟨hf, h.2.1 hf, ?_⟩
  rw [h.2.2 [(3, "end of new service attachment date")] pC7 false hf]
  decide

/-- A workbook whose products sheet is missing the required "vendor" column,
holding one row; its verification fails. -/
def wbC5 : Workbook :=
  ⟨[⟨"products", ["Product ID", "Description", "List Price"],
     [[some (.str "P5"), none, none]]⟩]⟩

/-- An importer over `wbC5` that was never successfully verified. -/
def impC5 : Importer := ⟨wbC5, false⟩

/-- An importer over a workbook that passes verification. -/
def impOK5 : Importer :=
  ⟨⟨[⟨"products", ["product id", "description", "list price", "vendor"], []⟩]⟩, false⟩

theorem c5_counterexample :
    impC5.valid_file = false ∧
    verifyFile impC5 sheetProducts requiredProductKeys =
      .error "not all required keys are found in the Excel file" ∧
    ((importToDatabase impC5 dbW4 false).toOption.map (fun r => r.2.2)) = some 1 ∧
    ((importToDatabase impC5 dbW4 false).toOption.map (fun r => r.2.1.invalid)) = some 1 ∧
    ((importToDatabase impC5 dbW4 false).toOption.map (fun r => r.2.1.messages.length)) =
      some 2 := by
  decide

theorem c5_import_ignores_validation (imp : Importer) (db : DB) (uo b : Bool) :
    importToDatabase { imp with valid_file := b } db uo = importToDatabase imp db uo ∧
    (∀ imp2, verifyFile imp sheetProducts requiredProductKeys = .ok imp2 →
      imp2.valid_file = true) ∧
    ((verifyFile imp sheetProducts requiredProductKeys).isOk = true ↔
      (∃ sh, findSheet imp.workbook sheetProducts = some sh ∧
        ∀ k ∈ requiredProductKeys, k ∈ sh.columns.map lowerStr)) := by
  refine ⟨rfl, ?_, ?_⟩
  · intro imp2 h
    unfold verifyFile at h
    cases hs : findSheet imp.workbook sheetProducts with
    | none => rw [hs] at h; cases h
    | some sh =>
        rw [hs] at h
        dsimp only [] at h
        split at h
        · cases h; rfl
        · cases h
  · unfold verifyFile
    cases hs : findSheet imp.workbook sheetProducts with
    | none =>
        simp only [Except.isOk, Except.toBool]
        constructor
        · intro h; cases h
        · rintro ⟨sh, hsh, _⟩
          cases hsh
    | some sh =>
        dsimp only []
        by_cases hall :
            (requiredProductKeys.all (fun k => (sh.columns.map lowerStr).contains k)) = true
        · rw [if_pos hall]
          simp only [Except.isOk, Except.toBool, true_iff]
          refine ⟨sh, rfl, ?_⟩
          intro k hk
          have h2 := (List.all_eq_true.mp hall) k hk
          simpa using h2
        · rw [if_neg hall]
          simp only [Except.isOk, Except.toBool, Bool.false_eq_true, false_iff]
          rintro ⟨sh2, hsh2, hmem⟩
          cases hsh2
          apply hall
          apply List.all_eq_true.mpr
          intro k hk
          simpa using hmem k hk

theorem c5_import_ignores_validation_witness :
    importToDatabase { impC5 with valid_file := true } dbW4 false =
      importToDatabase impC5 dbW4 false ∧
    (verifyFile impOK5 sheetProducts requiredProductKeys).isOk = true ∧
    (∃ sh, findSheet impOK5.workbook sheetProducts = some sh ∧
      ∀ k ∈ requiredProductKeys, k ∈ sh.columns.map lowerStr) := by
  have h := c5_import_ignores_validation impC5 dbW4 false true
  have h2 := c5_import_ignores_validation impOK5 dbW4 false true
  exact ⟨h.1, by decide, h2.2.2.mp (by decide)⟩

theorem c9_migration_missing_product :
    (∀ (mdb : MigDB) (msgs : List String) (row : Row) (pid : CellValue),
      getCell row colProductId = some (some pid) →
      pid ≠ CellValue.str "" →
      productById mdb.db pid = none →
      migrationProcessRow mdb msgs row = (mdb, msgs ++ [migSkipMsgFor pid])) ∧
    (∀ (rows1 rows2 : List Row) (mdb : MigDB) (msgs : List String),
      migrationRowsGo (rows1 ++ rows2) mdb msgs =
        migrationRowsGo rows2 (migrationRowsGo rows1 mdb msgs).1
          (migrationRowsGo rows1 mdb msgs).2) := by
  constructor
  · intro mdb msgs row pid hpid hne hmiss
    unfold migrationProcessRow
    rw [hpid]
    dsimp only []
    rw [if_neg (by simpa using hne)]
    rw [hmiss]
  · intro rows1
    induction rows1 with
    | nil => intro rows2 mdb msgs; rfl
    | cons r rs ih =>
        intro rows2 mdb msgs
        show migrationRowsGo (rs ++ rows2) (migrationProcessRow mdb msgs r).1
            (migrationProcessRow mdb msgs r).2 = _
        rw [ih]
        rfl

/-- A migration datastore with no products. -/
def mdbW9 : MigDB := ⟨dbW4, [], []⟩

def rowM9 : Row :=
  [(colProductId, some (.str "M1")), (colMigrationSource, some (.str "S"))]

theorem c9_migration_missing_product_witness :
    migrationProcessRow mdbW9 [] rowM9 =
      (mdbW9, ["Product M1 not found in database, skip entry"]) ∧
    migrationRowsGo ([rowM9] ++ [rowM9]) mdbW9 [] =
      migrationRowsGo [rowM9] (migrationRowsGo [rowM9] mdbW9 []).1
        (migrationRowsGo [rowM9] mdbW9 []).2 := by
  have h := c9_migration_missing_product
  exact ⟨h.1 mdbW9 [] rowM9 (.str "M1") (by decide) (by decide) (by decide),
    h.2 [rowM9] [rowM9] mdbW9 []⟩

theorem dateColumnsLoop_absent (row : Row) (pid : CellValue) :
    ∀ (maps : List (ℕ × String)) (p : Product) (ch : Bool),
      (∀ i col, (i, col) ∈ maps → getCell row col = none) →
      dateColumnsLoop row pid maps p ch = (p, ch, false, "") := by
  intro maps
  induction maps with
  | nil => intro p ch _; rfl
  | cons m rest ih =>
      intro p ch h
      rcases m with ⟨idx, col⟩
      have hcol : getCell row col = none := h idx col (List.mem_cons_self _ _)
      have hstep : importDatetimeColumnFromFile col row idx p pid = (false, false, "", p) := by
        unfold importDatetimeColumnFromFile
        rw [hcol]
      unfold dateColumnsLoop
      rw [hstep]
      dsimp only []
      rw [Bool.or_false]
      exact ih p ch (fun i c hm => h i c (List.mem_cons_of_mem _ hm))

theorem c8_vendor_resolution :
    (∀ (V : List (ℕ × String)) (row : Row) (st : FSt) (nm0 : String),
      st.err = none → getCell row colVendor = some none →
      vendorNameOf V 0 = some nm0 →
      vendorBlock V row true st =
        { st with changed := true, p := { st.p with vendor := 0 } }) ∧
    (∀ (V : List (ℕ × String)) (row : Row) (created : Bool) (st : FSt)
        (v : CellValue) (nm : String),
      st.err = none → getCell row colVendor = some (some v) →
      vendorNameOf V st.p.vendor = some nm → CellValue.str nm ≠ v →
      vendorByName V v = none →
      vendorBlock V row created st =
        { st with err := some (colVendor,
            "Vendor <strong>" ++ cellRepr v ++ "</strong> does not exist") }) ∧
    (∀ (db : DB) (s : Session) (row : Row) (pid : CellValue) (v : CellValue) (nm : String),
      getCell row colProductId = some (some pid) →
      (priceCurrencyBlock row (descriptionBlock row
        ⟨(getOrCreateProduct db pid).2.2.groups, (getOrCreateProduct db pid).1,
         (getOrCreateProduct db pid).2.1, none⟩)).err = none →
      getCell row colVendor = some (some v) →
      vendorNameOf db.vendors (priceCurrencyBlock row (descriptionBlock row
        ⟨(getOrCreateProduct db pid).2.2.groups, (getOrCreateProduct db pid).1,
         (getOrCreateProduct db pid).2.1, none⟩)).p.vendor = some nm →
      CellValue.str nm ≠ v →
      vendorByName db.vendors v = none →
      (∀ i col, (i, col) ∈ dateMap → getCell row col = none) →
      (processRow false db s row).2.1.invalid = s.invalid + 1 ∧
      faultyMsgFor pid (colVendor,
          "Vendor <strong>" ++ cellRepr v ++ "</strong> does not exist")
        ∈ (processRow false db s row).2.1.messages) := by
  have hblock2 : ∀ (V : List (ℕ × String)) (row : Row) (created : Bool) (st : FSt)
      (v : CellValue) (nm : String),
      st.err = none → getCell row colVendor = some (some v) →
      vendorNameOf V st.p.vendor = some nm → CellValue.str nm ≠ v →
      vendorByName V v = none →
      vendorBlock V row created st =
        { st with err := some (colVendor,
            "Vendor <strong>" ++ cellRepr v ++ "</strong> does not exist") } := by
    intro V row created st v nm h0 hc hnm hne hlk
    unfold vendorBlock
    rw [if_neg (by simp [h0])]
    rw [hc]
    dsimp only []
    rw [hnm]
    dsimp only []
    rw [if_pos hne, hlk]
  refine ⟨?_, hblock2, ?_⟩
  · intro V row st nm0 h0 hc hv0
    unfold vendorBlock
    rw [if_neg (by simp [h0])]
    rw [hc]
    dsimp only []
    rw [hv0]
    rfl
  · intro db s row pid v nm hpid hpre hc hnm hne hlk hdates
    have hvend : (getOrCreateProduct db pid).2.2.vendors = db.vendors :=
      getOrCreate_vendors db pid
    have hvb := hblock2 (getOrCreateProduct db pid).2.2.vendors row
      (getOrCreateProduct db pid).2.1
      (priceCurrencyBlock row (descriptionBlock row
        ⟨(getOrCreateProduct db pid).2.2.groups, (getOrCreateProduct db pid).1,
         (getOrCreateProduct db pid).2.1, none⟩)) v nm hpre hc
      (by rw [hvend]; exact hnm) hne (by rw [hvend]; exact hlk)
    have heq : processRow false db s row =
        finishRow { (getOrCreateProduct db pid).2.2 with
            groups := (mainFieldBlocks (getOrCreateProduct db pid).2.2.vendors row
              (getOrCreateProduct db pid).2.1
              ⟨(getOrCreateProduct db pid).2.2.groups, (getOrCreateProduct db pid).1,
               (getOrCreateProduct db pid).2.1, none⟩).groups }
          (dateColumnsLoop row pid dateMap
            (mainFieldBlocks (getOrCreateProduct db pid).2.2.vendors row
              (getOrCreateProduct db pid).2.1
              ⟨(getOrCreateProduct db pid).2.2.groups, (getOrCreateProduct db pid).1,
               (getOrCreateProduct db pid).2.1, none⟩).p
            (mainFieldBlocks (getOrCreateProduct db pid).2.2.vendors row
              (getOrCreateProduct db pid).2.1
              ⟨(getOrCreateProduct db pid).2.2.groups, (getOrCreateProduct db pid).1,
               (getOrCreateProduct db pid).2.1, none⟩).changed).1
          pid (getOrCreateProduct db pid).2.1
          (dateColumnsLoop row pid dateMap
            (mainFieldBlocks (getOrCreateProduct db pid).2.2.vendors row
              (getOrCreateProduct db pid).2.1
              ⟨(getOrCreateProduct db pid).2.2.groups, (getOrCreateProduct db pid).1,
               (getOrCreateProduct db pid).2.1, none⟩).p
            (mainFieldBlocks (getOrCreateProduct db pid).2.2.vendors row
              (getOrCreateProduct db pid).2.1
              ⟨(getOrCreateProduct db pid).2.2.groups, (getOrCreateProduct db pid).1,
               (getOrCreateProduct db pid).2.1, none⟩).changed).2.1
          ((mainFieldBlocks (getOrCreateProduct db pid).2.2.vendors row
              (getOrCreateProduct db pid).2.1
              ⟨(getOrCreateProduct db pid).2.2.groups, (getOrCreateProduct db pid).1,
               (getOrCreateProduct db pid).2.1, none⟩).err.isSome ||
            (dateColumnsLoop row pid dateMap
              (mainFieldBlocks (getOrCreateProduct db pid).2.2.vendors row
                (getOrCreateProduct db pid).2.1
                ⟨(getOrCreateProduct db pid).2.2.groups, (getOrCreateProduct db pid).1,
                 (getOrCreateProduct db pid).2.1, none⟩).p
              (mainFieldBlocks (getOrCreateProduct db pid).2.2.vendors row
                (getOrCreateProduct db pid).2.1
                ⟨(getOrCreateProduct db pid).2.2.groups, (getOrCreateProduct db pid).1,
                 (getOrCreateProduct db pid).2.1, none⟩).changed).2.2.1)
          (if (dateColumnsLoop row pid dateMap
                (mainFieldBlocks (getOrCreateProduct db pid).2.2.vendors row
                  (getOrCreateProduct db pid).2.1
                  ⟨(getOrCreateProduct db pid).2.2.groups, (getOrCreateProduct db pid).1,
                   (getOrCreateProduct db pid).2.1, none⟩).p
                (mainFieldBlocks (getOrCreateProduct db pid).2.2.vendors row
                  (getOrCreateProduct db pid).2.1
                  ⟨(getOrCreateProduct db pid).2.2.groups, (getOrCreateProduct db pid).1,
                   (getOrCreateProduct db pid).2.1, none⟩).changed).2.2.1
           then (dateColumnsLoop row pid dateMap
                (mainFieldBlocks (getOrCreateProduct db pid).2.2.vendors row
                  (getOrCreateProduct db pid).2.1
                  ⟨(getOrCreateProduct db pid).2.2.groups, (getOrCreateProduct db pid).1,
                   (getOrCreateProduct db pid).2.1, none⟩).p
                (mainFieldBlocks (getOrCreateProduct db pid).2.2.vendors row
                  (getOrCreateProduct db pid).2.1
                  ⟨(getOrCreateProduct db pid).2.2.groups, (getOrCreateProduct db pid).1,
                   (getOrCreateProduct db pid).2.1, none⟩).changed).2.2.2
           else match (mainFieldBlocks (getOrCreateProduct db pid).2.2.vendors row
                  (getOrCreateProduct db pid).2.1
                  ⟨(getOrCreateProduct db pid).2.2.groups, (getOrCreateProduct db pid).1,
                   (getOrCreateProduct db pid).2.1, none⟩).err with
                | some ke => faultyMsgFor pid ke
                | none => "import successful") s := by
      simp only [processRow, hpid]
      unfold processFound
      rfl
    have hstM : mainFieldBlocks (getOrCreateProduct db pid).2.2.vendors row
        (getOrCreateProduct db pid).2.1
        ⟨(getOrCreateProduct db pid).2.2.groups, (getOrCreateProduct db pid).1,
         (getOrCreateProduct db pid).2.1, none⟩ =
        { (priceCurrencyBlock row (descriptionBlock row
            ⟨(getOrCreateProduct db pid).2.2.groups, (getOrCreateProduct db pid).1,
             (getOrCreateProduct db pid).2.1, none⟩)) with
          err := some (colVendor,
            "Vendor <strong>" ++ cellRepr v ++ "</strong> does not exist") } := by
      unfold mainFieldBlocks
      rw [hvb]
      rw [productGroupBlock_skip _ _ (by simp), eolUrlBlock_skip _ _ (by simp),
        eolFriendlyBlock_skip _ _ (by simp), internalIdBlock_skip _ _ (by simp)]
    rw [heq, hstM]
    rw [dateColumnsLoop_absent row pid dateMap _ _ hdates]
    dsimp only []
    rw [finishRow_invalid, finishRow_messages]
    constructor
    · simp
    · simp

def rowV8null : Row := [(colVendor, none)]

def stV8 : FSt := ⟨[], defaultProduct (.str "P8"), false, none⟩

def db8 : DB := ⟨[], [(0, "unassigned")], []⟩

def row8 : Row :=
  [(colProductId, some (.str "P8")), (colDescription, none), (colListPrice, none),
   (colVendor, some (.str "Ghost"))]

theorem c8_vendor_resolution_witness :
    vendorBlock [(0, "unassigned"), (7, "Acme")] rowV8null true stV8 =
      { stV8 with changed := true, p := { stV8.p with vendor := 0 } } ∧
    (processRow false db8 emptySession row8).2.1.invalid = 1 ∧
    faultyMsgFor (.str "P8") (colVendor, "Vendor <strong>Ghost</strong> does not exist")
      ∈ (processRow false db8 emptySession row8).2.1.messages := by
  have h := c8_vendor_resolution
  refine ⟨h.1 [(0, "unassigned"), (7, "Acme")] rowV8null stV8 "unassigned" rfl
    (by decide) (by decide), ?_⟩
  have h3 := h.2.2 db8 emptySession row8 (.str "P8") (.str "Ghost") "unassigned"
    (by decide) (by decide) (by decide) (by decide) (by decide) (by decide)
    (by intro i col hm; fin_cases hm <;> rfl)
  exact ⟨h3.1, h3.2⟩

/-- The premise of C3, written from the claim: every mapped column of the row
is absent, null, or equal to the record's current value (for the price, the
parsed price is absent or the parsed price and resolved currency equal the
stored ones; for a date column, a date value equals the stored date). -/
def rowUnchangedFor (V : List (ℕ × String)) (row : Row) (p : Product) : Prop :=
  (∀ v, getCell row colDescription = some (some v) → p.description = v) ∧
  (∀ cell np nc nc2, getCell row colListPrice = some cell →
    parseListPrice cell = .ok (np, nc) → resolveCurrencyColumn row nc = .ok nc2 →
    np = none ∨ (p.list_price = np ∧ p.currency = nc2)) ∧
  (∀ v nm, getCell row colVendor = some (some v) →
    vendorNameOf V p.vendor = some nm → CellValue.str nm = v) ∧
  (∀ v, getCell row colProductGroup = some (some v) →
    ∃ pg, p.product_group = some pg ∧ pg.1 = v) ∧
  (∀ v, getCell row colEolUrl = some (some v) → p.eol_reference_url = some v) ∧
  (∀ v, getCell row colEolFriendly = some (some v) → p.eol_reference_number = some v) ∧
  (∀ v, getCell row colInternalId = some (some v) → p.internal_product_id = some v) ∧
  (∀ i col d, (i, col) ∈ dateMap → getCell row col = some (some (CellValue.date d)) →
    p.dates.getD i none = some d)

theorem descriptionBlock_inert (row : Row) (p : Product)
    (hm : ∀ v, getCell row colDescription = some (some v) → p.description = v) :
    ∀ st : FSt, st.p = p → st.changed = false →
      (descriptionBlock row st).p = p ∧ (descriptionBlock row st).changed = false ∧
      (descriptionBlock row st).groups = st.groups := by
  intro st hp hch
  unfold descriptionBlock
  split
  · exact ⟨hp, hch, rfl⟩
  · split
    · exact ⟨hp, hch, rfl⟩
    · exact ⟨hp, hch, rfl⟩
    · rename_i v hv
      rw [if_neg (by rw [hp, hm v hv]; simp)]
      exact ⟨hp, hch, rfl⟩

theorem priceCurrencyBlock_inert (row : Row) (p : Product)
    (hm : ∀ cell np nc nc2, getCell row colListPrice = some cell →
      parseListPrice cell = .ok (np, nc) → resolveCurrencyColumn row nc = .ok nc2 →
      np = none ∨ (p.list_price = np ∧ p.currency = nc2)) :
    ∀ st : FSt, st.p = p → st.changed = false →
      (priceCurrencyBlock row st).p = p ∧ (priceCurrencyBlock row st).changed = false ∧
      (priceCurrencyBlock row st).groups = st.groups := by
  intro st hp hch
  unfold priceCurrencyBlock
  split
  · exact ⟨hp, hch, rfl⟩
  · cases hlp : getCell row colListPrice with
    | none => exact ⟨hp, hch, rfl⟩
    | some cell =>
        dsimp only []
        cases hpr : parseListPrice cell with
        | error e => exact ⟨hp, hch, rfl⟩
        | ok pr =>
            dsimp only []
            cases hcr : resolveCurrencyColumn row pr.2 with
            | error e => exact ⟨hp, hch, rfl⟩
            | ok nc2 =>
                dsimp only []
                cases hnp : pr.1 with
                | none => exact ⟨hp, hch, rfl⟩
                | some q =>
                    rcases hm cell pr.1 pr.2 nc2 hlp (by rw [← hpr]) hcr with h | ⟨h1, h2⟩
                    · rw [hnp] at h; cases h
                    · rw [hnp] at h1
                      dsimp only []
                      have hc1 : ¬ (st.p.list_price ≠ some q) := by rw [hp, h1]; simp
                      rw [if_neg hc1]
                      have hc2 : ¬ (st.p.currency ≠ nc2) := by rw [hp, h2]; simp
                      rw [if_neg hc2]
                      exact ⟨hp, hch, rfl⟩

theorem vendorBlock_inert (V : List (ℕ × String)) (row : Row) (p : Product)
    (hm : ∀ v nm, getCell row colVendor = some (some v) →
      vendorNameOf V p.vendor = some nm → CellValue.str nm = v) :
    ∀ st : FSt, st.p = p → st.changed = false →
      (vendorBlock V row false st).p = p ∧ (vendorBlock V row false st).changed = false ∧
      (vendorBlock V row false st).groups = st.groups := by
  intro st hp hch
  unfold vendorBlock
  split
  · exact ⟨hp, hch, rfl⟩
  · split
    · exact ⟨hp, hch, rfl⟩
    · exact ⟨hp, hch, rfl⟩
    · rename_i v hv
      cases hvn : vendorNameOf V st.p.vendor with
      | none => exact ⟨hp, hch, rfl⟩
      | some nm =>
          dsimp only []
          rw [if_neg (by rw [hm v nm hv (by rw [← hp]; exact hvn)]; simp)]
          exact ⟨hp, hch, rfl⟩

theorem productGroupBlock_inert (row : Row) (p : Product)
    (hm : ∀ v, getCell row colProductGroup = some (some v) →
      ∃ pg, p.product_group = some pg ∧ pg.1 = v) :
    ∀ st : FSt, st.p = p → st.changed = false →
      (productGroupBlock row st).p = p ∧ (productGroupBlock row st).changed = false ∧
      (productGroupBlock row st).groups = st.groups := by
  intro st hp hch
  unfold productGroupBlock
  split
  · exact ⟨hp, hch, rfl⟩
  · split
    · exact ⟨hp, hch, rfl⟩
    · exact ⟨hp, hch, rfl⟩
    · rename_i v hv
      rcases hm v hv with ⟨pg, hpg, hname⟩
      dsimp only []
      rw [if_neg ?hsv]
      case hsv =>
        rw [hp, hpg]
        simp [hname]
      exact ⟨hp, hch, rfl⟩

theorem eolUrlBlock_inert (row : Row) (p : Product)
    (hm : ∀ v, getCell row colEolUrl = some (some v) → p.eol_reference_url = some v) :
    ∀ st : FSt, st.p = p → st.changed = false →
      (eolUrlBlock row st).p = p ∧ (eolUrlBlock row st).changed = false ∧
      (eolUrlBlock row st).groups = st.groups := by
  intro st hp hch
  unfold eolUrlBlock
  split
  · exact ⟨hp, hch, rfl⟩
  · split
    · exact ⟨hp, hch, rfl⟩
    · exact ⟨hp, hch, rfl⟩
    · rename_i v hv
      rw [if_neg (by rw [hp, hm v hv]; simp)]
      exact ⟨hp, hch, rfl⟩

theorem eolFriendlyBlock_inert (row : Row) (p : Product)
    (hm : ∀ v, getCell row colEolFriendly = some (some v) →
      p.eol_reference_number = some v) :
    ∀ st : FSt, st.p = p → st.changed = false →
      (eolFriendlyBlock row st).p = p ∧ (eolFriendlyBlock row st).changed = false ∧
      (eolFriendlyBlock row st).groups = st.groups := by
  intro st hp hch
  unfold eolFriendlyBlock
  split
  · exact ⟨hp, hch, rfl⟩
  · split
    · exact ⟨hp, hch, rfl⟩
    · exact ⟨hp, hch, rfl⟩
    · rename_i v hv
      rw [if_neg (by rw [hp, hm v hv]; simp)]
      exact ⟨hp, hch, rfl⟩

theorem internalIdBlock_inert (row : Row) (p : Product)
    (hm : ∀ v, getCell row colInternalId = some (some v) →
      p.internal_product_id = some v) :
    ∀ st : FSt, st.p = p → st.changed = false →
      (internalIdBlock row st).p = p ∧ (internalIdBlock row st).changed = false ∧
      (internalIdBlock row st).groups = st.groups := by
  intro st hp hch
  unfold internalIdBlock
  split
  · exact ⟨hp, hch, rfl⟩
  · split
    · exact ⟨hp, hch, rfl⟩
    · exact ⟨hp, hch, rfl⟩
    · rename_i v hv
      rw [if_neg (by rw [hp, hm v hv]; simp)]
      exact ⟨hp, hch, rfl⟩

theorem mainFieldBlocks_inert (V : List (ℕ × String)) (row : Row) (p : Product)
    (hmatch : rowUnchangedFor V row p) :
    ∀ st : FSt, st.p = p → st.changed = false →
      (mainFieldBlocks V row false st).p = p ∧
      (mainFieldBlocks V row false st).changed = false ∧
      (mainFieldBlocks V row false st).groups = st.groups := by
  intro st hp hch
  obtain ⟨h1, h2, h3, h4, h5, h6, h7, _⟩ := hmatch
  unfold mainFieldBlocks
  obtain ⟨d1, d2, d3⟩ := descriptionBlock_inert row p h1 st hp hch
  obtain ⟨e1, e2, e3⟩ := priceCurrencyBlock_inert row p h2 _ d1 d2
  obtain ⟨f1, f2, f3⟩ := vendorBlock_inert V row p h3 _ e1 e2
  obtain ⟨g1, g2, g3⟩ := productGroupBlock_inert row p h4 _ f1 f2
  obtain ⟨i1, i2, i3⟩ := eolUrlBlock_inert row p h5 _ g1 g2
  obtain ⟨j1, j2, j3⟩ := eolFriendlyBlock_inert row p h6 _ i1 i2
  obtain ⟨k1, k2, k3⟩ := internalIdBlock_inert row p h7 _ j1 j2
  refine ⟨k1, k2, ?_⟩
  rw [k3, j3, i3, g3, f3, e3, d3]

theorem importDatetime_inert (row : Row) (pid : CellValue) (p : Product)
    (i : ℕ) (col : String)
    (hm : ∀ d, getCell row col = some (some (CellValue.date d)) →
      p.dates.getD i none = some d) :
    (importDatetimeColumnFromFile col row i p pid).2.2.2 = p ∧
    (importDatetimeColumnFromFile col row i p pid).1 = false := by
  unfold importDatetimeColumnFromFile
  cases hv : getCell row col with
  | none => exact ⟨rfl, rfl⟩
  | some c =>
      cases c with
      | none => exact ⟨rfl, rfl⟩
      | some v =>
          dsimp only []
          cases v with
          | date d =>
              rw [if_neg (by rw [hm d hv]; simp)]
              exact ⟨rfl, rfl⟩
          | str ss => split <;> exact ⟨rfl, rfl⟩
          | float q => split <;> exact ⟨rfl, rfl⟩
          | int n => split <;> exact ⟨rfl, rfl⟩
          | other => split <;> exact ⟨rfl, rfl⟩

theorem dateColumnsLoop_inert (row : Row) (pid : CellValue) (p : Product) :
    ∀ (maps : List (ℕ × String)) (ch : Bool),
      (∀ i col d, (i, col) ∈ maps → getCell row col = some (some (CellValue.date d)) →
        p.dates.getD i none = some d) →
      (dateColumnsLoop row pid maps p ch).1 = p ∧
      (dateColumnsLoop row pid maps p ch).2.1 = ch := by
  intro maps
  induction maps with
  | nil => intro ch _; exact ⟨rfl, rfl⟩
  | cons m rest ih =>
      intro ch hm
      rcases m with ⟨idx, col⟩
      obtain ⟨hi1, hi2⟩ := importDatetime_inert row pid p idx col
        (fun d hd => hm idx col d (List.mem_cons_self _ _) hd)
      unfold dateColumnsLoop
      dsimp only []
      rw [hi2, Bool.or_false]
      split
      · exact ⟨hi1, rfl⟩
      · rw [hi1]
        exact ih ch (fun i c d hmem hd => hm i c d (List.mem_cons_of_mem _ hmem) hd)

theorem getOrCreate_of_found (db : DB) (pid : CellValue) (p : Product)
    (h : productById db pid = some p) :
    getOrCreateProduct db pid = (p, false, db) := by
  unfold getOrCreateProduct
  rw [h]

theorem c3_no_change_no_write (db : DB) (s : Session) (row : Row) (pid : CellValue)
    (p : Product)
    (hpid : getCell row colProductId = some (some pid))
    (hstored : productById db pid = some p)
    (hmatch : rowUnchangedFor db.vendors row p) :
    (processRow false db s row).1 = db ∧
    (processRow false db s row).2.1.revisions = s.revisions ∧
    (processRow false db s row).2.1.valid = s.valid ∧
    (∃ rest, (processRow false db s row).2.1.messages =
      s.messages ++ unchangedMsgFor pid :: rest) := by
  have hgoc := getOrCreate_of_found db pid p hstored
  have heq : processRow false db s row = processFound db s row pid p false := by
    simp [processRow, hpid, hgoc]
  obtain ⟨m1, m2, m3⟩ :=
    mainFieldBlocks_inert db.vendors row p hmatch ⟨db.groups, p, false, none⟩ rfl rfl
  obtain ⟨l1, l2⟩ := dateColumnsLoop_inert row pid p dateMap false hmatch.2.2.2.2.2.2.2
  rw [heq]
  unfold processFound
  dsimp only []
  rw [m1, m2, l1, l2]
  rw [finishRow_db, finishRow_revisions, finishRow_valid, finishRow_messages]
  refine ⟨?_, by simp, by simp, ?_⟩
  · simp only [Bool.false_eq_true, if_false]
    rw [m3]
  · simp only [Bool.false_eq_true, if_false]
    exact ⟨_, by rw [List.append_assoc]; rfl⟩

def pW3 : Product :=
  ⟨.str "P3", .str "desc", some 10, "EUR", 7, some (.str "G", 7), some (.str "http"),
    some (.str "ref"), some (.str "int"), (List.replicate 9 none).set 2 (some 42)⟩

def dbW3 : DB := ⟨[pW3], [(0, "unassigned"), (7, "Acme")], [(.str "G", 7)]⟩

def rowW3 : Row :=
  [(colProductId, some (.str "P3")), (colDescription, some (.str "desc")),
   (colListPrice, some (.str "10 EUR")), (colCurrency, some (.str "eur")),
   (colVendor, some (.str "Acme")), (colProductGroup, some (.str "G")),
   (colEolUrl, some (.str "http")), (colEolFriendly, some (.str "ref")),
   (colInternalId, some (.str "int")), ("end of sale date", some (.date 42))]

theorem c3_no_change_no_write_witness :
    (processRow false dbW3 emptySession rowW3).1 = dbW3 ∧
    (processRow false dbW3 emptySession rowW3).2.1.revisions = 0 ∧
    (processRow false dbW3 emptySession rowW3).2.1.valid = 0 ∧
    (∃ rest, (processRow false dbW3 emptySession rowW3).2.1.messages =
      unchangedMsgFor (.str "P3") :: rest) := by
  have hmatch : rowUnchangedFor dbW3.vendors rowW3 pW3 := by
    refine ⟨?_, ?_, ?_, ?_, ?_, ?_, ?_, ?_⟩
    · intro v hv
      cases (show (some (some (CellValue.str "desc")) : Option Cell) = some (some v) from hv)
      rfl
    · intro cell np nc nc2 hc hp hr
      cases (show (some (some (CellValue.str "10 EUR")) : Option Cell) = some cell from hc)
      cases (show (Except.ok (some (10 : ℚ), "EUR") : Except String (Option ℚ × String)) =
        Except.ok (np, nc) from hp)
      cases (show (Except.ok "EUR" : Except String String) = Except.ok nc2 from hr)
      right
      exact ⟨by decide, rfl⟩
    · intro v nm hv hnm
      cases (show (some (some (CellValue.str "Acme")) : Option Cell) = some (some v) from hv)
      cases (show (some "Acme" : Option String) = some nm from hnm)
      rfl
    · intro v hv
      cases (show (some (some (CellValue.str "G")) : Option Cell) = some (some v) from hv)
      exact ⟨(.str "G", 7), rfl, rfl⟩
    · intro v hv
      cases (show (some (some (CellValue.str "http")) : Option Cell) = some (some v) from hv)
      rfl
    · intro v hv
      cases (show (some (some (CellValue.str "ref")) : Option Cell) = some (some v) from hv)
      rfl
    · intro v hv
      cases (show (some (some (CellValue.str "int")) : Option Cell) = some (some v) from hv)
      rfl
    · intro i col d hmem hcell
      fin_cases hmem
      · cases (show (none : Option Cell) = some (some (CellValue.date d)) from hcell)
      · cases (show (none : Option Cell) = some (some (CellValue.date d)) from hcell)
      · cases (show (some (some (CellValue.date 42)) : Option Cell) =
          some (some (CellValue.date d)) from hcell)
        decide
      · cases (show (none : Option Cell) = some (some (CellValue.date d)) from hcell)
      · cases (show (none : Option Cell) = some (some (CellValue.date d)) from hcell)
      · cases (show (none : Option Cell) = some (some (CellValue.date d)) from hcell)
      · cases (show (none : Option Cell) = some (some (CellValue.date d)) from hcell)
      · cases (show (none : Option Cell) = some (some (CellValue.date d)) from hcell)
      · cases (show (none : Option Cell) = some (some (CellValue.date d)) from hcell)
  have h := c3_no_change_no_write dbW3 emptySession rowW3 (.str "P3") pW3
    (by decide) (by decide) hmatch
  exact ⟨h.1, h.2.1, h.2.2.1, h.2.2.2⟩

theorem vendorNameOf_mem_ids (V : List (ℕ × String)) (vid : ℕ) (nm : String)
    (h : vendorNameOf V vid = some nm) : vid ∈ V.map Prod.fst := by
  unfold vendorNameOf at h
  cases hf : V.find? (fun v => v.1 == vid) with
  | none => rw [hf] at h; cases h
  | some e =>
      have hmem := List.mem_of_find?_eq_some hf
      have hbeq := List.find?_some hf
      have : e.1 = vid := by simpa using hbeq
      exact List.mem_map.2 ⟨e, hmem, this⟩

theorem vendorByName_resolve (v : CellValue) :
    ∀ (V : List (ℕ × String)) (vid : ℕ),
      (V.map Prod.fst).Nodup → vendorByName V v = some vid →
      ∃ nm, vendorNameOf V vid = some nm ∧ CellValue.str nm = v := by
  intro V
  induction V with
  | nil => intro vid _ h; cases h
  | cons e tail ih =>
      intro vid hnd h
      rw [List.map_cons, List.nodup_cons] at hnd
      by_cases hm : (CellValue.str e.2 == v) = true
      · unfold vendorByName at h
        simp only [List.find?, hm] at h
        have hvid : e.1 = vid := by simpa using h
        refine ⟨e.2, ?_, by simpa using hm⟩
        unfold vendorNameOf
        simp only [List.find?, show (e.1 == vid) = true by simpa using hvid]
        rfl
      · have hm2 : (CellValue.str e.2 == v) = false := by simpa using hm
        have htail : vendorByName tail v = some vid := by
          unfold vendorByName at h ⊢
          simp only [List.find?, hm2] at h
          exact h
        rcases ih vid hnd.2 htail with ⟨nm, hnm, hstr⟩
        refine ⟨nm, ?_, hstr⟩
        have hne : e.1 ≠ vid := fun hc => hnd.1 (hc ▸ vendorNameOf_mem_ids tail vid nm hnm)
        unfold vendorNameOf at hnm ⊢
        simp only [List.find?, show (e.1 == vid) = false by simp [hne]]
        exact hnm

theorem descriptionBlock_second (row : Row) (x1 x2 : FSt)
    (herr : x2.err = x1.err)
    (hf : x1.err = none → x2.p.description = (descriptionBlock row x1).p.description) :
    descriptionBlock row x2 = { x2 with err := (descriptionBlock row x1).err } := by
  cases h1 : x1.err with
  | some e =>
      have hs1 : descriptionBlock row x1 = x1 := descriptionBlock_skip row x1 (by rw [h1]; rfl)
      have hs2 : descriptionBlock row x2 = x2 :=
        descriptionBlock_skip row x2 (by rw [herr, h1]; rfl)
      rw [hs1, hs2, ← herr]
  | none =>
      have h2 : x2.err = none := by rw [herr, h1]
      have hf2 := hf h1
      have e1 : x1.err.isSome = false := by rw [h1]; rfl
      have e2 : x2.err.isSome = false := by rw [h2]; rfl
      unfold descriptionBlock at hf2 ⊢
      simp only [e1, e2, Bool.false_eq_true, if_false] at hf2 ⊢
      cases hc : getCell row colDescription with
      | none => rfl
      | some c =>
          rw [hc] at hf2
          cases c with
          | none => dsimp only []; rw [← herr]
          | some v =>
              dsimp only [] at hf2 ⊢
              by_cases hne : x1.p.description ≠ v
              · rw [if_pos hne] at hf2 ⊢
                dsimp only [] at hf2
                rw [if_neg (by rw [hf2]; simp)]
                dsimp only []
                rw [← herr]
              · rw [if_neg hne] at hf2 ⊢
                rw [if_neg (by rw [hf2]; exact hne)]
                rw [← herr]

theorem eolUrlBlock_second (row : Row) (x1 x2 : FSt)
    (herr : x2.err = x1.err)
    (hf : x1.err = none → x2.p.eol_reference_url = (eolUrlBlock row x1).p.eol_reference_url) :
    eolUrlBlock row x2 = { x2 with err := (eolUrlBlock row x1).err } := by
  cases h1 : x1.err with
  | some e =>
      have hs1 : eolUrlBlock row x1 = x1 := eolUrlBlock_skip row x1 (by rw [h1]; rfl)
      have hs2 : eolUrlBlock row x2 = x2 := eolUrlBlock_skip row x2 (by rw [herr, h1]; rfl)
      rw [hs1, hs2, ← herr]
  | none =>
      have h2 : x2.err = none := by rw [herr, h1]
      have hf2 := hf h1
      have e1 : x1.err.isSome = false := by rw [h1]; rfl
      have e2 : x2.err.isSome = false := by rw [h2]; rfl
      unfold eolUrlBlock at hf2 ⊢
      simp only [e1, e2, Bool.false_eq_true, if_false] at hf2 ⊢
      cases hc : getCell row colEolUrl with
      | none => dsimp only []; rw [← herr]
      | some c =>
          rw [hc] at hf2
          cases c with
          | none => dsimp only []; rw [← herr]
          | some v =>
              dsimp only [] at hf2 ⊢
              by_cases hne : x1.p.eol_reference_url ≠ some v
              · rw [if_pos hne] at hf2 ⊢
                dsimp only [] at hf2
                rw [if_neg (by rw [hf2]; simp)]
                dsimp only []
                rw [← herr]
              · rw [if_neg hne] at hf2 ⊢
                rw [if_neg (by rw [hf2]; exact hne)]
                rw [← herr]

theorem internalIdBlock_second (row : Row) (x1 x2 : FSt)
    (herr : x2.err = x1.err)
    (hf : x1.err = none →
      x2.p.internal_product_id = (internalIdBlock row x1).p.internal_product_id) :
    internalIdBlock row x2 = { x2 with err := (internalIdBlock row x1).err } := by
  cases h1 : x1.err with
  | some e =>
      have hs1 : internalIdBlock row x1 = x1 := internalIdBlock_skip row x1 (by rw [h1]; rfl)
      have hs2 : internalIdBlock row x2 = x2 :=
        internalIdBlock_skip row x2 (by rw [herr, h1]; rfl)
      rw [hs1, hs2, ← herr]
  | none =>
      have h2 : x2.err = none := by rw [herr, h1]
      have hf2 := hf h1
      have e1 : x1.err.isSome = false := by rw [h1]; rfl
      have e2 : x2.err.isSome = false := by rw [h2]; rfl
      unfold internalIdBlock at hf2 ⊢
      simp only [e1, e2, Bool.false_eq_true, if_false] at hf2 ⊢
      cases hc : getCell row colInternalId with
      | none => dsimp only []; rw [← herr]
      | some c =>
          rw [hc] at hf2
          cases c with
          | none => dsimp only []; rw [← herr]
          | some v =>
              dsimp only [] at hf2 ⊢
              by_cases hne : x1.p.internal_product_id ≠ some v
              · rw [if_pos hne] at hf2 ⊢
                dsimp only [] at hf2
                rw [if_neg (by rw [hf2]; simp)]
                dsimp only []
                rw [← herr]
              · rw [if_neg hne] at hf2 ⊢
                rw [if_neg (by rw [hf2]; exact hne)]
                rw [← herr]

theorem productGroupBlock_second (row : Row) (x1 x2 : FSt)
    (herr : x2.err = x1.err)
    (hf : x1.err = none → x2.p.product_group = (productGroupBlock row x1).p.product_group) :
    productGroupBlock row x2 = { x2 with err := (productGroupBlock row x1).err } := by
  cases h1 : x1.err with
  | some e =>
      have hs1 : productGroupBlock row x1 = x1 := productGroupBlock_skip row x1 (by rw [h1]; rfl)
      have hs2 : productGroupBlock row x2 = x2 :=
        productGroupBlock_skip row x2 (by rw [herr, h1]; rfl)
      rw [hs1, hs2, ← herr]
  | none =>
      have h2 : x2.err = none := by rw [herr, h1]
      have hf2 := hf h1
      have e1 : x1.err.isSome = false := by rw [h1]; rfl
      have e2 : x2.err.isSome = false := by rw [h2]; rfl
      unfold productGroupBlock at hf2 ⊢
      simp only [e1, e2, Bool.false_eq_true, if_false] at hf2 ⊢
      cases hc : getCell row colProductGroup with
      | none => dsimp only []; rw [← herr]
      | some c =>
          rw [hc] at hf2
          cases c with
          | none => dsimp only []; rw [← herr]
          | some v =>
              dsimp only [] at hf2 ⊢
              cases hb : x1.p.product_group with
              | none =>
                  rw [hb] at hf2
                  dsimp only [] at hf2 ⊢
                  rw [if_pos rfl] at hf2
                  dsimp only [] at hf2
                  rw [hf2]
                  dsimp only []
                  rw [if_neg (by simp)]
                  rw [if_pos rfl]
                  dsimp only []
                  rw [← herr]
              | some pg =>
                  rw [hb] at hf2
                  dsimp only [] at hf2 ⊢
                  by_cases hne : pg.1 ≠ v
                  · rw [if_pos (by simpa using hne)] at hf2
                    dsimp only [] at hf2
                    rw [hf2]
                    dsimp only []
                    rw [if_neg (by simp)]
                    rw [if_pos (by simpa using hne)]
                    dsimp only []
                    rw [← herr]
                  · rw [if_neg (by simpa using hne)] at hf2
                    rw [hb] at hf2
                    rw [hf2]
                    dsimp only []
                    rw [if_neg (by simpa using hne)]
                    rw [if_neg (by simpa using hne)]
                    rw [← herr]

theorem priceCurrencyBlock_second (row : Row) (x1 x2 : FSt)
    (herr : x2.err = x1.err)
    (hf : x1.err = none → x2.p.list_price = (priceCurrencyBlock row x1).p.list_price ∧
      x2.p.currency = (priceCurrencyBlock row x1).p.currency) :
    priceCurrencyBlock row x2 = { x2 with err := (priceCurrencyBlock row x1).err } := by
  cases h1 : x1.err with
  | some e =>
      have hs1 : priceCurrencyBlock row x1 = x1 := priceCurrencyBlock_skip row x1 (by rw [h1]; rfl)
      have hs2 : priceCurrencyBlock row x2 = x2 :=
        priceCurrencyBlock_skip row x2 (by rw [herr, h1]; rfl)
      rw [hs1, hs2, ← herr]
  | none =>
      have h2 : x2.err = none := by rw [herr, h1]
      have hf2 := hf h1
      have e1 : x1.err.isSome = false := by rw [h1]; rfl
      have e2 : x2.err.isSome = false := by rw [h2]; rfl
      unfold priceCurrencyBlock at hf2 ⊢
      simp only [e1, e2, Bool.false_eq_true, if_false] at hf2 ⊢
      cases hc : getCell row colListPrice with
      | none => rfl
      | some cell =>
          rw [hc] at hf2
          dsimp only [] at hf2 ⊢
          cases hpr : parseListPrice cell with
          | error er => rfl
          | ok pr =>
              rw [hpr] at hf2
              dsimp only [] at hf2 ⊢
              cases hcr : resolveCurrencyColumn row pr.2 with
              | error er => rfl
              | ok nc2 =>
                  rw [hcr] at hf2
                  dsimp only [] at hf2 ⊢
                  cases hnp : pr.1 with
                  | none =>
                      rw [hnp] at hf2
                      dsimp only []
                      rw [← herr]
                  | some q =>
                      rw [hnp] at hf2
                      dsimp only [] at hf2 ⊢
                      by_cases ha : x1.p.list_price ≠ some q
                      · rw [if_pos ha] at hf2
                        dsimp only [] at hf2
                        by_cases hb : x1.p.currency ≠ nc2
                        · rw [if_pos hb] at hf2
                          dsimp only [] at hf2
                          have hin : ¬ (x2.p.list_price ≠ some q) := by rw [hf2.1]; simp
                          rw [if_neg hin]
                          have hout : ¬ (x2.p.currency ≠ nc2) := by rw [hf2.2]; simp
                          rw [if_neg hout]
                          rw [if_pos ha]
                          dsimp only []
                          rw [if_pos hb]
                          dsimp only []
                          rw [← herr]
                        · rw [if_neg hb] at hf2
                          dsimp only [] at hf2
                          have hin : ¬ (x2.p.list_price ≠ some q) := by rw [hf2.1]; simp
                          rw [if_neg hin]
                          have hout : ¬ (x2.p.currency ≠ nc2) := by rw [hf2.2]; exact hb
                          rw [if_neg hout]
                          rw [if_pos ha]
                          dsimp only []
                          rw [if_neg hb]
                          dsimp only []
                          rw [← herr]
                      · rw [if_neg ha] at hf2
                        by_cases hb : x1.p.currency ≠ nc2
                        · rw [if_pos hb] at hf2
                          dsimp only [] at hf2
                          have hin : ¬ (x2.p.list_price ≠ some q) := by rw [hf2.1]; exact ha
                          rw [if_neg hin]
                          have hout : ¬ (x2.p.currency ≠ nc2) := by rw [hf2.2]; simp
                          rw [if_neg hout]
                          rw [if_neg ha]
                          rw [if_pos hb]
                          dsimp only []
                          rw [← herr]
                        · rw [if_neg hb] at hf2
                          have hin : ¬ (x2.p.list_price ≠ some q) := by rw [hf2.1]; exact ha
                          rw [if_neg hin]
                          have hout : ¬ (x2.p.currency ≠ nc2) := by rw [hf2.2]; exact hb
                          rw [if_neg hout]
                          rw [if_neg ha]
                          rw [if_neg hb]
                          rw [← herr]

theorem vendorBlock_second (V : List (ℕ × String)) (row : Row) (created1 : Bool)
    (x1 x2 : FSt)
    (hnodup : (V.map Prod.fst).Nodup)
    (hsent : (vendorNameOf V 0).isSome = true)
    (herr : x2.err = x1.err)
    (hf : x1.err = none → x2.p.vendor = (vendorBlock V row created1 x1).p.vendor) :
    vendorBlock V row false x2 = { x2 with err := (vendorBlock V row created1 x1).err } := by
  cases h1 : x1.err with
  | some e =>
      have hs1 : vendorBlock V row created1 x1 = x1 :=
        vendorBlock_skip V row created1 x1 (by rw [h1]; rfl)
      have hs2 : vendorBlock V row false x2 = x2 :=
        vendorBlock_skip V row false x2 (by rw [herr, h1]; rfl)
      rw [hs1, hs2, ← herr]
  | none =>
      have h2 : x2.err = none := by rw [herr, h1]
      have hf2 := hf h1
      have e1 : x1.err.isSome = false := by rw [h1]; rfl
      have e2 : x2.err.isSome = false := by rw [h2]; rfl
      unfold vendorBlock at hf2 ⊢
      simp only [e1, e2, Bool.false_eq_true, if_false] at hf2 ⊢
      cases hc : getCell row colVendor with
      | none => rfl
      | some c =>
          rw [hc] at hf2
          cases c with
          | none =>
              cases created1 with
              | false =>
                  simp only [Bool.false_eq_true, if_false]
                  rw [← herr]
              | true =>
                  cases hv0 : vendorNameOf V 0 with
                  | none => rw [hv0] at hsent; simp at hsent
                  | some nm0 =>
                      rw [hv0] at hf2
                      rw [if_pos rfl] at hf2
                      dsimp only [] at hf2
                      simp only [Bool.false_eq_true, if_false]
                      simp only [eq_self_iff_true, if_true]
                      rw [← herr]
          | some v =>
              dsimp only [] at hf2 ⊢
              cases hv1 : vendorNameOf V x1.p.vendor with
              | none =>
                  rw [hv1] at hf2
                  dsimp only [] at hf2
                  rw [hf2, hv1]
              | some nm =>
                  rw [hv1] at hf2
                  dsimp only [] at hf2 ⊢
                  by_cases hne : CellValue.str nm ≠ v
                  · rw [if_pos hne] at hf2
                    cases hb : vendorByName V v with
                    | none =>
                        rw [hb] at hf2
                        dsimp only [] at hf2
                        rw [hf2, hv1]
                        dsimp only []
                        rw [if_pos hne]
                        rw [if_pos hne]
                    | some vid =>
                        rw [hb] at hf2
                        dsimp only [] at hf2
                        obtain ⟨nm2, hnm2, hstr⟩ := vendorByName_resolve v V vid hnodup hb
                        rw [hf2, hnm2]
                        dsimp only []
                        rw [if_neg (by rw [hstr]; simp)]
                        rw [if_pos hne]
                        dsimp only []
                        rw [← herr]
                  · rw [if_neg hne] at hf2
                    rw [hf2, hv1]
                    dsimp only []
                    rw [if_neg hne]
                    rw [if_neg hne]
                    rw [← herr]

theorem descriptionBlock_p_of_unchanged (row : Row) (st : FSt)
    (h : (descriptionBlock row st).changed = false) : (descriptionBlock row st).p = st.p := by
  unfold descriptionBlock at h ⊢
  by_cases he : st.err.isSome = true
  · rw [if_pos he]
  · rw [if_neg he] at h ⊢
    cases hc : getCell row colDescription with
    | none => rfl
    | some c =>
        rw [hc] at h
        cases c with
        | none => rfl
        | some v =>
            dsimp only [] at h ⊢
            by_cases hne : st.p.description ≠ v
            · rw [if_pos hne] at h
              simp at h
            · rw [if_neg hne]

theorem eolUrlBlock_p_of_unchanged (row : Row) (st : FSt)
    (h : (eolUrlBlock row st).changed = false) : (eolUrlBlock row st).p = st.p := by
  unfold eolUrlBlock at h ⊢
  by_cases he : st.err.isSome = true
  · rw [if_pos he]
  · rw [if_neg he] at h ⊢
    cases hc : getCell row colEolUrl with
    | none => rfl
    | some c =>
        rw [hc] at h
        cases c with
        | none => rfl
        | some v =>
            dsimp only [] at h ⊢
            by_cases hne : st.p.eol_reference_url ≠ some v
            · rw [if_pos hne] at h
              simp at h
            · rw [if_neg hne]

theorem internalIdBlock_p_of_unchanged (row : Row) (st : FSt)
    (h : (internalIdBlock row st).changed = false) : (internalIdBlock row st).p = st.p := by
  unfold internalIdBlock at h ⊢
  by_cases he : st.err.isSome = true
  · rw [if_pos he]
  · rw [if_neg he] at h ⊢
    cases hc : getCell row colInternalId with
    | none => rfl
    | some c =>
        rw [hc] at h
        cases c with
        | none => rfl
        | some v =>
            dsimp only [] at h ⊢
            by_cases hne : st.p.internal_product_id ≠ some v
            · rw [if_pos hne] at h
              simp at h
            · rw [if_neg hne]

theorem productGroupBlock_p_of_unchanged (row : Row) (st : FSt)
    (h : (productGroupBlock row st).changed = false) : (productGroupBlock row st).p = st.p := by
  unfold productGroupBlock at h ⊢
  by_cases he : st.err.isSome = true
  · rw [if_pos he]
  · rw [if_neg he] at h ⊢
    cases hc : getCell row colProductGroup with
    | none => rfl
    | some c =>
        rw [hc] at h
        cases c with
        | none => rfl
        | some v =>
            dsimp only [] at h ⊢
            cases hb : st.p.product_group with
            | none =>
                rw [hb] at h
                simp at h
            | some pg =>
                rw [hb] at h
                dsimp only [] at h ⊢
                by_cases hne : pg.1 ≠ v
                · rw [if_pos (by simpa using hne)] at h
                  simp at h
                · rw [if_neg (by simpa using hne)]

theorem vendorBlock_p_of_unchanged (V : List (ℕ × String)) (row : Row) (created : Bool)
    (st : FSt) (h : (vendorBlock V row created st).changed = false) :
    (vendorBlock V row created st).p = st.p := by
  unfold vendorBlock at h ⊢
  by_cases he : st.err.isSome = true
  · rw [if_pos he]
  · rw [if_neg he] at h ⊢
    cases hc : getCell row colVendor with
    | none => rfl
    | some c =>
        rw [hc] at h
        cases c with
        | none =>
            dsimp only [] at h ⊢
            cases created with
            | false => simp
            | true =>
                cases hv0 : vendorNameOf V 0 with
                | none => simp
                | some nm0 =>
                    rw [hv0] at h
                    simp at h
        | some v =>
            dsimp only [] at h ⊢
            cases hv1 : vendorNameOf V st.p.vendor with
            | none => simp
            | some nm =>
                rw [hv1] at h
                dsimp only [] at h ⊢
                by_cases hne : CellValue.str nm ≠ v
                · rw [if_pos hne] at h
                  cases hb : vendorByName V v with
                  | none =>
                      rw [if_pos hne]
                  | some vid =>
                      rw [hb] at h
                      simp at h
                · rw [if_neg hne]

theorem priceCurrencyBlock_p_of_unchanged (row : Row) (st : FSt)
    (h : (priceCurrencyBlock row st).changed = false) : (priceCurrencyBlock row st).p = st.p := by
  unfold priceCurrencyBlock at h ⊢
  by_cases he : st.err.isSome = true
  · rw [if_pos he]
  · rw [if_neg he] at h ⊢
    cases hc : getCell row colListPrice with
    | none => rfl
    | some cell =>
        rw [hc] at h
        dsimp only [] at h ⊢
        cases hp : parseListPrice cell with
        | error er => rfl
        | ok pr =>
            rw [hp] at h
            dsimp only [] at h ⊢
            cases hr : resolveCurrencyColumn row pr.2 with
            | error er => rfl
            | ok nc2 =>
                rw [hr] at h
                dsimp only [] at h ⊢
                cases hnp : pr.1 with
                | none => rfl
                | some q =>
                    rw [hnp] at h
                    dsimp only [] at h ⊢
                    by_cases ha : st.p.list_price ≠ some q
                    · rw [if_pos ha] at h
                      dsimp only [] at h
                      by_cases hb2 : st.p.currency ≠ nc2
                      · rw [if_pos hb2] at h
                        simp at h
                      · rw [if_neg hb2] at h
                        simp at h
                    · rw [if_neg ha] at h ⊢
                      by_cases hb2 : st.p.currency ≠ nc2
                      · rw [if_pos hb2] at h
                        simp at h
                      · rw [if_neg hb2]

theorem mainFieldBlocks_pid_dates (V : List (ℕ × String)) (row : Row) (created : Bool)
    (st : FSt) :
    (mainFieldBlocks V row created st).p.product_id = st.p.product_id ∧
    (mainFieldBlocks V row created st).p.dates = st.p.dates := by
  unfold mainFieldBlocks
  have hd := descriptionBlock_frame row st
  have hp := priceCurrencyBlock_frame row (descriptionBlock row st)
  have hv := vendorBlock_frame V row created (priceCurrencyBlock row (descriptionBlock row st))
  have hg := productGroupBlock_frame row
    (vendorBlock V row created (priceCurrencyBlock row (descriptionBlock row st)))
  have hu := eolUrlBlock_frame row (productGroupBlock row
    (vendorBlock V row created (priceCurrencyBlock row (descriptionBlock row st))))
  have hf := eolFriendlyBlock_frame row (eolUrlBlock row (productGroupBlock row
    (vendorBlock V row created (priceCurrencyBlock row (descriptionBlock row st)))))
  have hi := internalIdBlock_frame row (eolFriendlyBlock row (eolUrlBlock row (productGroupBlock
    row (vendorBlock V row created (priceCurrencyBlock row (descriptionBlock row st))))))
  constructor
  · rw [hi.1, hf.1, hu.1, hg.1, hv.1, hp.1, hd.1]
  · rw [hi.2.2.2.2.2.2.2.2.1, hf.2.2.2.2.2.2.2.2.1, hu.2.2.2.2.2.2.2.2.1,
      hg.2.2.2.2.2.2.2.2.1, hv.2.2.2.2.2.2.2.2.1, hp.2.2.2.2.2.2.2.1, hd.2.2.2.2.2.2.2.2.1]

theorem mainFieldBlocks_p_of_unchanged (V : List (ℕ × String)) (row : Row) (created : Bool)
    (st : FSt) (h : (mainFieldBlocks V row created st).changed = false) :
    (mainFieldBlocks V row created st).p.description = st.p.description ∧
    (mainFieldBlocks V row created st).p.list_price = st.p.list_price ∧
    (mainFieldBlocks V row created st).p.currency = st.p.currency ∧
    (mainFieldBlocks V row created st).p.vendor = st.p.vendor ∧
    (mainFieldBlocks V row created st).p.product_group = st.p.product_group ∧
    (mainFieldBlocks V row created st).p.eol_reference_url = st.p.eol_reference_url ∧
    (mainFieldBlocks V row created st).p.internal_product_id = st.p.internal_product_id := by
  unfold mainFieldBlocks at h ⊢
  set A := descriptionBlock row st with hA
  set B := priceCurrencyBlock row A with hB
  set C := vendorBlock V row created B with hC
  set D := productGroupBlock row C with hD
  set E := eolUrlBlock row D with hE
  set F := eolFriendlyBlock row E with hF
  have c6 : F.changed = false := (internalIdBlock_frame row F).2.2.2.2.2.2.2.2.2.2.2 h
  have c5 : E.changed = false := by
    have hfr := (eolFriendlyBlock_frame row E).2.2.2.2.2.2.2.2.2.2.2
    rw [hfr] at c6
    exact c6
  have c4 : D.changed = false := (eolUrlBlock_frame row D).2.2.2.2.2.2.2.2.2.2.2 c5
  have c3 : C.changed = false := (productGroupBlock_frame row C).2.2.2.2.2.2.2.2.2.2.1 c4
  have c2 : B.changed = false := (vendorBlock_frame V row created B).2.2.2.2.2.2.2.2.2.2 c3
  have c1 : A.changed = false := (priceCurrencyBlock_frame row A).2.2.2.2.2.2.2.2.2 c2
  have pd : A.p = st.p := descriptionBlock_p_of_unchanged row st c1
  have pp : B.p = A.p := priceCurrencyBlock_p_of_unchanged row A c2
  have pv : C.p = B.p := vendorBlock_p_of_unchanged V row created B c3
  have pg : D.p = C.p := productGroupBlock_p_of_unchanged row C c4
  have pu : E.p = D.p := eolUrlBlock_p_of_unchanged row D c5
  have pi : (internalIdBlock row F).p = F.p := internalIdBlock_p_of_unchanged row F h
  have hfr := eolFriendlyBlock_frame row E
  refine ⟨?_, ?_, ?_, ?_, ?_, ?_, ?_⟩
  · rw [pi, hfr.2.1, pu, pg, pv, pp, pd]
  · rw [pi, hfr.2.2.1, pu, pg, pv, pp, pd]
  · rw [pi, hfr.2.2.2.1, pu, pg, pv, pp, pd]
  · rw [pi, hfr.2.2.2.2.1, pu, pg, pv, pp, pd]
  · rw [pi, hfr.2.2.2.2.2.1, pu, pg, pv, pp, pd]
  · rw [pi, hfr.2.2.2.2.2.2.1, pu, pg, pv, pp, pd]
  · rw [pi, hfr.2.2.2.2.2.2.2.1, pu, pg, pv, pp, pd]

theorem mainFieldBlocks_second (V : List (ℕ × String)) (row : Row) (created1 : Bool)
    (x1 x2 : FSt)
    (hnodup : (V.map Prod.fst).Nodup)
    (hsent : (vendorNameOf V 0).isSome = true)
    (herr : x2.err = x1.err)
    (hch : x2.changed = false)
    (hdesc : x1.err = none →
      x2.p.description = (mainFieldBlocks V row created1 x1).p.description)
    (hlp : x1.err = none →
      x2.p.list_price = (mainFieldBlocks V row created1 x1).p.list_price)
    (hcur : x1.err = none →
      x2.p.currency = (mainFieldBlocks V row created1 x1).p.currency)
    (hvd : x1.err = none →
      x2.p.vendor = (mainFieldBlocks V row created1 x1).p.vendor)
    (hpg : x1.err = none →
      x2.p.product_group = (mainFieldBlocks V row created1 x1).p.product_group)
    (hurl : x1.err = none →
      x2.p.eol_reference_url = (mainFieldBlocks V row created1 x1).p.eol_reference_url)
    (hint : x1.err = none →
      x2.p.internal_product_id = (mainFieldBlocks V row created1 x1).p.internal_product_id) :
    (mainFieldBlocks V row false x2).err = (mainFieldBlocks V row created1 x1).err ∧
    (mainFieldBlocks V row false x2).changed = false ∧
    (mainFieldBlocks V row false x2).groups = x2.groups ∧
    (mainFieldBlocks V row false x2).p.dates = x2.p.dates ∧
    (mainFieldBlocks V row false x2).p.product_id = x2.p.product_id := by
  unfold mainFieldBlocks at hdesc hlp hcur hvd hpg hurl hint ⊢
  set a1 := descriptionBlock row x1 with ha1
  set b1 := priceCurrencyBlock row a1 with hb1
  set c1 := vendorBlock V row created1 b1 with hc1
  set d1 := productGroupBlock row c1 with hd1
  set e1 := eolUrlBlock row d1 with he1
  set f1 := eolFriendlyBlock row e1 with hf1
  set g1 := internalIdBlock row f1 with hg1
  have i1 : a1.err = none → x1.err = none := by
    intro hn
    cases hx : x1.err with
    | none => rfl
    | some u =>
        rw [ha1, descriptionBlock_skip row x1 (by rw [hx]; rfl), hx] at hn
        cases hn
  have i2 : b1.err = none → a1.err = none := by
    intro hn
    cases hx : a1.err with
    | none => rfl
    | some u =>
        rw [hb1, priceCurrencyBlock_skip row a1 (by rw [hx]; rfl), hx] at hn
        cases hn
  have i3 : c1.err = none → b1.err = none := by
    intro hn
    cases hx : b1.err with
    | none => rfl
    | some u =>
        rw [hc1, vendorBlock_skip V row created1 b1 (by rw [hx]; rfl), hx] at hn
        cases hn
  have e4 : d1.err = c1.err := (productGroupBlock_frame row c1).2.2.2.2.2.2.2.2.2.1
  have e5 : e1.err = d1.err := (eolUrlBlock_frame row d1).2.2.2.2.2.2.2.2.2.2.1
  have e6 : f1.err = e1.err := (eolFriendlyBlock_frame row e1).2.2.2.2.2.2.2.2.2.2.1
  have e7 : g1.err = f1.err := (internalIdBlock_frame row f1).2.2.2.2.2.2.2.2.2.2.1
  have hfrI := internalIdBlock_frame row f1
  have hfrF := eolFriendlyBlock_frame row e1
  have hfrU := eolUrlBlock_frame row d1
  have hfrG := productGroupBlock_frame row c1
  have hfrV := vendorBlock_frame V row created1 b1
  have hfrP := priceCurrencyBlock_frame row a1
  have hdescA : x1.err = none → x2.p.description = a1.p.description := by
    intro hx
    rw [hdesc hx, hfrI.2.1, hfrF.2.1, hfrU.2.1, hfrG.2.1, hfrV.2.1, hfrP.2.1]
  have hlpA : x1.err = none → x2.p.list_price = b1.p.list_price := by
    intro hx
    rw [hlp hx, hfrI.2.2.1, hfrF.2.2.1, hfrU.2.2.1, hfrG.2.2.1, hfrV.2.2.1]
  have hcurA : x1.err = none → x2.p.currency = b1.p.currency := by
    intro hx
    rw [hcur hx, hfrI.2.2.2.1, hfrF.2.2.2.1, hfrU.2.2.2.1, hfrG.2.2.2.1, hfrV.2.2.2.1]
  have hvdA : x1.err = none → x2.p.vendor = c1.p.vendor := by
    intro hx
    rw [hvd hx, hfrI.2.2.2.2.1, hfrF.2.2.2.2.1, hfrU.2.2.2.2.1, hfrG.2.2.2.2.1]
  have hpgA : x1.err = none → x2.p.product_group = d1.p.product_group := by
    intro hx
    rw [hpg hx, hfrI.2.2.2.2.2.1, hfrF.2.2.2.2.2.1, hfrU.2.2.2.2.2.1]
  have hurlA : x1.err = none → x2.p.eol_reference_url = e1.p.eol_reference_url := by
    intro hx
    rw [hurl hx, hfrI.2.2.2.2.2.2.1, hfrF.2.2.2.2.2.2.1]
  set a2 := descriptionBlock row x2 with ha2
  set b2 := priceCurrencyBlock row a2 with hb2
  set c2 := vendorBlock V row false b2 with hc2
  set d2 := productGroupBlock row c2 with hd2
  set e2 := eolUrlBlock row d2 with he2
  set f2 := eolFriendlyBlock row e2 with hf2
  have t1 : a2 = { x2 with err := a1.err } := by
    rw [ha2]
    exact descriptionBlock_second row x1 x2 herr hdescA
  have t2 : b2 = { x2 with err := b1.err } := by
    rw [hb2]
    refine (priceCurrencyBlock_second row a1 a2 (by rw [t1]) ?_).trans (by rw [t1])
    intro hae
    constructor
    · show a2.p.list_price = b1.p.list_price
      rw [t1]
      exact hlpA (i1 hae)
    · show a2.p.currency = b1.p.currency
      rw [t1]
      exact hcurA (i1 hae)
  have t3 : c2 = { x2 with err := c1.err } := by
    rw [hc2]
    refine (vendorBlock_second V row created1 b1 b2 hnodup hsent (by rw [t2]) ?_).trans
      (by rw [t2])
    intro hbe
    show b2.p.vendor = c1.p.vendor
    rw [t2]
    exact hvdA (i1 (i2 hbe))
  have t4 : d2 = { x2 with err := d1.err } := by
    rw [hd2]
    refine (productGroupBlock_second row c1 c2 (by rw [t3]) ?_).trans (by rw [t3, ← e4])
    intro hce
    show c2.p.product_group = d1.p.product_group
    rw [t3]
    exact hpgA (i1 (i2 (i3 hce)))
  have t5 : e2 = { x2 with err := e1.err } := by
    rw [he2]
    refine (eolUrlBlock_second row d1 d2 (by rw [t4]) ?_).trans (by rw [t4, ← e5])
    intro hde
    have hce : c1.err = none := by rw [← e4]; exact hde
    show d2.p.eol_reference_url = e1.p.eol_reference_url
    rw [t4]
    exact hurlA (i1 (i2 (i3 hce)))
  have hfr2 := eolFriendlyBlock_frame row e2
  have t6err : f2.err = f1.err := by
    rw [hf2, hfr2.2.2.2.2.2.2.2.2.2.2.1, t5, ← e6]
  have t6ch : f2.changed = false := by
    rw [hf2, hfr2.2.2.2.2.2.2.2.2.2.2.2, t5]
    exact hch
  have t6gr : f2.groups = x2.groups := by
    rw [hf2, hfr2.2.2.2.2.2.2.2.2.2.1, t5]
  have t6da : f2.p.dates = x2.p.dates := by
    rw [hf2, hfr2.2.2.2.2.2.2.2.2.1, t5]
  have t6pid : f2.p.product_id = x2.p.product_id := by
    rw [hf2, hfr2.1, t5]
  have t6int : f2.p.internal_product_id = x2.p.internal_product_id := by
    rw [hf2, hfr2.2.2.2.2.2.2.2.1, t5]
  have t7 : internalIdBlock row f2 = { f2 with err := g1.err } := by
    refine internalIdBlock_second row f1 f2 t6err ?_
    intro hfe
    have hee : e1.err = none := by rw [← e6]; exact hfe
    have hde : d1.err = none := by rw [← e5]; exact hee
    have hce : c1.err = none := by rw [← e4]; exact hde
    rw [t6int]
    exact hint (i1 (i2 (i3 hce)))
  refine ⟨?_, ?_, ?_, ?_, ?_⟩
  · rw [t7]
  · rw [t7]
    show f2.changed = false
    exact t6ch
  · rw [t7]
    show f2.groups = x2.groups
    exact t6gr
  · rw [t7]
    show f2.p.dates = x2.p.dates
    exact t6da
  · rw [t7]
    show f2.p.product_id = x2.p.product_id
    exact t6pid

theorem importDatetime_unassigned (col : String) (row : Row) (idx : ℕ) (p : Product)
    (pid : CellValue) (h : (importDatetimeColumnFromFile col row idx p pid).1 = false) :
    (importDatetimeColumnFromFile col row idx p pid).2.2.2 = p := by
  unfold importDatetimeColumnFromFile at h ⊢
  cases hc : getCell row col with
  | none => rfl
  | some c =>
      rw [hc] at h
      cases c with
      | none => rfl
      | some v =>
          cases v with
          | date d =>
              dsimp only [] at h ⊢
              by_cases hcv : p.dates.getD idx none ≠ some d
              · rw [if_pos hcv] at h
                simp at h
              · rw [if_neg hcv]
          | str s =>
              dsimp only [] at h ⊢
              by_cases hcv : p.dates.getD idx none ≠ none
              · rw [if_pos hcv]
              · rw [if_neg hcv]
          | float q =>
              dsimp only [] at h ⊢
              by_cases hcv : p.dates.getD idx none ≠ none
              · rw [if_pos hcv]
              · rw [if_neg hcv]
          | int n =>
              dsimp only [] at h ⊢
              by_cases hcv : p.dates.getD idx none ≠ none
              · rw [if_pos hcv]
              · rw [if_neg hcv]
          | other =>
              dsimp only [] at h ⊢
              by_cases hcv : p.dates.getD idx none ≠ none
              · rw [if_pos hcv]
              · rw [if_neg hcv]

theorem importDatetime_dates_len (col : String) (row : Row) (idx : ℕ) (p : Product)
    (pid : CellValue) :
    (importDatetimeColumnFromFile col row idx p pid).2.2.2.dates.length = p.dates.length := by
  unfold importDatetimeColumnFromFile
  cases hc : getCell row col with
  | none => rfl
  | some c =>
      cases c with
      | none => rfl
      | some v =>
          cases v with
          | date d =>
              dsimp only []
              by_cases hcv : p.dates.getD idx none ≠ some d
              · rw [if_pos hcv]
                simp [List.length_set]
              · rw [if_neg hcv]
          | str s =>
              dsimp only []
              by_cases hcv : p.dates.getD idx none ≠ none
              · rw [if_pos hcv]
              · rw [if_neg hcv]
          | float q =>
              dsimp only []
              by_cases hcv : p.dates.getD idx none ≠ none
              · rw [if_pos hcv]
              · rw [if_neg hcv]
          | int n =>
              dsimp only []
              by_cases hcv : p.dates.getD idx none ≠ none
              · rw [if_pos hcv]
              · rw [if_neg hcv]
          | other =>
              dsimp only []
              by_cases hcv : p.dates.getD idx none ≠ none
              · rw [if_pos hcv]
              · rw [if_neg hcv]

theorem importDatetime_dates_frame (col : String) (row : Row) (idx : ℕ) (p : Product)
    (pid : CellValue) (i : ℕ) (hne : i ≠ idx) :
    (importDatetimeColumnFromFile col row idx p pid).2.2.2.dates.getD i none =
      p.dates.getD i none := by
  unfold importDatetimeColumnFromFile
  cases hc : getCell row col with
  | none => rfl
  | some c =>
      cases c with
      | none => rfl
      | some v =>
          cases v with
          | date d =>
              dsimp only []
              by_cases hcv : p.dates.getD idx none ≠ some d
              · rw [if_pos hcv]
                dsimp only []
                rw [List.getD_eq_getElem?_getD, List.getD_eq_getElem?_getD,
                  List.getElem?_set_ne (Ne.symm hne)]
              · rw [if_neg hcv]
          | str s =>
              dsimp only []
              by_cases hcv : p.dates.getD idx none ≠ none
              · rw [if_pos hcv]
              · rw [if_neg hcv]
          | float q =>
              dsimp only []
              by_cases hcv : p.dates.getD idx none ≠ none
              · rw [if_pos hcv]
              · rw [if_neg hcv]
          | int n =>
              dsimp only []
              by_cases hcv : p.dates.getD idx none ≠ none
              · rw [if_pos hcv]
              · rw [if_neg hcv]
          | other =>
              dsimp only []
              by_cases hcv : p.dates.getD idx none ≠ none
              · rw [if_pos hcv]
              · rw [if_neg hcv]

theorem dateColumnsLoop_unchanged (row : Row) (pid : CellValue) :
    ∀ (maps : List (ℕ × String)) (p : Product) (ch : Bool),
      (dateColumnsLoop row pid maps p ch).2.1 = false →
      (dateColumnsLoop row pid maps p ch).1 = p := by
  intro maps
  induction maps with
  | nil => intro p ch _; rfl
  | cons m rest ih =>
      intro p ch h
      rcases m with ⟨idx, col⟩
      unfold dateColumnsLoop at h ⊢
      dsimp only [] at h ⊢
      by_cases hf : (importDatetimeColumnFromFile col row idx p pid).2.1 = true
      · rw [if_pos hf] at h ⊢
        dsimp only [] at h
        have h2 : ch = false ∧ (importDatetimeColumnFromFile col row idx p pid).1 = false := by
          simpa using h
        exact importDatetime_unassigned col row idx p pid h2.2
      · have hf2 : (importDatetimeColumnFromFile col row idx p pid).2.1 = false := by
          simpa using hf
        rw [hf2] at h ⊢
        simp only [Bool.false_eq_true, if_false] at h ⊢
        have hch1 : (ch || (importDatetimeColumnFromFile col row idx p pid).1) = false :=
          dateColumnsLoop_changed_mono row pid rest _ _ h
        have hr1 : (importDatetimeColumnFromFile col row idx p pid).1 = false := by
          rcases Bool.or_eq_false_iff.1 hch1 with ⟨_, h2⟩
          exact h2
        rw [ih _ _ h, importDatetime_unassigned col row idx p pid hr1]

theorem dateColumnsLoop_dates_len (row : Row) (pid : CellValue) :
    ∀ (maps : List (ℕ × String)) (p : Product) (ch : Bool),
      (dateColumnsLoop row pid maps p ch).1.dates.length = p.dates.length := by
  intro maps
  induction maps with
  | nil => intro p ch; rfl
  | cons m rest ih =>
      intro p ch
      rcases m with ⟨idx, col⟩
      unfold dateColumnsLoop
      dsimp only []
      by_cases hf : (importDatetimeColumnFromFile col row idx p pid).2.1 = true
      · rw [if_pos hf]
        exact importDatetime_dates_len col row idx p pid
      · have hf2 : (importDatetimeColumnFromFile col row idx p pid).2.1 = false := by
          simpa using hf
        rw [hf2]
        simp only [Bool.false_eq_true, if_false]
        rw [ih _ _, importDatetime_dates_len col row idx p pid]

theorem dateColumnsLoop_dates_frame (row : Row) (pid : CellValue) :
    ∀ (maps : List (ℕ × String)) (p : Product) (ch : Bool) (i : ℕ),
      i ∉ maps.map Prod.fst →
      (dateColumnsLoop row pid maps p ch).1.dates.getD i none = p.dates.getD i none := by
  intro maps
  induction maps with
  | nil => intro p ch i _; rfl
  | cons m rest ih =>
      intro p ch i hi
      rcases m with ⟨idx, col⟩
      rw [List.map_cons, List.mem_cons] at hi
      push_neg at hi
      unfold dateColumnsLoop
      dsimp only []
      by_cases hf : (importDatetimeColumnFromFile col row idx p pid).2.1 = true
      · rw [if_pos hf]
        exact importDatetime_dates_frame col row idx p pid i hi.1
      · have hf2 : (importDatetimeColumnFromFile col row idx p pid).2.1 = false := by
          simpa using hf
        rw [hf2]
        simp only [Bool.false_eq_true, if_false]
        rw [ih _ _ i hi.2, importDatetime_dates_frame col row idx p pid i hi.1]

theorem dateColumnsLoop_second (row : Row) (pid : CellValue) :
    ∀ (maps : List (ℕ × String)) (p1 p2 : Product) (ch1 ch2 : Bool),
      (maps.map Prod.fst).Nodup →
      (∀ i ∈ maps.map Prod.fst, i < p1.dates.length) →
      p2.dates = (dateColumnsLoop row pid maps p1 ch1).1.dates →
      (dateColumnsLoop row pid maps p2 ch2).1 = p2 ∧
      (dateColumnsLoop row pid maps p2 ch2).2.1 = ch2 ∧
      (dateColumnsLoop row pid maps p2 ch2).2.2.1 =
        (dateColumnsLoop row pid maps p1 ch1).2.2.1 ∧
      (dateColumnsLoop row pid maps p2 ch2).2.2.2 =
        (dateColumnsLoop row pid maps p1 ch1).2.2.2 := by
  intro maps
  induction maps with
  | nil => intro p1 p2 ch1 ch2 _ _ _; exact ⟨rfl, rfl, rfl, rfl⟩
  | cons m rest ih =>
      intro p1 p2 ch1 ch2 hnd hlen hdates
      rcases m with ⟨idx, col⟩
      rw [List.map_cons, List.nodup_cons] at hnd
      cases hc : getCell row col with
      | none =>
          have e1 : importDatetimeColumnFromFile col row idx p1 pid = (false, false, "", p1) := by
            unfold importDatetimeColumnFromFile; rw [hc]
          have e2 : importDatetimeColumnFromFile col row idx p2 pid = (false, false, "", p2) := by
            unfold importDatetimeColumnFromFile; rw [hc]
          have hstep1 : dateColumnsLoop row pid ((idx, col) :: rest) p1 ch1 =
              dateColumnsLoop row pid rest p1 ch1 := by
            simp only [dateColumnsLoop]; rw [e1]; simp
          have hstep2 : dateColumnsLoop row pid ((idx, col) :: rest) p2 ch2 =
              dateColumnsLoop row pid rest p2 ch2 := by
            simp only [dateColumnsLoop]; rw [e2]; simp
          rw [hstep1] at hdates
          rw [hstep1, hstep2]
          exact ih p1 p2 ch1 ch2 hnd.2 (fun i hi => hlen i (List.mem_cons_of_mem _ hi)) hdates
      | some c =>
          cases c with
          | none =>
              have e1 : importDatetimeColumnFromFile col row idx p1 pid =
                  (false, false, "", p1) := by
                unfold importDatetimeColumnFromFile; rw [hc]
              have e2 : importDatetimeColumnFromFile col row idx p2 pid =
                  (false, false, "", p2) := by
                unfold importDatetimeColumnFromFile; rw [hc]
              have hstep1 : dateColumnsLoop row pid ((idx, col) :: rest) p1 ch1 =
                  dateColumnsLoop row pid rest p1 ch1 := by
                simp only [dateColumnsLoop]; rw [e1]; simp
              have hstep2 : dateColumnsLoop row pid ((idx, col) :: rest) p2 ch2 =
                  dateColumnsLoop row pid rest p2 ch2 := by
                simp only [dateColumnsLoop]; rw [e2]; simp
              rw [hstep1] at hdates
              rw [hstep1, hstep2]
              exact ih p1 p2 ch1 ch2 hnd.2 (fun i hi => hlen i (List.mem_cons_of_mem _ hi))
                hdates
          | some v =>
              cases v with
              | date d =>
                  by_cases hcv : p1.dates.getD idx none = some d
                  · have e1 : importDatetimeColumnFromFile col row idx p1 pid =
                        (false, false, "", p1) := by
                      unfold importDatetimeColumnFromFile
                      rw [hc]
                      dsimp only []
                      rw [if_neg (by rw [hcv]; simp)]
                    have hstep1 : dateColumnsLoop row pid ((idx, col) :: rest) p1 ch1 =
                        dateColumnsLoop row pid rest p1 ch1 := by
                      simp only [dateColumnsLoop]; rw [e1]; simp
                    rw [hstep1] at hdates
                    have hc2 : p2.dates.getD idx none = some d := by
                      rw [hdates, dateColumnsLoop_dates_frame row pid rest p1 ch1 idx hnd.1,
                        hcv]
                    have e2 : importDatetimeColumnFromFile col row idx p2 pid =
                        (false, false, "", p2) := by
                      unfold importDatetimeColumnFromFile
                      rw [hc]
                      dsimp only []
                      rw [if_neg (by rw [hc2]; simp)]
                    have hstep2 : dateColumnsLoop row pid ((idx, col) :: rest) p2 ch2 =
                        dateColumnsLoop row pid rest p2 ch2 := by
                      simp only [dateColumnsLoop]; rw [e2]; simp
                    rw [hstep1, hstep2]
                    exact ih p1 p2 ch1 ch2 hnd.2 (fun i hi => hlen i (List.mem_cons_of_mem _ hi))
                      hdates
                  · have hidx : idx < p1.dates.length :=
                      hlen idx (List.mem_cons_self _ _)
                    have e1 : importDatetimeColumnFromFile col row idx p1 pid =
                        (true, false, "", { p1 with dates := p1.dates.set idx (some d) }) := by
                      unfold importDatetimeColumnFromFile
                      rw [hc]
                      dsimp only []
                      rw [if_pos hcv]
                    have hstep1 : dateColumnsLoop row pid ((idx, col) :: rest) p1 ch1 =
                        dateColumnsLoop row pid rest
                          { p1 with dates := p1.dates.set idx (some d) } (ch1 || true) := by
                      simp only [dateColumnsLoop]; rw [e1]; simp
                    rw [hstep1] at hdates
                    have hc2 : p2.dates.getD idx none = some d := by
                      rw [hdates, dateColumnsLoop_dates_frame row pid rest _ _ idx hnd.1]
                      show (p1.dates.set idx (some d)).getD idx none = some d
                      rw [List.getD_eq_getElem?_getD, List.getElem?_set_self]
                      · rfl
                      · exact hidx
                    have e2 : importDatetimeColumnFromFile col row idx p2 pid =
                        (false, false, "", p2) := by
                      unfold importDatetimeColumnFromFile
                      rw [hc]
                      dsimp only []
                      rw [if_neg (by rw [hc2]; simp)]
                    have hstep2 : dateColumnsLoop row pid ((idx, col) :: rest) p2 ch2 =
                        dateColumnsLoop row pid rest p2 ch2 := by
                      simp only [dateColumnsLoop]; rw [e2]; simp
                    rw [hstep1, hstep2]
                    refine ih _ p2 (ch1 || true) ch2 hnd.2 ?_ hdates
                    intro i hi
                    show i < (p1.dates.set idx (some d)).length
                    rw [List.length_set]
                    exact hlen i (List.mem_cons_of_mem _ hi)
              | str sv =>
                  by_cases hcv : p1.dates.getD idx none = none
                  · have e1 : importDatetimeColumnFromFile col row idx p1 pid =
                        (false, false, "", p1) := by
                      unfold importDatetimeColumnFromFile
                      rw [hc]
                      dsimp only []
                      rw [if_neg (by rw [hcv]; simp)]
                    have hstep1 : dateColumnsLoop row pid ((idx, col) :: rest) p1 ch1 =
                        dateColumnsLoop row pid rest p1 ch1 := by
                      simp only [dateColumnsLoop]; rw [e1]; simp
                    rw [hstep1] at hdates
                    have hc2 : p2.dates.getD idx none = none := by
                      rw [hdates, dateColumnsLoop_dates_frame row pid rest p1 ch1 idx hnd.1,
                        hcv]
                    have e2 : importDatetimeColumnFromFile col row idx p2 pid =
                        (false, false, "", p2) := by
                      unfold importDatetimeColumnFromFile
                      rw [hc]
                      dsimp only []
                      rw [if_neg (by rw [hc2]; simp)]
                    have hstep2 : dateColumnsLoop row pid ((idx, col) :: rest) p2 ch2 =
                        dateColumnsLoop row pid rest p2 ch2 := by
                      simp only [dateColumnsLoop]; rw [e2]; simp
                    rw [hstep1, hstep2]
                    exact ih p1 p2 ch1 ch2 hnd.2 (fun i hi => hlen i (List.mem_cons_of_mem _ hi))
                      hdates
                  · have e1 : importDatetimeColumnFromFile col row idx p1 pid =
                        (false, true,
                          "cannot set " ++ col ++ " for <code>" ++ cellRepr pid ++
                            "</code> (value has no date attribute)", p1) := by
                      unfold importDatetimeColumnFromFile
                      rw [hc]
                      dsimp only []
                      rw [if_pos hcv]
                    have hstep1 : dateColumnsLoop row pid ((idx, col) :: rest) p1 ch1 =
                        (p1, ch1,  true,
                          "cannot set " ++ col ++ " for <code>" ++ cellRepr pid ++
                            "</code> (value has no date attribute)") := by
                      simp only [dateColumnsLoop]; rw [e1]; simp
                    rw [hstep1] at hdates
                    have hc2 : p2.dates.getD idx none = p1.dates.getD idx none := by
                      rw [hdates]
                    have e2 : importDatetimeColumnFromFile col row idx p2 pid =
                        (false, true,
                          "cannot set " ++ col ++ " for <code>" ++ cellRepr pid ++
                            "</code> (value has no date attribute)", p2) := by
                      unfold importDatetimeColumnFromFile
                      rw [hc]
                      dsimp only []
                      rw [if_pos (by rw [hc2]; exact hcv)]
                    have hstep2 : dateColumnsLoop row pid ((idx, col) :: rest) p2 ch2 =
                        (p2, ch2, true,
                          "cannot set " ++ col ++ " for <code>" ++ cellRepr pid ++
                            "</code> (value has no date attribute)") := by
                      simp only [dateColumnsLoop]; rw [e2]; simp
                    rw [hstep1, hstep2]
                    exact ⟨rfl, rfl, rfl, rfl⟩
              | float q =>
                  by_cases hcv : p1.dates.getD idx none = none
                  · have e1 : importDatetimeColumnFromFile col row idx p1 pid =
                        (false, false, "", p1) := by
                      unfold importDatetimeColumnFromFile
                      rw [hc]
                      dsimp only []
                      rw [if_neg (by rw [hcv]; simp)]
                    have hstep1 : dateColumnsLoop row pid ((idx, col) :: rest) p1 ch1 =
                        dateColumnsLoop row pid rest p1 ch1 := by
                      simp only [dateColumnsLoop]; rw [e1]; simp
                    rw [hstep1] at hdates
                    have hc2 : p2.dates.getD idx none = none := by
                      rw [hdates, dateColumnsLoop_dates_frame row pid rest p1 ch1 idx hnd.1,
                        hcv]
                    have e2 : importDatetimeColumnFromFile col row idx p2 pid =
                        (false, false, "", p2) := by
                      unfold importDatetimeColumnFromFile
                      rw [hc]
                      dsimp only []
                      rw [if_neg (by rw [hc2]; simp)]
                    have hstep2 : dateColumnsLoop row pid ((idx, col) :: rest) p2 ch2 =
                        dateColumnsLoop row pid rest p2 ch2 := by
                      simp only [dateColumnsLoop]; rw [e2]; simp
                    rw [hstep1, hstep2]
                    exact ih p1 p2 ch1 ch2 hnd.2 (fun i hi => hlen i (List.mem_cons_of_mem _ hi))
                      hdates
                  · have e1 : importDatetimeColumnFromFile col row idx p1 pid =
                        (false, true,
                          "cannot set " ++ col ++ " for <code>" ++ cellRepr pid ++
                            "</code> (value has no date attribute)", p1) := by
                      unfold importDatetimeColumnFromFile
                      rw [hc]
                      dsimp only []
                      rw [if_pos hcv]
                    have hstep1 : dateColumnsLoop row pid ((idx, col) :: rest) p1 ch1 =
                        (p1, ch1,  true,
                          "cannot set " ++ col ++ " for <code>" ++ cellRepr pid ++
                            "</code> (value has no date attribute)") := by
                      simp only [dateColumnsLoop]; rw [e1]; simp
                    rw [hstep1] at hdates
                    have hc2 : p2.dates.getD idx none = p1.dates.getD idx none := by
                      rw [hdates]
                    have e2 : importDatetimeColumnFromFile col row idx p2 pid =
                        (false, true,
                          "cannot set " ++ col ++ " for <code>" ++ cellRepr pid ++
                            "</code> (value has no date attribute)", p2) := by
                      unfold importDatetimeColumnFromFile
                      rw [hc]
                      dsimp only []
                      rw [if_pos (by rw [hc2]; exact hcv)]
                    have hstep2 : dateColumnsLoop row pid ((idx, col) :: rest) p2 ch2 =
                        (p2, ch2, true,
                          "cannot set " ++ col ++ " for <code>" ++ cellRepr pid ++
                            "</code> (value has no date attribute)") := by
                      simp only [dateColumnsLoop]; rw [e2]; simp
                    rw [hstep1, hstep2]
                    exact ⟨rfl, rfl, rfl, rfl⟩
              | int n =>
                  by_cases hcv : p1.dates.getD idx none = none
                  · have e1 : importDatetimeColumnFromFile col row idx p1 pid =
                        (false, false, "", p1) := by
                      unfold importDatetimeColumnFromFile
                      rw [hc]
                      dsimp only []
                      rw [if_neg (by rw [hcv]; simp)]
                    have hstep1 : dateColumnsLoop row pid ((idx, col) :: rest) p1 ch1 =
                        dateColumnsLoop row pid rest p1 ch1 := by
                      simp only [dateColumnsLoop]; rw [e1]; simp
                    rw [hstep1] at hdates
                    have hc2 : p2.dates.getD idx none = none := by
                      rw [hdates, dateColumnsLoop_dates_frame row pid rest p1 ch1 idx hnd.1,
                        hcv]
                    have e2 : importDatetimeColumnFromFile col row idx p2 pid =
                        (false, false, "", p2) := by
                      unfold importDatetimeColumnFromFile
                      rw [hc]
                      dsimp only []
                      rw [if_neg (by rw [hc2]; simp)]
                    have hstep2 : dateColumnsLoop row pid ((idx, col) :: rest) p2 ch2 =
                        dateColumnsLoop row pid rest p2 ch2 := by
                      simp only [dateColumnsLoop]; rw [e2]; simp
                    rw [hstep1, hstep2]
                    exact ih p1 p2 ch1 ch2 hnd.2 (fun i hi => hlen i (List.mem_cons_of_mem _ hi))
                      hdates
                  · have e1 : importDatetimeColumnFromFile col row idx p1 pid =
                        (false, true,
                          "cannot set " ++ col ++ " for <code>" ++ cellRepr pid ++
                            "</code> (value has no date attribute)", p1) := by
                      unfold importDatetimeColumnFromFile
                      rw [hc]
                      dsimp only []
                      rw [if_pos hcv]
                    have hstep1 : dateColumnsLoop row pid ((idx, col) :: rest) p1 ch1 =
                        (p1, ch1,  true,
                          "cannot set " ++ col ++ " for <code>" ++ cellRepr pid ++
                            "</code> (value has no date attribute)") := by
                      simp only [dateColumnsLoop]; rw [e1]; simp
                    rw [hstep1] at hdates
                    have hc2 : p2.dates.getD idx none = p1.dates.getD idx none := by
                      rw [hdates]
                    have e2 : importDatetimeColumnFromFile col row idx p2 pid =
                        (false, true,
                          "cannot set " ++ col ++ " for <code>" ++ cellRepr pid ++
                            "</code> (value has no date attribute)", p2) := by
                      unfold importDatetimeColumnFromFile
                      rw [hc]
                      dsimp only []
                      rw [if_pos (by rw [hc2]; exact hcv)]
                    have hstep2 : dateColumnsLoop row pid ((idx, col) :: rest) p2 ch2 =
                        (p2, ch2, true,
                          "cannot set " ++ col ++ " for <code>" ++ cellRepr pid ++
                            "</code> (value has no date attribute)") := by
                      simp only [dateColumnsLoop]; rw [e2]; simp
                    rw [hstep1, hstep2]
                    exact ⟨rfl, rfl, rfl, rfl⟩
              | other =>
                  by_cases hcv : p1.dates.getD idx none = none
                  · have e1 : importDatetimeColumnFromFile col row idx p1 pid =
                        (false, false, "", p1) := by
                      unfold importDatetimeColumnFromFile
                      rw [hc]
                      dsimp only []
                      rw [if_neg (by rw [hcv]; simp)]
                    have hstep1 : dateColumnsLoop row pid ((idx, col) :: rest) p1 ch1 =
                        dateColumnsLoop row pid rest p1 ch1 := by
                      simp only [dateColumnsLoop]; rw [e1]; simp
                    rw [hstep1] at hdates
                    have hc2 : p2.dates.getD idx none = none := by
                      rw [hdates, dateColumnsLoop_dates_frame row pid rest p1 ch1 idx hnd.1,
                        hcv]
                    have e2 : importDatetimeColumnFromFile col row idx p2 pid =
                        (false, false, "", p2) := by
                      unfold importDatetimeColumnFromFile
                      rw [hc]
                      dsimp only []
                      rw [if_neg (by rw [hc2]; simp)]
                    have hstep2 : dateColumnsLoop row pid ((idx, col) :: rest) p2 ch2 =
                        dateColumnsLoop row pid rest p2 ch2 := by
                      simp only [dateColumnsLoop]; rw [e2]; simp
                    rw [hstep1, hstep2]
                    exact ih p1 p2 ch1 ch2 hnd.2 (fun i hi => hlen i (List.mem_cons_of_mem _ hi))
                      hdates
                  · have e1 : importDatetimeColumnFromFile col row idx p1 pid =
                        (false, true,
                          "cannot set " ++ col ++ " for <code>" ++ cellRepr pid ++
                            "</code> (value has no date attribute)", p1) := by
                      unfold importDatetimeColumnFromFile
                      rw [hc]
                      dsimp only []
                      rw [if_pos hcv]
                    have hstep1 : dateColumnsLoop row pid ((idx, col) :: rest) p1 ch1 =
                        (p1, ch1,  true,
                          "cannot set " ++ col ++ " for <code>" ++ cellRepr pid ++
                            "</code> (value has no date attribute)") := by
                      simp only [dateColumnsLoop]; rw [e1]; simp
                    rw [hstep1] at hdates
                    have hc2 : p2.dates.getD idx none = p1.dates.getD idx none := by
                      rw [hdates]
                    have e2 : importDatetimeColumnFromFile col row idx p2 pid =
                        (false, true,
                          "cannot set " ++ col ++ " for <code>" ++ cellRepr pid ++
                            "</code> (value has no date attribute)", p2) := by
                      unfold importDatetimeColumnFromFile
                      rw [hc]
                      dsimp only []
                      rw [if_pos (by rw [hc2]; exact hcv)]
                    have hstep2 : dateColumnsLoop row pid ((idx, col) :: rest) p2 ch2 =
                        (p2, ch2, true,
                          "cannot set " ++ col ++ " for <code>" ++ cellRepr pid ++
                            "</code> (value has no date attribute)") := by
                      simp only [dateColumnsLoop]; rw [e2]; simp
                    rw [hstep1, hstep2]
                    exact ⟨rfl, rfl, rfl, rfl⟩

/-- Well-formedness of the datastore for the date-column loop: every stored
record carries the nine lifecycle date attributes. -/
def dbWF (db : DB) : Prop := ∀ q ∈ db.products, 9 ≤ q.dates.length

theorem find?_map_frame (p : Product) (q : CellValue) (hne : p.product_id ≠ q) :
    ∀ l : List Product,
      (l.map (fun e => if e.product_id == p.product_id then p else e)).find?
        (fun e => e.product_id == q) = l.find? (fun e => e.product_id == q) := by
  intro l
  induction l with
  | nil => rfl
  | cons a as ih =>
      rw [List.map_cons]
      have hpa : (p.product_id == q) = false := by simpa using hne
      by_cases ha : (a.product_id == p.product_id) = true
      · rw [if_pos ha]
        have haq : (a.product_id == q) = false := by
          have h2 : a.product_id = p.product_id := by simpa using ha
          rw [h2]; exact hpa
        simp only [List.find?, hpa, haq]
        exact ih
      · rw [if_neg ha]
        by_cases hq : (a.product_id == q) = true
        · simp only [List.find?, hq]
        · have hq2 : (a.product_id == q) = false := by simpa using hq
          simp only [List.find?, hq2]
          exact ih

theorem productById_save_other (db : DB) (p : Product) (q : CellValue)
    (hne : p.product_id ≠ q) :
    productById (saveProduct db p) q = productById db q := by
  unfold productById saveProduct
  exact find?_map_frame p q hne db.products

theorem getOrCreate_other (db : DB) (pid q : CellValue) (hne : pid ≠ q) :
    productById (getOrCreateProduct db pid).2.2 q = productById db q := by
  unfold getOrCreateProduct
  cases hp : productById db pid with
  | some p => rfl
  | none =>
      dsimp only []
      unfold productById
      rw [List.find?_append]
      have h0 : List.find? (fun p => p.product_id == q) [defaultProduct pid] = none := by
        have hb : (pid == q) = false := by simpa using hne
        simp [List.find?, defaultProduct, hb]
      rw [h0, Option.or_none]

theorem saveProduct_WF (db : DB) (p : Product) (h : dbWF db) (hp : 9 ≤ p.dates.length) :
    dbWF (saveProduct db p) := by
  intro q hq
  unfold saveProduct at hq
  rw [List.mem_map] at hq
  rcases hq with ⟨e, he, hfe⟩
  by_cases hcond : (e.product_id == p.product_id) = true
  · rw [if_pos hcond] at hfe
    rw [← hfe]
    exact hp
  · rw [if_neg hcond] at hfe
    rw [← hfe]
    exact h e he

theorem getOrCreate_WF (db : DB) (pid : CellValue) (h : dbWF db) :
    9 ≤ (getOrCreateProduct db pid).1.dates.length ∧ dbWF (getOrCreateProduct db pid).2.2 := by
  unfold getOrCreateProduct
  cases hp : productById db pid with
  | some p =>
      dsimp only []
      unfold productById at hp
      exact ⟨h p (List.mem_of_find?_eq_some hp), h⟩
  | none =>
      dsimp only []
      constructor
      · show 9 ≤ (defaultProduct pid).dates.length
        simp [defaultProduct]
      · intro q hq
        simp only [List.mem_append, List.mem_singleton] at hq
        rcases hq with hq | hq
        · exact h q hq
        · rw [hq]
          simp [defaultProduct]

theorem processFound_vendors (db0 : DB) (s : Session) (row : Row) (pid : CellValue)
    (p0 : Product) (created : Bool) :
    (processFound db0 s row pid p0 created).1.vendors = db0.vendors := by
  unfold processFound
  dsimp only []
  rw [finishRow_db]
  split <;> rfl

theorem processFound_products_frame (db0 : DB) (s : Session) (row : Row) (pid : CellValue)
    (p0 : Product) (created : Bool) (q : CellValue) (hne : p0.product_id ≠ q) :
    productById (processFound db0 s row pid p0 created).1 q = productById db0 q := by
  unfold processFound
  dsimp only []
  rw [finishRow_db]
  split
  · rw [productById_save_other]
    · rfl
    · obtain ⟨ds, hds⟩ := dateColumnsLoop_p_shape row pid dateMap
        (mainFieldBlocks db0.vendors row created ⟨db0.groups, p0, created, none⟩).p
        (mainFieldBlocks db0.vendors row created ⟨db0.groups, p0, created, none⟩).changed
      rw [hds]
      show (mainFieldBlocks db0.vendors row created ⟨db0.groups, p0, created, none⟩).p.product_id
        ≠ q
      rw [(mainFieldBlocks_pid_dates db0.vendors row created ⟨db0.groups, p0, created, none⟩).1]
      exact hne
  · rfl

theorem processFound_WF (db0 : DB) (s : Session) (row : Row) (pid : CellValue)
    (p0 : Product) (created : Bool) (hdb : dbWF db0) (hp0 : 9 ≤ p0.dates.length) :
    dbWF (processFound db0 s row pid p0 created).1 := by
  unfold processFound
  dsimp only []
  rw [finishRow_db]
  split
  · apply saveProduct_WF
    · intro q hq
      exact hdb q hq
    · rw [dateColumnsLoop_dates_len,
        (mainFieldBlocks_pid_dates db0.vendors row created ⟨db0.groups, p0, created, none⟩).2]
      exact hp0
  · intro q hq
    exact hdb q hq

theorem processRow_vendors (uo : Bool) (db : DB) (s : Session) (row : Row) :
    (processRow uo db s row).1.vendors = db.vendors := by
  cases hc : getCell row colProductId with
  | none => rw [show processRow uo db s row = (db, s, false) by simp [processRow, hc]]
  | some c =>
      cases c with
      | none => rw [show processRow uo db s row = (db, s, false) by simp [processRow, hc]]
      | some pid =>
          cases uo with
          | true =>
              cases hp : productById db pid with
              | none =>
                  rw [show processRow true db s row = (db, s, false) by
                    simp [processRow, hc, hp]]
              | some p =>
                  rw [show processRow true db s row = processFound db s row pid p false by
                    simp [processRow, hc, hp]]
                  exact processFound_vendors db s row pid p false
          | false =>
              rw [show processRow false db s row =
                  processFound (getOrCreateProduct db pid).2.2 s row pid
                    (getOrCreateProduct db pid).1 (getOrCreateProduct db pid).2.1 by
                simp [processRow, hc]]
              rw [processFound_vendors]
              exact getOrCreate_vendors db pid

theorem processRow_products_frame (db : DB) (s : Session) (row : Row) (q : CellValue)
    (hno : ∀ c, getCell row colProductId = some (some c) → c ≠ q) :
    productById (processRow false db s row).1 q = productById db q := by
  cases hc : getCell row colProductId with
  | none => rw [show processRow false db s row = (db, s, false) by simp [processRow, hc]]
  | some c =>
      cases c with
      | none => rw [show processRow false db s row = (db, s, false) by simp [processRow, hc]]
      | some pid =>
          have hne := hno pid hc
          rw [show processRow false db s row =
              processFound (getOrCreateProduct db pid).2.2 s row pid
                (getOrCreateProduct db pid).1 (getOrCreateProduct db pid).2.1 by
            simp [processRow, hc]]
          rw [processFound_products_frame _ _ _ _ _ _ q
            (by rw [getOrCreate_pid db pid]; exact hne)]
          exact getOrCreate_other db pid q hne

theorem processRow_WF (uo : Bool) (db : DB) (s : Session) (row : Row) (h : dbWF db) :
    dbWF (processRow uo db s row).1 := by
  cases hc : getCell row colProductId with
  | none => rw [show processRow uo db s row = (db, s, false) by simp [processRow, hc]]; exact h
  | some c =>
      cases c with
      | none =>
          rw [show processRow uo db s row = (db, s, false) by simp [processRow, hc]]
          exact h
      | some pid =>
          cases uo with
          | true =>
              cases hp : productById db pid with
              | none =>
                  rw [show processRow true db s row = (db, s, false) by
                    simp [processRow, hc, hp]]
                  exact h
              | some p =>
                  rw [show processRow true db s row = processFound db s row pid p false by
                    simp [processRow, hc, hp]]
                  apply processFound_WF db s row pid p false h
                  unfold productById at hp
                  exact h p (List.mem_of_find?_eq_some hp)
          | false =>
              rw [show processRow false db s row =
                  processFound (getOrCreateProduct db pid).2.2 s row pid
                    (getOrCreateProduct db pid).1 (getOrCreateProduct db pid).2.1 by
                simp [processRow, hc]]
              obtain ⟨hlen, hwf⟩ := getOrCreate_WF db pid h
              exact processFound_WF _ s row pid _ _ hwf hlen

theorem dateMap_nodup : (dateMap.map Prod.fst).Nodup := by decide

theorem dateMap_lt : ∀ i ∈ dateMap.map Prod.fst, i < 9 := by decide

theorem processRow_second (db dbB : DB) (s t : Session) (row : Row) (pid : CellValue)
    (hpid : getCell row colProductId = some (some pid))
    (hWF : dbWF db)
    (hsent : (vendorNameOf db.vendors 0).isSome = true)
    (hnodup : (db.vendors.map Prod.fst).Nodup)
    (hvnd : dbB.vendors = db.vendors)
    (hentry : productById dbB pid = productById (processRow false db s row).1 pid)
    (hinv : t.invalid = s.invalid) :
    (processRow false dbB t row).1 = dbB ∧
    (processRow false dbB t row).2.1.valid = t.valid ∧
    (processRow false dbB t row).2.1.revisions = t.revisions ∧
    (processRow false dbB t row).2.1.invalid = (processRow false db s row).2.1.invalid ∧
    (processRow false dbB t row).2.2 = (processRow false db s row).2.2 ∧
    (∃ tail, (processRow false dbB t row).2.1.outcomes =
        t.outcomes ++ Outcome.unchanged :: tail ∧
      ∀ o ∈ tail, o = Outcome.rejected ∨ o = Outcome.terminal) ∧
    (∃ mtail, (processRow false dbB t row).2.1.messages =
        t.messages ++ unchangedMsgFor pid :: mtail) := by
  have heq1 : processRow false db s row =
      processFound (getOrCreateProduct db pid).2.2 s row pid (getOrCreateProduct db pid).1
        (getOrCreateProduct db pid).2.1 := by
    simp [processRow, hpid]
  set db0 := (getOrCreateProduct db pid).2.2 with hdb0
  set p0 := (getOrCreateProduct db pid).1 with hp0
  set created1 := (getOrCreateProduct db pid).2.1 with hcreated
  have hv0 : db0.vendors = db.vendors := getOrCreate_vendors db pid
  have hpid0 : p0.product_id = pid := getOrCreate_pid db pid
  have hmem0 : productById db0 pid = some p0 := getOrCreate_mem db pid
  have hlen0 : 9 ≤ p0.dates.length := (getOrCreate_WF db pid hWF).1
  set x1 : FSt := ⟨db0.groups, p0, created1, none⟩ with hx1
  set stM1 := mainFieldBlocks db.vendors row created1 x1 with hstM1
  set dres1 := dateColumnsLoop row pid dateMap stM1.p stM1.changed with hdres1
  have hPF1 : processFound db0 s row pid p0 created1 =
      finishRow { db0 with groups := stM1.groups } dres1.1 pid created1 dres1.2.1
        (stM1.err.isSome || dres1.2.2.1)
        (if dres1.2.2.1 then dres1.2.2.2
         else match stM1.err with
              | some ke => faultyMsgFor pid ke
              | none => "import successful") s := by
    unfold processFound
    rw [hv0]
  have hsave1 : productById (processRow false db s row).1 pid =
      some (if dres1.2.1 = true then dres1.1 else p0) := by
    rw [heq1, hPF1, finishRow_db]
    by_cases hch : dres1.2.1 = true
    · rw [if_pos hch, if_pos hch]
      have hpid2 : dres1.1.product_id = pid := by
        obtain ⟨ds, hds⟩ := dateColumnsLoop_p_shape row pid dateMap stM1.p stM1.changed
        rw [hdres1, hds]
        show stM1.p.product_id = pid
        rw [hstM1, (mainFieldBlocks_pid_dates db.vendors row created1 x1).1]
        exact hpid0
      apply productById_save_self _ _ _ hpid2
      show (productById { db0 with groups := stM1.groups } pid).isSome = true
      have hsame : productById { db0 with groups := stM1.groups } pid =
          productById db0 pid := rfl
      rw [hsame, hmem0]
      rfl
    · rw [if_neg hch, if_neg hch]
      show productById { db0 with groups := stM1.groups } pid = some p0
      have hsame : productById { db0 with groups := stM1.groups } pid =
          productById db0 pid := rfl
      rw [hsame, hmem0]
  set pA := if dres1.2.1 = true then dres1.1 else p0 with hpA
  have hfound2 : productById dbB pid = some pA := hentry.trans hsave1
  have heq2 : processRow false dbB t row = processFound dbB t row pid pA false := by
    simp [processRow, hpid, getOrCreate_of_found dbB pid pA hfound2]
  set x2 : FSt := ⟨dbB.groups, pA, false, none⟩ with hx2
  set stM2 := mainFieldBlocks db.vendors row false x2 with hstM2
  set dres2 := dateColumnsLoop row pid dateMap stM2.p stM2.changed with hdres2
  have hPF2 : processFound dbB t row pid pA false =
      finishRow { dbB with groups := stM2.groups } dres2.1 pid false dres2.2.1
        (stM2.err.isSome || dres2.2.2.1)
        (if dres2.2.2.1 then dres2.2.2.2
         else match stM2.err with
              | some ke => faultyMsgFor pid ke
              | none => "import successful") t := by
    unfold processFound
    rw [hvnd]
  have hfields :
      pA.description = stM1.p.description ∧
      pA.list_price = stM1.p.list_price ∧
      pA.currency = stM1.p.currency ∧
      pA.vendor = stM1.p.vendor ∧
      pA.product_group = stM1.p.product_group ∧
      pA.eol_reference_url = stM1.p.eol_reference_url ∧
      pA.internal_product_id = stM1.p.internal_product_id := by
    by_cases hch : dres1.2.1 = true
    · rw [hpA, if_pos hch]
      obtain ⟨ds, hds⟩ := dateColumnsLoop_p_shape row pid dateMap stM1.p stM1.changed
      rw [hdres1, hds]
      exact ⟨rfl, rfl, rfl, rfl, rfl, rfl, rfl⟩
    · have hch2 : dres1.2.1 = false := by simpa using hch
      have hch3 := hch2
      rw [hdres1] at hch3
      have hm0 : stM1.changed = false := by
        rw [hstM1]
        exact dateColumnsLoop_changed_mono row pid dateMap stM1.p stM1.changed hch3
      obtain ⟨f1, f2, f3, f4, f5, f6, f7⟩ :=
        mainFieldBlocks_p_of_unchanged db.vendors row created1 x1 (by rw [← hstM1]; exact hm0)
      rw [hpA, if_neg hch, hstM1]
      exact ⟨f1.symm, f2.symm, f3.symm, f4.symm, f5.symm, f6.symm, f7.symm⟩
  have hmain := mainFieldBlocks_second db.vendors row created1 x1 x2 hnodup hsent rfl rfl
    (fun _ => hfields.1) (fun _ => hfields.2.1) (fun _ => hfields.2.2.1)
    (fun _ => hfields.2.2.2.1) (fun _ => hfields.2.2.2.2.1) (fun _ => hfields.2.2.2.2.2.1)
    (fun _ => hfields.2.2.2.2.2.2)
  have hmerr : stM2.err = stM1.err := by rw [hstM2, hstM1]; exact hmain.1
  have hmch : stM2.changed = false := by rw [hstM2]; exact hmain.2.1
  have hmgr : stM2.groups = dbB.groups := by rw [hstM2]; exact hmain.2.2.1
  have hmda : stM2.p.dates = pA.dates := by rw [hstM2]; exact hmain.2.2.2.1
  have hd2hyp : stM2.p.dates = (dateColumnsLoop row pid dateMap stM1.p stM1.changed).1.dates := by
    rw [hmda]
    by_cases hch : dres1.2.1 = true
    · rw [hpA, if_pos hch, hdres1]
    · have hch2 : dres1.2.1 = false := by simpa using hch
      have hch3 := hch2
      rw [hdres1] at hch3
      rw [hpA, if_neg hch, dateColumnsLoop_unchanged row pid dateMap stM1.p stM1.changed hch3]
      rw [hstM1, (mainFieldBlocks_pid_dates db.vendors row created1 x1).2]
  have hlen1 : ∀ i ∈ dateMap.map Prod.fst, i < stM1.p.dates.length := by
    intro i hi
    have h9 := dateMap_lt i hi
    have hsame : stM1.p.dates.length = p0.dates.length := by
      rw [hstM1, (mainFieldBlocks_pid_dates db.vendors row created1 x1).2]
    rw [hsame]
    omega
  obtain ⟨hl1, hl2, hl3, hl4⟩ := dateColumnsLoop_second row pid dateMap stM1.p stM2.p
    stM1.changed stM2.changed dateMap_nodup hlen1 hd2hyp
  have hdr1 : dres2.1 = stM2.p := by rw [hdres2]; exact hl1
  have hdr2 : dres2.2.1 = false := by rw [hdres2, hl2]; exact hmch
  have hdr3 : dres2.2.2.1 = dres1.2.2.1 := by rw [hdres2, hdres1]; exact hl3
  have hfau : (stM2.err.isSome || dres2.2.2.1) = (stM1.err.isSome || dres1.2.2.1) := by
    rw [hmerr, hdr3]
  rw [heq2, hPF2]
  refine ⟨?_, ?_, ?_, ?_, ?_, ?_, ?_⟩
  · rw [finishRow_db, hdr2]
    simp only [Bool.false_eq_true, if_false]
    rw [hmgr]
  · rw [finishRow_valid, hdr2]
    simp
  · rw [finishRow_revisions, hdr2]
    simp
  · rw [finishRow_invalid, heq1, hPF1, finishRow_invalid, hfau, hinv]
  · rw [finishRow_stop, heq1, hPF1, finishRow_stop, hfau, hinv]
  · rw [finishRow_outcomes, hdr2]
    refine ⟨(if (stM2.err.isSome || dres2.2.2.1) = true then
        Outcome.rejected :: (if t.invalid + 1 > 30 then [Outcome.terminal] else [])
      else []), ?_, ?_⟩
    · simp only [Bool.false_eq_true, if_false, List.append_assoc, List.singleton_append]
    · intro o ho
      by_cases hf : (stM2.err.isSome || dres2.2.2.1) = true
      · rw [if_pos hf] at ho
        rcases List.mem_cons.1 ho with h | h
        · left; exact h
        · right
          by_cases h30 : t.invalid + 1 > 30
          · rw [if_pos h30] at h
            simpa using h
          · rw [if_neg h30] at h
            cases h
      · rw [if_neg hf] at ho
        cases ho
  · rw [finishRow_messages, hdr2]
    simp only [Bool.false_eq_true, if_false, List.append_assoc, List.singleton_append]
    exact ⟨_, rfl⟩

theorem importRowsGo_vendors (uo : Bool) :
    ∀ (rows : List Row) (db : DB) (s : Session),
      (importRowsGo uo rows db s).1.vendors = db.vendors := by
  intro rows
  induction rows with
  | nil => intro db s; rfl
  | cons row rest ih =>
      intro db s
      by_cases hs : (processRow uo db s row).2.2 = true
      · have hgo : importRowsGo uo (row :: rest) db s =
            ((processRow uo db s row).1, (processRow uo db s row).2.1, 1) := by
          simp [importRowsGo, hs]
        rw [hgo]
        exact processRow_vendors uo db s row
      · have hsf : (processRow uo db s row).2.2 = false := by simpa using hs
        have hgo : (importRowsGo uo (row :: rest) db s).1 =
            (importRowsGo uo rest (processRow uo db s row).1 (processRow uo db s row).2.1).1 := by
          simp [importRowsGo, hsf]
        rw [hgo, ih, processRow_vendors uo db s row]

theorem importRowsGo_products_frame :
    ∀ (rows : List Row) (db : DB) (s : Session) (q : CellValue),
      (∀ r ∈ rows, ∀ c, getCell r colProductId = some (some c) → c ≠ q) →
      productById (importRowsGo false rows db s).1 q = productById db q := by
  intro rows
  induction rows with
  | nil => intro db s q _; rfl
  | cons row rest ih =>
      intro db s q hno
      by_cases hs : (processRow false db s row).2.2 = true
      · have hgo : importRowsGo false (row :: rest) db s =
            ((processRow false db s row).1, (processRow false db s row).2.1, 1) := by
          simp [importRowsGo, hs]
        rw [hgo]
        exact processRow_products_frame db s row q (hno row (List.mem_cons_self _ _))
      · have hsf : (processRow false db s row).2.2 = false := by simpa using hs
        have hgo : (importRowsGo false (row :: rest) db s).1 =
            (importRowsGo false rest (processRow false db s row).1
              (processRow false db s row).2.1).1 := by
          simp [importRowsGo, hsf]
        rw [hgo, ih _ _ q (fun r hr => hno r (List.mem_cons_of_mem _ hr)),
          processRow_products_frame db s row q (hno row (List.mem_cons_self _ _))]

theorem importRowsGo_WF (uo : Bool) :
    ∀ (rows : List Row) (db : DB) (s : Session), dbWF db →
      dbWF (importRowsGo uo rows db s).1 := by
  intro rows
  induction rows with
  | nil => intro db s h; exact h
  | cons row rest ih =>
      intro db s h
      by_cases hs : (processRow uo db s row).2.2 = true
      · have hgo : importRowsGo uo (row :: rest) db s =
            ((processRow uo db s row).1, (processRow uo db s row).2.1, 1) := by
          simp [importRowsGo, hs]
        rw [hgo]
        exact processRow_WF uo db s row h
      · have hsf : (processRow uo db s row).2.2 = false := by simpa using hs
        have hgo : (importRowsGo uo (row :: rest) db s).1 =
            (importRowsGo uo rest (processRow uo db s row).1 (processRow uo db s row).2.1).1 := by
          simp [importRowsGo, hsf]
        rw [hgo]
        exact ih _ _ (processRow_WF uo db s row h)

theorem importRowsGo_cons_stop (uo : Bool) (row : Row) (rest : List Row) (db : DB)
    (s : Session) (hs : (processRow uo db s row).2.2 = true) :
    importRowsGo uo (row :: rest) db s =
      ((processRow uo db s row).1, (processRow uo db s row).2.1, 1) := by
  simp [importRowsGo, hs]

theorem importRowsGo_cons_go (uo : Bool) (row : Row) (rest : List Row) (db : DB)
    (s : Session) (hs : (processRow uo db s row).2.2 = false) :
    importRowsGo uo (row :: rest) db s =
      ((importRowsGo uo rest (processRow uo db s row).1 (processRow uo db s row).2.1).1,
       (importRowsGo uo rest (processRow uo db s row).1 (processRow uo db s row).2.1).2.1,
       (importRowsGo uo rest (processRow uo db s row).1 (processRow uo db s row).2.1).2.2
         + 1) := by
  simp [importRowsGo, hs]

theorem importRowsGo_second :
    ∀ (rows : List Row) (db dbB : DB) (s t : Session),
      dbWF db →
      (vendorNameOf db.vendors 0).isSome = true →
      (db.vendors.map Prod.fst).Nodup →
      dbB.vendors = db.vendors →
      (∀ r ∈ rows, ∃ pid, getCell r colProductId = some (some pid)) →
      rows.Pairwise (fun r1 r2 => getCell r1 colProductId ≠ getCell r2 colProductId) →
      (∀ r ∈ rows, ∀ pid, getCell r colProductId = some (some pid) →
        productById dbB pid = productById (importRowsGo false rows db s).1 pid) →
      t.invalid = s.invalid →
      (importRowsGo false rows dbB t).1 = dbB ∧
      (importRowsGo false rows dbB t).2.1.valid = t.valid ∧
      (importRowsGo false rows dbB t).2.1.revisions = t.revisions ∧
      (importRowsGo false rows dbB t).2.1.invalid =
        (importRowsGo false rows db s).2.1.invalid ∧
      (importRowsGo false rows dbB t).2.2 = (importRowsGo false rows db s).2.2 ∧
      (∃ tail, (importRowsGo false rows dbB t).2.1.outcomes = t.outcomes ++ tail ∧
        tail.countP (fun o => o == Outcome.unchanged) = (importRowsGo false rows dbB t).2.2 ∧
        ∀ o ∈ tail, o = Outcome.unchanged ∨ o = Outcome.rejected ∨ o = Outcome.terminal) := by
  intro rows
  induction rows with
  | nil =>
      intro db dbB s t _ _ _ _ _ _ _ hinv
      exact ⟨rfl, rfl, rfl, hinv, rfl, [], by simp [importRowsGo], rfl, by intro o ho; cases ho⟩
  | cons row rest ih =>
      intro db dbB s t hWF hsent hnodup hvnd hpids hpair hentries hinv
      obtain ⟨pid, hpid⟩ := hpids row (List.mem_cons_self _ _)
      have hrest_ne : ∀ r ∈ rest, ∀ c, getCell r colProductId = some (some c) → c ≠ pid := by
        intro r hr c hc hceq
        have hne := (List.pairwise_cons.1 hpair).1 r hr
        apply hne
        rw [hpid, hc, hceq]
      have hentryA : productById dbB pid = productById (processRow false db s row).1 pid := by
        have h0 := hentries row (List.mem_cons_self _ _) pid hpid
        by_cases hs : (processRow false db s row).2.2 = true
        · rw [importRowsGo_cons_stop false row rest db s hs] at h0
          exact h0
        · have hsf : (processRow false db s row).2.2 = false := by simpa using hs
          rw [importRowsGo_cons_go false row rest db s hsf] at h0
          rw [h0]
          exact importRowsGo_products_frame rest _ _ pid hrest_ne
      obtain ⟨hA1, hA2, hA3, hA4, hA5, ⟨tailA, hAo, hAmem⟩, hAm⟩ :=
        processRow_second db dbB s t row pid hpid hWF hsent hnodup hvnd hentryA hinv
      have hzA : tailA.countP (fun o => o == Outcome.unchanged) = 0 := by
        rw [List.countP_eq_zero]
        intro a ha
        rcases hAmem a ha with h | h <;> subst h <;> decide
      by_cases hs : (processRow false db s row).2.2 = true
      · have hs2 : (processRow false dbB t row).2.2 = true := by rw [hA5]; exact hs
        rw [importRowsGo_cons_stop false row rest dbB t hs2,
          importRowsGo_cons_stop false row rest db s hs]
        refine ⟨hA1, hA2, hA3, hA4, rfl, Outcome.unchanged :: tailA, hAo, ?_, ?_⟩
        · simp [List.countP_cons, hzA]
        · intro o ho
          rcases List.mem_cons.1 ho with h | h
          · left; exact h
          · rcases hAmem o h with h2 | h2
            · right; left; exact h2
            · right; right; exact h2
      · have hsf : (processRow false db s row).2.2 = false := by simpa using hs
        have hs2 : (processRow false dbB t row).2.2 = false := by rw [hA5]; exact hsf
        rw [importRowsGo_cons_go false row rest dbB t hs2,
          importRowsGo_cons_go false row rest db s hsf, hA1]
        have hWF1 : dbWF (processRow false db s row).1 := processRow_WF false db s row hWF
        have hv1 : (processRow false db s row).1.vendors = db.vendors :=
          processRow_vendors false db s row
        have hentries2 : ∀ r ∈ rest, ∀ pid2, getCell r colProductId = some (some pid2) →
            productById dbB pid2 =
              productById (importRowsGo false rest (processRow false db s row).1
                (processRow false db s row).2.1).1 pid2 := by
          intro r hr pid2 hc
          have h0 := hentries r (List.mem_cons_of_mem _ hr) pid2 hc
          rw [importRowsGo_cons_go false row rest db s hsf] at h0
          exact h0
        obtain ⟨hI1, hI2, hI3, hI4, hI5, ⟨tailR, hIo, hIc, hImem⟩⟩ :=
          ih (processRow false db s row).1 dbB (processRow false db s row).2.1
            (processRow false dbB t row).2.1 hWF1
            (by rw [hv1]; exact hsent)
            (by rw [hv1]; exact hnodup)
            (by rw [hv1]; exact hvnd)
            (fun r hr => hpids r (List.mem_cons_of_mem _ hr))
            (List.pairwise_cons.1 hpair).2
            hentries2 hA4
        refine ⟨hI1, hI2.trans hA2, hI3.trans hA3, hI4, by rw [hI5],
          Outcome.unchanged :: (tailA ++ tailR), ?_, ?_, ?_⟩
        · rw [hIo, hAo]
          simp only [List.append_assoc, List.cons_append]
        · rw [List.countP_cons, List.countP_append, hzA, hIc]
          simp
        · intro o ho
          rcases List.mem_cons.1 ho with h | h
          · left; exact h
          · rcases List.mem_append.1 h with h2 | h2
            · rcases hAmem o h2 with h3 | h3
              · right; left; exact h3
              · right; right; exact h3
            · exact hImem o h2

/-- An empty catalog holding only the sentinel vendor, for the round-trip
examples. -/
def dbC10 : DB := ⟨[], [(0, "unassigned")], []⟩

/-- A product-sheet row for product "P" with description "a", a null list
price and a null vendor. -/
def rowC10a : Row :=
  [(colProductId, some (.str "P")), (colDescription, some (.str "a")),
   (colListPrice, none), (colVendor, none)]

/-- A second row for the same product "P" with a different description. -/
def rowC10b : Row :=
  [(colProductId, some (.str "P")), (colDescription, some (.str "b")),
   (colListPrice, none), (colVendor, none)]

/-- A row for a distinct product "Q". -/
def rowW10b : Row :=
  [(colProductId, some (.str "Q")), (colDescription, some (.str "b")),
   (colListPrice, none), (colVendor, none)]

/-- A file whose two rows share the product id "P". -/
def rowsC10 : List Row := [rowC10a, rowC10b]

/-- A file with two rows for the distinct products "P" and "Q". -/
def rowsW10 : List Row := [rowC10a, rowW10b]

/-- C10, counterexample to the literal claim: importing the same file twice
does not always yield zero valid rows on the second run.  When two rows of the
file share a product id and disagree on a field, every run flips the stored
record back and forth, so the second run still counts two valid (saved) rows
instead of zero. -/
theorem c10_counterexample :
    (productImport (productImport dbC10 rowsC10 false).1 rowsC10 false).2.1.valid = 2 := by
  decide

/-- C10 (amended): importing the same product file twice with the catalog
otherwise untouched between the runs is idempotent under the side conditions
that every row carries a product id, no two rows of the file share one, the
vendor ids are unique with the sentinel vendor 0 present, and every stored
record carries the nine date attributes.  The second run then writes nothing:
the datastore is returned unchanged, the valid counter and the revision count
stay zero, the run consumes as many rows as the first and stops in the same
way, the invalid counter of the second run equals that of the first, every
consumed row reports exactly one unchanged outcome (their count equals the
number of consumed rows), and no created or updated outcome occurs. -/
theorem c10_reimport_round_trip (db : DB) (rows : List Row)
    (hWF : ∀ q ∈ db.products, 9 ≤ q.dates.length)
    (hsent : (vendorNameOf db.vendors 0).isSome = true)
    (hnodup : (db.vendors.map Prod.fst).Nodup)
    (hpids : ∀ r ∈ rows, ∃ pid, getCell r colProductId = some (some pid))
    (hdistinct : rows.Pairwise
      (fun r1 r2 => getCell r1 colProductId ≠ getCell r2 colProductId)) :
    (productImport (productImport db rows false).1 rows false).1 =
      (productImport db rows false).1 ∧
    (productImport (productImport db rows false).1 rows false).2.1.valid = 0 ∧
    (productImport (productImport db rows false).1 rows false).2.1.revisions = 0 ∧
    (productImport (productImport db rows false).1 rows false).2.1.invalid =
      (productImport db rows false).2.1.invalid ∧
    (productImport (productImport db rows false).1 rows false).2.2 =
      (productImport db rows false).2.2 ∧
    (productImport (productImport db rows false).1 rows false).2.1.outcomes.countP
        (fun o => o == Outcome.unchanged) =
      (productImport (productImport db rows false).1 rows false).2.2 ∧
    (∀ o ∈ (productImport (productImport db rows false).1 rows false).2.1.outcomes,
      o.isSave = false) := by
  unfold productImport
  have hvnd : (importRowsGo false rows db emptySession).1.vendors = db.vendors :=
    importRowsGo_vendors false rows db emptySession
  obtain ⟨h1, h2, h3, h4, h5, tail, ho, hc, hm⟩ :=
    importRowsGo_second rows db (importRowsGo false rows db emptySession).1 emptySession
      emptySession hWF hsent hnodup hvnd hpids hdistinct
      (fun r hr pid hp => rfl) rfl
  refine ⟨h1, h2, h3, h4, h5, ?_, ?_⟩
  · rw [ho]
    simpa [emptySession] using hc
  · intro o hoo
    rw [ho] at hoo
    simp only [emptySession, List.nil_append] at hoo
    rcases hm o hoo with h | h | h <;> subst h <;> rfl

/-- Witness for C10 at a concrete input: a fresh catalog with the sentinel
vendor and a two-row file with distinct product ids "P" and "Q"; the
second import leaves the datastore unchanged with zero valid rows and the
same (zero) invalid count. -/
theorem c10_reimport_round_trip_witness :
    (∀ q ∈ dbC10.products, 9 ≤ q.dates.length) ∧
    (vendorNameOf dbC10.vendors 0).isSome = true ∧
    (productImport (productImport dbC10 rowsW10 false).1 rowsW10 false).1 =
      (productImport dbC10 rowsW10 false).1 ∧
    (productImport (productImport dbC10 rowsW10 false).1 rowsW10 false).2.1.valid = 0 ∧
    (productImport (productImport dbC10 rowsW10 false).1 rowsW10 false).2.1.revisions = 0 ∧
    (productImport (productImport dbC10 rowsW10 false).1 rowsW10 false).2.1.invalid =
      (productImport dbC10 rowsW10 false).2.1.invalid := by
  have h := c10_reimport_round_trip dbC10 rowsW10
    (by intro q hq; simp [dbC10] at hq)
    (by decide) (by decide)
    (by
      intro r hr
      fin_cases hr
      · exact ⟨CellValue.str "P", rfl⟩
      · exact ⟨CellValue.str "Q", rfl⟩)
    (by decide)
  exact ⟨by intro q hq; simp [dbC10] at hq, by decide, h.1, h.2.1, h.2.2.1, h.2.2.2.1⟩
